import Mathlib

/-! Engine.Core.Math: FloatComparator, Vector2, Vector3, Vector4.

Shallow embedding of `src/core/math/FloatComparator.h`, `Vector2.h`, `Vector3.h`
and `Vector4.h`.

Modelling conventions.

* The source is embedded under two scalar models.  In the first the scalar kind `T` of
  the C++ templates is an arbitrary linearly ordered field (exact arithmetic, without
  rounding, infinities or NaN); every definition is computable and can be evaluated at
  `T := ℚ`.  A statement proved in this model is a statement about exact arithmetic,
  and says so.  In the second, the namespace `IEEE`, the scalar kind is `double`:
  `F64` is IEEE-754 binary64 with round-to-nearest, ties to even, signed zeros,
  infinities and NaN, each operation rounded on its own, and the same source lines are
  evaluated on concrete inputs.
* `std::numeric_limits<T>::epsilon()` (the private class constant `epsilon`) belongs to
  the standard library, so it is the explicit parameter `eps` of every function that
  reads it.  `epsilonF32` and `epsilonF64` are its values for `float` and `double`.
* `std::sqrt`, `std::acos`, `std::atan2` and the stream insertion of a scalar are
  explicit function parameters of every function that calls them; `IsSqrt`, `IsAcos`,
  `IsAtan2` and `fixedPoint` state what the standard library provides in exact
  arithmetic.  In the namespace `IEEE`, `std::sqrt` is the correctly rounded `F64.sqrt`,
  and `IEEE.IsAtan2` and `IEEE.IsAcos` state the results the C standard fixes at zero
  and out-of-domain arguments.
* `assert(...)` is compiled out (`NDEBUG`): the embedded functions follow the
  production path of `operator/` and `operator/=`.
* A mutating member function is the function from the value of `*this` before the call
  to the value of `*this` after the call.
-/

namespace Engine.Core.Math

/-! ## Standard-library constants -/

/-- Value of `std::numeric_limits<float>::epsilon()`, namely `2^-23`. -/
def epsilonF32 : ℚ := 1 / 2 ^ 23

/-- Value of `std::numeric_limits<double>::epsilon()`, namely `2^-52`. -/
def epsilonF64 : ℚ := 1 / 2 ^ 52

/-! ## FloatComparator.h -/

/-- Embedding of `struct FloatComparator<T>`: one field, the relative epsilon. -/
structure FloatComparator (T : Type) where
  epsilon : T

/-- Embedding of `FloatComparator<T>::Compare` (FloatComparator.h, lines 39-49). -/
def FloatComparator.Compare {T : Type} [LinearOrderedField T]
    (c : FloatComparator T) (lhs rhs : T) : Bool :=
  let diff := |lhs - rhs|
  let max := Max.max |lhs| |rhs|
  if max = 0 then true
  else decide (diff < max * c.epsilon)

/-! ## Vector2.h -/

/-- Embedding of `class Vector2<T>`: the two public fields. -/
structure Vector2 (T : Type) where
  x : T
  y : T
deriving DecidableEq

namespace Vector2

variable {T : Type} [LinearOrderedField T]

/-- Default constructor `Vector2<T>()`: both components zero. -/
def ctor : Vector2 T := ⟨0, 0⟩

/-- Embedding of `Vector2<T>::operator+`. -/
def opAdd (self v : Vector2 T) : Vector2 T := ⟨self.x + v.x, self.y + v.y⟩

/-- Embedding of `Vector2<T>::operator-` (binary). -/
def opSub (self v : Vector2 T) : Vector2 T := ⟨self.x - v.x, self.y - v.y⟩

/-- Embedding of `Vector2<T>::operator*(T scalar)`. -/
def opMul (self : Vector2 T) (scalar : T) : Vector2 T := ⟨self.x * scalar, self.y * scalar⟩

/-- Embedding of the free `operator*(T scalar, const Vector2<T>& v)`. -/
def opMulLeft (scalar : T) (v : Vector2 T) : Vector2 T := ⟨v.x * scalar, v.y * scalar⟩

/-- Embedding of `Vector2<T>::operator/` (lines 185-193), production path. -/
def opDiv (eps : T) (self : Vector2 T) (scalar : T) : Vector2 T :=
  if |scalar| > eps then ⟨self.x / scalar, self.y / scalar⟩
  else ctor

/-- Embedding of `Vector2<T>::operator/=` (lines 225-235), production path. -/
def opDivAssign (eps : T) (self : Vector2 T) (scalar : T) : Vector2 T :=
  if |scalar| > eps then ⟨self.x / scalar, self.y / scalar⟩
  else ⟨0, 0⟩

/-- Embedding of `Vector2<T>::operator==` (lines 237-242). -/
def opEq (eps : T) (self v : Vector2 T) : Bool :=
  let comparator : FloatComparator T := ⟨5 * eps⟩
  comparator.Compare self.x v.x && comparator.Compare self.y v.y

/-- Embedding of `Vector2<T>::operator!=` (lines 244-249). -/
def opNe (eps : T) (self v : Vector2 T) : Bool :=
  let comparator : FloatComparator T := ⟨5 * eps⟩
  !comparator.Compare self.x v.x || !comparator.Compare self.y v.y

/-- Embedding of `Vector2<T>::LengthSquared`. -/
def LengthSquared (self : Vector2 T) : T := self.x * self.x + self.y * self.y

/-- Embedding of `Vector2<T>::Length`. -/
def Length (sqrt : T → T) (self : Vector2 T) : T := sqrt (self.x * self.x + self.y * self.y)

/-- Embedding of `Vector2<T>::Normalized` (lines 263-268). -/
def Normalized (sqrt : T → T) (eps : T) (self : Vector2 T) : Vector2 T :=
  let length := self.Length sqrt
  if length > eps then self.opDiv eps length else ctor

/-- Embedding of `Vector2<T>::Normalize` (lines 270-279). -/
def Normalize (sqrt : T → T) (eps : T) (self : Vector2 T) : Vector2 T :=
  let length := self.Length sqrt
  if length > eps then self.opDivAssign eps length else ctor

/-- Embedding of `Vector2<T>::Dot`. -/
def Dot (self v : Vector2 T) : T := self.x * v.x + self.y * v.y

/-- Embedding of `Vector2<T>::Projected` (lines 313-320): the quotient
`Dot(v) / lengthSquared` is a scalar division. -/
def Projected (eps : T) (self v : Vector2 T) : Vector2 T :=
  let lengthSquared := v.LengthSquared
  if lengthSquared < eps then ctor
  else v.opMul (self.Dot v / lengthSquared)

/-- Embedding of `Vector2<T>::Project` (lines 322-331): `v * Dot(v) / lengthSquared`
parses as `(v * Dot(v)) / lengthSquared`, the vector `operator/`. -/
def Project (eps : T) (self v : Vector2 T) : Vector2 T :=
  let lengthSquared := v.LengthSquared
  if lengthSquared < eps then ctor
  else (v.opMul (self.Dot v)).opDiv eps lengthSquared

/-- Embedding of `Vector2<T>::Reflected` (lines 339-344). -/
def Reflected (sqrt : T → T) (eps : T) (self normal : Vector2 T) : Vector2 T :=
  let n := normal.Normalized sqrt eps
  self.opSub (opMulLeft (2 * self.Dot n) n)

/-- Embedding of `Vector2<T>::Cross` (lines 287-291): the scalar 2D cross product. -/
def Cross (self v : Vector2 T) : T := self.x * v.y - self.y * v.x

/-- Embedding of `Vector2<T>::Perpendicular` (lines 293-297). -/
def Perpendicular (self : Vector2 T) (clockwise : Bool) : Vector2 T :=
  if clockwise then ⟨-self.y, self.x⟩ else ⟨self.y, -self.x⟩

/-- Embedding of `Vector2<T>::AngleTo` (lines 299-305); `std::atan2` is the parameter
`atan2`, applied to `det` first and `dot` second as in the source. -/
def AngleTo (atan2 : T → T → T) (self v : Vector2 T) : T :=
  let dot := self.Dot v
  let det := self.Cross v
  atan2 det dot

/-- Embedding of `Vector2<T>::Lerp` (lines 333-337): both products are the free
`operator*(T, const Vector2<T>&)`. -/
def Lerp (self v : Vector2 T) (t : T) : Vector2 T :=
  (opMulLeft (1 - t) self).opAdd (opMulLeft t v)

/-- Embedding of `Vector2<T>::operator+=` (lines 201-207). -/
def opAddAssign (self v : Vector2 T) : Vector2 T := ⟨self.x + v.x, self.y + v.y⟩

/-- Embedding of `Vector2<T>::operator-=` (lines 209-215). -/
def opSubAssign (self v : Vector2 T) : Vector2 T := ⟨self.x - v.x, self.y - v.y⟩

/-- Embedding of `Vector2<T>::operator*=` (lines 217-223). -/
def opMulAssign (self : Vector2 T) (scalar : T) : Vector2 T :=
  ⟨self.x * scalar, self.y * scalar⟩

/-- Embedding of `Vector2<T>::Reflect` (lines 346-352): `Dot(n)` reads `*this` before
the compound assignment writes it. -/
def Reflect (sqrt : T → T) (eps : T) (self normal : Vector2 T) : Vector2 T :=
  let n := normal.Normalized sqrt eps
  self.opSubAssign (opMulLeft (2 * self.Dot n) n)

/-- Embedding of `Vector2<T>::DistanceTo` (lines 307-311). -/
def DistanceTo (sqrt : T → T) (self v : Vector2 T) : T := (self.opSub v).Length sqrt

/-- Embedding of `Vector2<T>::ToString` (lines 396-403).  The stream insertion of one
scalar under `std::fixed` and `std::setprecision(precision)` is the parameter `fixed`;
the declared default of `precision` is `2`. -/
def ToString (fixed : Int → T → String) (precision : Int) (self : Vector2 T) : String :=
  "(" ++ fixed precision self.x ++ ", " ++ fixed precision self.y ++ ")"

end Vector2

/-! ## Vector3.h -/

/-- Embedding of `class Vector3<T>`: the public fields. -/
structure Vector3 (T : Type) where
  x : T
  y : T
  z : T
deriving DecidableEq

namespace Vector3

variable {T : Type} [LinearOrderedField T]

/-- Default constructor `Vector3<T>()`: all components zero. -/
def ctor : Vector3 T := ⟨0, 0, 0⟩

/-- Embedding of the static `Vector3<T>::Zero()`. -/
def Zero : Vector3 T := ⟨0, 0, 0⟩

/-- Embedding of `Vector3<T>::operator+`. -/
def opAdd (self v : Vector3 T) : Vector3 T := ⟨self.x + v.x, self.y + v.y, self.z + v.z⟩

/-- Embedding of `Vector3<T>::operator-` (binary). -/
def opSub (self v : Vector3 T) : Vector3 T := ⟨self.x - v.x, self.y - v.y, self.z - v.z⟩

/-- Embedding of `Vector3<T>::operator*(T scalar)`. -/
def opMul (self : Vector3 T) (scalar : T) : Vector3 T :=
  ⟨self.x * scalar, self.y * scalar, self.z * scalar⟩

/-- Embedding of the free `operator*(T scalar, const Vector3<T>& v)`. -/
def opMulLeft (scalar : T) (v : Vector3 T) : Vector3 T :=
  ⟨v.x * scalar, v.y * scalar, v.z * scalar⟩

/-- Embedding of `Vector3<T>::operator/` (lines 236-244), production path. -/
def opDiv (eps : T) (self : Vector3 T) (scalar : T) : Vector3 T :=
  if |scalar| > eps then ⟨self.x / scalar, self.y / scalar, self.z / scalar⟩
  else ctor

/-- Embedding of `Vector3<T>::operator/=` (lines 279-290), production path. -/
def opDivAssign (eps : T) (self : Vector3 T) (scalar : T) : Vector3 T :=
  if |scalar| > eps then ⟨self.x / scalar, self.y / scalar, self.z / scalar⟩
  else ⟨0, 0, 0⟩

/-- Embedding of `Vector3<T>::operator==` (lines 292-297). -/
def opEq (eps : T) (self v : Vector3 T) : Bool :=
  let comparator : FloatComparator T := ⟨5 * eps⟩
  comparator.Compare self.x v.x && comparator.Compare self.y v.y && comparator.Compare self.z v.z

/-- Embedding of `Vector3<T>::operator!=` (lines 299-304). -/
def opNe (eps : T) (self v : Vector3 T) : Bool :=
  let comparator : FloatComparator T := ⟨5 * eps⟩
  !comparator.Compare self.x v.x || !comparator.Compare self.y v.y || !comparator.Compare self.z v.z

/-- Embedding of `Vector3<T>::LengthSquared`. -/
def LengthSquared (self : Vector3 T) : T := self.x * self.x + self.y * self.y + self.z * self.z

/-- Embedding of `Vector3<T>::Length`. -/
def Length (sqrt : T → T) (self : Vector3 T) : T :=
  sqrt (self.x * self.x + self.y * self.y + self.z * self.z)

/-- Embedding of `Vector3<T>::Normalized` (lines 318-323). -/
def Normalized (sqrt : T → T) (eps : T) (self : Vector3 T) : Vector3 T :=
  let length := self.Length sqrt
  if length > eps then self.opDiv eps length else ctor

/-- Embedding of `Vector3<T>::Normalize` (lines 325-334). -/
def Normalize (sqrt : T → T) (eps : T) (self : Vector3 T) : Vector3 T :=
  let length := self.Length sqrt
  if length > eps then self.opDivAssign eps length else ctor

/-- Embedding of `Vector3<T>::Dot`. -/
def Dot (self v : Vector3 T) : T := self.x * v.x + self.y * v.y + self.z * v.z

/-- Embedding of `Vector3<T>::Projected` (lines 362-369): `v * Dot(v) / lengthSquared`
parses as `(v * Dot(v)) / lengthSquared`, the vector `operator/`. -/
def Projected (eps : T) (self v : Vector3 T) : Vector3 T :=
  let lengthSquared := v.LengthSquared
  if lengthSquared < eps then ctor
  else (v.opMul (self.Dot v)).opDiv eps lengthSquared

/-- Embedding of `Vector3<T>::Project` (lines 371-380): `v * Dot(v) / lengthSquared`
parses as `(v * Dot(v)) / lengthSquared`, the vector `operator/`. -/
def Project (eps : T) (self v : Vector3 T) : Vector3 T :=
  let lengthSquared := v.LengthSquared
  if lengthSquared < eps then ctor
  else (v.opMul (self.Dot v)).opDiv eps lengthSquared

/-- Embedding of `Vector3<T>::Reflected` (lines 388-393). -/
def Reflected (sqrt : T → T) (eps : T) (self normal : Vector3 T) : Vector3 T :=
  let n := normal.Normalized sqrt eps
  self.opSub (opMulLeft (2 * self.Dot n) n)

/-- Embedding of `Vector3<T>::Cross` (lines 342-346). -/
def Cross (self v : Vector3 T) : Vector3 T :=
  ⟨self.y * v.z - self.z * v.y, self.z * v.x - self.x * v.z, self.x * v.y - self.y * v.x⟩

/-- Embedding of `Vector3<T>::Lerp` (lines 382-386): both products are the free
`operator*(T, const Vector3<T>&)`. -/
def Lerp (self v : Vector3 T) (t : T) : Vector3 T :=
  (opMulLeft (1 - t) self).opAdd (opMulLeft t v)

/-- Embedding of `Vector3<T>::operator+=` (lines 252-259). -/
def opAddAssign (self v : Vector3 T) : Vector3 T := ⟨self.x + v.x, self.y + v.y, self.z + v.z⟩

/-- Embedding of `Vector3<T>::operator-=` (lines 261-268). -/
def opSubAssign (self v : Vector3 T) : Vector3 T := ⟨self.x - v.x, self.y - v.y, self.z - v.z⟩

/-- Embedding of `Vector3<T>::operator*=` (lines 270-277). -/
def opMulAssign (self : Vector3 T) (scalar : T) : Vector3 T :=
  ⟨self.x * scalar, self.y * scalar, self.z * scalar⟩

/-- Embedding of `Vector3<T>::Reflect` (lines 395-401): `Dot(n)` reads `*this` before
the compound assignment writes it. -/
def Reflect (sqrt : T → T) (eps : T) (self normal : Vector3 T) : Vector3 T :=
  let n := normal.Normalized sqrt eps
  self.opSubAssign (opMulLeft (2 * self.Dot n) n)

/-- Embedding of `Vector3<T>::DistanceTo` (lines 356-360). -/
def DistanceTo (sqrt : T → T) (self v : Vector3 T) : T := (self.opSub v).Length sqrt

/-- Embedding of `Vector3<T>::ToString` (lines 445-452).  The stream insertion of one
scalar under `std::fixed` and `std::setprecision(precision)` is the parameter `fixed`;
the declared default of `precision` is `2`. -/
def ToString (fixed : Int → T → String) (precision : Int) (self : Vector3 T) : String :=
  "(" ++ fixed precision self.x ++ ", " ++ fixed precision self.y ++ ", " ++ fixed precision self.z ++ ")"

/-- Embedding of `Vector3<T>::AngleTo` (lines 348-354); `std::atan2` is the parameter
`atan2`, applied to `det` first and `dot` second as in the source. -/
def AngleTo (sqrt : T → T) (atan2 : T → T → T) (self v : Vector3 T) : T :=
  let dot := self.Dot v
  let det := (self.Cross v).Length sqrt
  atan2 det dot

end Vector3

/-! ## Vector4.h -/

/-- Embedding of `class Vector4<T>`: the public fields. -/
structure Vector4 (T : Type) where
  x : T
  y : T
  z : T
  w : T
deriving DecidableEq

namespace Vector4

variable {T : Type} [LinearOrderedField T]

/-- Default constructor `Vector4<T>()`: all components zero. -/
def ctor : Vector4 T := ⟨0, 0, 0, 0⟩

/-- Embedding of the static `Vector4<T>::Zero()`. -/
def Zero : Vector4 T := ⟨0, 0, 0, 0⟩

/-- Embedding of `Vector4<T>::operator+`. -/
def opAdd (self v : Vector4 T) : Vector4 T := ⟨self.x + v.x, self.y + v.y, self.z + v.z, self.w + v.w⟩

/-- Embedding of `Vector4<T>::operator-` (binary). -/
def opSub (self v : Vector4 T) : Vector4 T := ⟨self.x - v.x, self.y - v.y, self.z - v.z, self.w - v.w⟩

/-- Embedding of `Vector4<T>::operator*(T scalar)`. -/
def opMul (self : Vector4 T) (scalar : T) : Vector4 T :=
  ⟨self.x * scalar, self.y * scalar, self.z * scalar, self.w * scalar⟩

/-- Embedding of the free `operator*(T scalar, const Vector4<T>& v)`. -/
def opMulLeft (scalar : T) (v : Vector4 T) : Vector4 T :=
  ⟨v.x * scalar, v.y * scalar, v.z * scalar, v.w * scalar⟩

/-- Embedding of `Vector4<T>::operator/` (lines 263-270), production path. -/
def opDiv (eps : T) (self : Vector4 T) (scalar : T) : Vector4 T :=
  if |scalar| > eps then ⟨self.x / scalar, self.y / scalar, self.z / scalar, self.w / scalar⟩
  else ctor

/-- Embedding of `Vector4<T>::operator/=` (lines 308-320), production path. -/
def opDivAssign (eps : T) (self : Vector4 T) (scalar : T) : Vector4 T :=
  if |scalar| > eps then ⟨self.x / scalar, self.y / scalar, self.z / scalar, self.w / scalar⟩
  else ⟨0, 0, 0, 0⟩

/-- Embedding of `Vector4<T>::operator==` (lines 322-328). -/
def opEq (eps : T) (self v : Vector4 T) : Bool :=
  let comparator : FloatComparator T := ⟨5 * eps⟩
  comparator.Compare self.x v.x && comparator.Compare self.y v.y && comparator.Compare self.z v.z && comparator.Compare self.w v.w

/-- Embedding of `Vector4<T>::operator!=` (lines 330-336). -/
def opNe (eps : T) (self v : Vector4 T) : Bool :=
  let comparator : FloatComparator T := ⟨5 * eps⟩
  !comparator.Compare self.x v.x || !comparator.Compare self.y v.y || !comparator.Compare self.z v.z || !comparator.Compare self.w v.w

/-- Embedding of `Vector4<T>::LengthSquared`. -/
def LengthSquared (self : Vector4 T) : T := self.x * self.x + self.y * self.y + self.z * self.z + self.w * self.w

/-- Embedding of `Vector4<T>::Length`. -/
def Length (sqrt : T → T) (self : Vector4 T) : T :=
  sqrt (self.x * self.x + self.y * self.y + self.z * self.z + self.w * self.w)

/-- Embedding of `Vector4<T>::Normalized` (lines 350-355). -/
def Normalized (sqrt : T → T) (eps : T) (self : Vector4 T) : Vector4 T :=
  let length := self.Length sqrt
  if length > eps then self.opDiv eps length else ctor

/-- Embedding of `Vector4<T>::Normalize` (lines 357-366). -/
def Normalize (sqrt : T → T) (eps : T) (self : Vector4 T) : Vector4 T :=
  let length := self.Length sqrt
  if length > eps then self.opDivAssign eps length else ⟨0, 0, 0, 0⟩

/-- Embedding of `Vector4<T>::Dot`. -/
def Dot (self v : Vector4 T) : T := self.x * v.x + self.y * v.y + self.z * v.z + self.w * v.w

/-- Embedding of `Vector4<T>::Projected` (lines 394-401): the quotient
`Dot(v) / lengthSquared` is a scalar division. -/
def Projected (eps : T) (self v : Vector4 T) : Vector4 T :=
  let lengthSquared := v.LengthSquared
  if lengthSquared < eps then ctor
  else v.opMul (self.Dot v / lengthSquared)

/-- Embedding of `Vector4<T>::Project` (lines 403-412): `v * Dot(v) / lengthSquared`
parses as `(v * Dot(v)) / lengthSquared`, the vector `operator/`. -/
def Project (eps : T) (self v : Vector4 T) : Vector4 T :=
  let lengthSquared := v.LengthSquared
  if lengthSquared < eps then ctor
  else (v.opMul (self.Dot v)).opDiv eps lengthSquared

/-- Embedding of `Vector4<T>::Reflected` (lines 420-425). -/
def Reflected (sqrt : T → T) (eps : T) (self normal : Vector4 T) : Vector4 T :=
  let n := normal.Normalized sqrt eps
  self.opSub (opMulLeft (2 * self.Dot n) n)

/-- Embedding of `Vector4<T>::AngleTo` (lines 380-386); `std::acos` is the parameter
`acos`.  The quotient is a scalar division with no guard in front of it. -/
def AngleTo (sqrt acos : T → T) (self v : Vector4 T) : T :=
  let dotProduct := self.Dot v
  let lengthProduct := self.Length sqrt * v.Length sqrt
  acos (dotProduct / lengthProduct)

/-- Embedding of `Vector4<T>::Cross` (lines 374-378): the fourth component is the
constant zero. -/
def Cross (self v : Vector4 T) : Vector4 T :=
  ⟨self.y * v.z - self.z * v.y, self.z * v.x - self.x * v.z, self.x * v.y - self.y * v.x, 0⟩

/-- Embedding of `Vector4<T>::Lerp` (lines 414-418): both products are the member
`operator*(T)`. -/
def Lerp (self v : Vector4 T) (t : T) : Vector4 T :=
  (self.opMul (1 - t)).opAdd (v.opMul t)

/-- Embedding of `Vector4<T>::operator+=` (lines 278-286). -/
def opAddAssign (self v : Vector4 T) : Vector4 T := ⟨self.x + v.x, self.y + v.y, self.z + v.z, self.w + v.w⟩

/-- Embedding of `Vector4<T>::operator-=` (lines 288-296). -/
def opSubAssign (self v : Vector4 T) : Vector4 T := ⟨self.x - v.x, self.y - v.y, self.z - v.z, self.w - v.w⟩

/-- Embedding of `Vector4<T>::operator*=` (lines 298-306). -/
def opMulAssign (self : Vector4 T) (scalar : T) : Vector4 T :=
  ⟨self.x * scalar, self.y * scalar, self.z * scalar, self.w * scalar⟩

/-- Embedding of `Vector4<T>::Reflect` (lines 427-433): `Dot(n)` reads `*this` before
the compound assignment writes it. -/
def Reflect (sqrt : T → T) (eps : T) (self normal : Vector4 T) : Vector4 T :=
  let n := normal.Normalized sqrt eps
  self.opSubAssign (opMulLeft (2 * self.Dot n) n)

/-- Embedding of `Vector4<T>::DistanceTo` (lines 388-392). -/
def DistanceTo (sqrt : T → T) (self v : Vector4 T) : T := (self.opSub v).Length sqrt

/-- Embedding of `Vector4<T>::ToString` (lines 435-442).  The stream insertion of one
scalar under `std::fixed` and `std::setprecision(precision)` is the parameter `fixed`;
the declared default of `precision` is `2`. -/
def ToString (fixed : Int → T → String) (precision : Int) (self : Vector4 T) : String :=
  "(" ++ fixed precision self.x ++ ", " ++ fixed precision self.y ++ ", " ++ fixed precision self.z ++ ", " ++ fixed precision self.w ++ ")"

end Vector4

/-! ## Static member functions of Vector2 and Vector3

`Vector4.h` declares the same static members and defines none of them. -/

namespace Vector2.Static

variable {T : Type} [LinearOrderedField T]

/-- Embedding of the static `Vector2<T>::Dot` (lines 354-358). -/
def Dot (v1 v2 : Vector2 T) : T := v1.Dot v2

/-- Embedding of the static `Vector2<T>::Cross` (lines 360-364). -/
def Cross (v1 v2 : Vector2 T) : T := v1.Cross v2

/-- Embedding of the static `Vector2<T>::Angle` (lines 366-370). -/
def Angle (atan2 : T → T → T) (v1 v2 : Vector2 T) : T := v1.AngleTo atan2 v2

/-- Embedding of the static `Vector2<T>::Distance` (lines 372-376). -/
def Distance (sqrt : T → T) (v1 v2 : Vector2 T) : T := v1.DistanceTo sqrt v2

/-- Embedding of the static `Vector2<T>::Project` (lines 378-382). -/
def Project (eps : T) (v1 v2 : Vector2 T) : Vector2 T := v1.Projected eps v2

/-- Embedding of the static `Vector2<T>::Lerp` (lines 384-388). -/
def Lerp (v1 v2 : Vector2 T) (t : T) : Vector2 T := v1.Lerp v2 t

/-- Embedding of the static `Vector2<T>::Reflect` (lines 390-394). -/
def Reflect (sqrt : T → T) (eps : T) (v1 v2 : Vector2 T) : Vector2 T :=
  v1.Reflected sqrt eps v2

end Vector2.Static

namespace Vector3.Static

variable {T : Type} [LinearOrderedField T]

/-- Embedding of the static `Vector3<T>::Dot` (lines 403-407). -/
def Dot (v1 v2 : Vector3 T) : T := v1.Dot v2

/-- Embedding of the static `Vector3<T>::Cross` (lines 409-413). -/
def Cross (v1 v2 : Vector3 T) : Vector3 T := v1.Cross v2

/-- Embedding of the static `Vector3<T>::Angle` (lines 415-419). -/
def Angle (sqrt : T → T) (atan2 : T → T → T) (v1 v2 : Vector3 T) : T :=
  v1.AngleTo sqrt atan2 v2

/-- Embedding of the static `Vector3<T>::Distance` (lines 421-425). -/
def Distance (sqrt : T → T) (v1 v2 : Vector3 T) : T := v1.DistanceTo sqrt v2

/-- Embedding of the static `Vector3<T>::Project` (lines 427-431). -/
def Project (eps : T) (v1 v2 : Vector3 T) : Vector3 T := v1.Projected eps v2

/-- Embedding of the static `Vector3<T>::Lerp` (lines 433-437). -/
def Lerp (v1 v2 : Vector3 T) (t : T) : Vector3 T := v1.Lerp v2 t

/-- Embedding of the static `Vector3<T>::Reflect` (lines 439-443). -/
def Reflect (sqrt : T → T) (eps : T) (v1 normal : Vector3 T) : Vector3 T :=
  v1.Reflected sqrt eps normal

end Vector3.Static

/-! ## Standard-library functions -/

/-- Modelled from the C++ standard library: `f` is `std::atan2` over the reals when
`f y x` is the angle in `(-π, π]` of the point `(x, y)`, and `0` at the origin; that
angle is `Complex.arg (x + y i)`. -/
def IsAtan2 (f : ℝ → ℝ → ℝ) : Prop := ∀ y x : ℝ, f y x = Complex.arg ⟨x, y⟩

/-- Modelled from the C++ standard library: `f` is `std::sqrt` in exact arithmetic when,
on every non-negative argument, it returns the non-negative square root. -/
def IsSqrt {T : Type} [LinearOrderedField T] (f : T → T) : Prop :=
  ∀ t : T, 0 ≤ t → 0 ≤ f t ∧ f t * f t = t

/-- Modelled from the C++ standard library: `f` is `std::acos` over the reals when it
returns the arc cosine on its domain `[-1, 1]`. -/
def IsAcos (f : ℝ → ℝ) : Prop := ∀ t : ℝ, -1 ≤ t → t ≤ 1 → f t = Real.arccos t

/-- Modelled from the C++ standard library: the `precision` digits written after the
decimal point for the scaled fraction `m`, most significant digit first. -/
def fixedFraction (precision : Nat) (m : Nat) : List Char :=
  (List.range precision).map (fun i => Nat.digitChar (m / 10 ^ (precision - 1 - i) % 10))

/-- Modelled from the C++ standard library: number of fraction digits of a stream whose
precision was set to `precision`; a negative precision falls back to `6`. -/
def fixedDigits (precision : Int) : Nat := if precision < 0 then 6 else precision.toNat

/-- Modelled from the C++ standard library: the value `|q| * 10 ^ digits` rounded to the
nearest natural number, ties to even. -/
def fixedScaled (digits : Nat) (q : ℚ) : Nat :=
  let scaled := q.num.natAbs * 10 ^ digits
  let f := scaled / q.den
  let r := scaled % q.den
  if 2 * r < q.den then f
  else if q.den < 2 * r then f + 1
  else if f % 2 = 0 then f else f + 1

/-- Modelled from the C++ standard library: text written by `operator<<` for the scalar
`q` on a stream with `std::fixed` and `std::setprecision(precision)`: a minus sign for a
negative value, the integer digits, and, when there are fraction digits, a point followed
by exactly that many digits. -/
def fixedPoint (precision : Int) (q : ℚ) : String :=
  let digits := fixedDigits precision
  let n := fixedScaled digits q
  (if q < 0 then "-" else "") ++ Nat.repr (n / 10 ^ digits) ++
    (if digits = 0 then "" else "." ++ String.mk (fixedFraction digits (n % 10 ^ digits)))

/-! ## Division log

To state which scalar divisions an operation executes, the dividing operations are
embedded a second time with the same control flow, returning next to the value the list
of divisors of the scalar divisions executed on the path taken, in execution order. -/

/-- Value of an operation together with the divisors of the scalar divisions it executed. -/
structure DivLog (T α : Type) where
  value : α
  divisors : List T

namespace Vector2

variable {T : Type} [LinearOrderedField T]

/-- Logged form of `Vector2<T>::Projected`: one scalar division on the non-degenerate
path, none on the early return. -/
def ProjectedLogged (eps : T) (self v : Vector2 T) : DivLog T (Vector2 T) :=
  let lengthSquared := v.LengthSquared
  if lengthSquared < eps then ⟨ctor, []⟩
  else ⟨v.opMul (self.Dot v / lengthSquared), [lengthSquared]⟩

end Vector2

namespace Vector3

variable {T : Type} [LinearOrderedField T]

/-- Logged form of `Vector3<T>::operator/`: three scalar divisions when the guard
passes, none on the fallback. -/
def opDivLogged (eps : T) (self : Vector3 T) (scalar : T) : DivLog T (Vector3 T) :=
  if |scalar| > eps then
    ⟨⟨self.x / scalar, self.y / scalar, self.z / scalar⟩, [scalar, scalar, scalar]⟩
  else ⟨ctor, []⟩

/-- Logged form of `Vector3<T>::Projected`. -/
def ProjectedLogged (eps : T) (self v : Vector3 T) : DivLog T (Vector3 T) :=
  let lengthSquared := v.LengthSquared
  if lengthSquared < eps then ⟨ctor, []⟩
  else (v.opMul (self.Dot v)).opDivLogged eps lengthSquared

end Vector3

namespace Vector4

variable {T : Type} [LinearOrderedField T]

/-- Logged form of `Vector4<T>::Projected`. -/
def ProjectedLogged (eps : T) (self v : Vector4 T) : DivLog T (Vector4 T) :=
  let lengthSquared := v.LengthSquared
  if lengthSquared < eps then ⟨ctor, []⟩
  else ⟨v.opMul (self.Dot v / lengthSquared), [lengthSquared]⟩

/-- Logged form of `Vector4<T>::AngleTo`: the division by `lengthProduct` is executed
on every path. -/
def AngleToLogged (sqrt acos : T → T) (self v : Vector4 T) : DivLog T T :=
  let dotProduct := self.Dot v
  let lengthProduct := self.Length sqrt * v.Length sqrt
  ⟨acos (dotProduct / lengthProduct), [lengthProduct]⟩

end Vector4

/-! ## IEEE-754 binary64 scalars

Second scalar model, for the instantiation `T = double`.  The results of the exact
model above are results about real-number arithmetic; the definitions of this section
evaluate the same source lines under IEEE-754 binary64 with round-to-nearest, ties to
even, every operation rounded on its own. -/

/-- Modelled from IEEE-754: a binary64 value.  `finite sign k` is the number
`(-1)^sign * k * 2^-1074`, so `k` counts units of the smallest subnormal; `finite true 0`
is the negative zero. -/
inductive F64 where
  | finite (sign : Bool) (k : Nat)
  | inf (sign : Bool)
  | nan
deriving DecidableEq

namespace F64

/-- Number of units of `2^-1074` in the value `1`. -/
def scale : Nat := 2 ^ 1074

/-- Number of units of `2^-1074` in `2^1024`, the least magnitude that overflows. -/
def overflow : Nat := 2 ^ 2098

/-- Modelled from IEEE-754: the quotient `n / d` rounded to the nearest natural number,
ties to even. -/
def roundHalfEven (n d : Nat) : Nat :=
  let m := n / d
  let r := n % d
  if 2 * r < d then m
  else if d < 2 * r then m + 1
  else if m % 2 = 0 then m else m + 1

/-- Binary search of `log2`: adds `2^i` to `acc` when `2^(2^i) ≤ n`, for `i` from
`fuel - 1` down to `0`. -/
def log2Loop : Nat → Nat → Nat → Nat
  | 0, _, acc => acc
  | i + 1, n, acc =>
    if 2 ^ 2 ^ i ≤ n then log2Loop i (n / 2 ^ 2 ^ i) (acc + 2 ^ i) else log2Loop i n acc

/-- Position of the leading bit of `n`, for `0 < n < 2^8192`. -/
def log2 (n : Nat) : Nat := log2Loop 13 n 0

/-- Modelled from IEEE-754: the non-negative quotient `n / d`, counted in units of
`2^-1074`, rounded to the spacing of binary64: below `2^53` units the spacing is one unit
(subnormals and the first binade); above, the result keeps 53 significant bits. -/
def roundMag (n d : Nat) : Nat :=
  let q := n / d
  let shift := if q < 2 ^ 53 then 0 else log2 q - 52
  roundHalfEven n (d * 2 ^ shift) * 2 ^ shift

/-- Modelled from IEEE-754: rounding to binary64 of the quotient `n / d` with the sign
`sign`; a rounded magnitude of `overflow` units (`2^1024`) or more overflows to infinity. -/
def round (sign : Bool) (n d : Nat) : F64 :=
  if roundMag n d < overflow then finite sign (roundMag n d) else inf sign

/-- Modelled from IEEE-754: unary minus flips the sign. -/
def neg : F64 → F64
  | finite s k => finite (!s) k
  | inf s => inf (!s)
  | nan => nan

/-- Modelled from the C++ standard library: `std::abs` clears the sign. -/
def abs : F64 → F64
  | finite _ k => finite false k
  | inf _ => inf false
  | nan => nan

/-- Modelled from IEEE-754: addition is the exact sum, rounded; an exact zero sum of
opposite signs is `+0`, and `inf + (-inf)` is NaN. -/
def add : F64 → F64 → F64
  | nan, _ => nan
  | _, nan => nan
  | inf s, inf t => if s = t then inf s else nan
  | inf s, finite _ _ => inf s
  | finite _ _, inf t => inf t
  | finite s a, finite t b =>
    if s = t then round s (a + b) 1
    else if a = b then finite false 0
    else if b < a then round s (a - b) 1
    else round t (b - a) 1

/-- Modelled from IEEE-754: subtraction is addition of the negated operand. -/
def sub (a b : F64) : F64 := add a (neg b)

/-- Modelled from IEEE-754: multiplication is the exact product, rounded; `0 * inf` is
NaN. -/
def mul : F64 → F64 → F64
  | nan, _ => nan
  | _, nan => nan
  | inf s, inf t => inf (xor s t)
  | inf s, finite t b => if b = 0 then nan else inf (xor s t)
  | finite s a, inf t => if a = 0 then nan else inf (xor s t)
  | finite s a, finite t b => round (xor s t) (a * b) scale

/-- Modelled from IEEE-754: division is the exact quotient, rounded; `x / 0` is infinite
for `x ≠ 0`, and `0 / 0` and `inf / inf` are NaN. -/
def div : F64 → F64 → F64
  | nan, _ => nan
  | _, nan => nan
  | inf _, inf _ => nan
  | inf s, finite t _ => inf (xor s t)
  | finite s _, inf t => finite (xor s t) 0
  | finite s a, finite t b =>
    if b = 0 then (if a = 0 then nan else inf (xor s t))
    else round (xor s t) (a * scale) b

/-- Newton iteration for the integer square root of `x`, from a start `r` above it; the
iteration stops at the first step that does not decrease. -/
def isqrtLoop (x : Nat) : Nat → Nat → Nat
  | 0, r => r
  | fuel + 1, r =>
    let r' := (r + x / r) / 2
    if r' < r then isqrtLoop x fuel r' else r

/-- Integer square root, the largest `r` with `r * r ≤ x`, for `x < 2^8192`. -/
def isqrt (x : Nat) : Nat :=
  if x = 0 then 0 else isqrtLoop x 64 (2 ^ ((log2 x + 2) / 2))

/-- Modelled from the C++ standard library: `std::sqrt`, correctly rounded as IEEE-754
requires.  The square root of `k` units is `sqrt (k * scale)` units; an inexact root is
rounded from the point half a unit above its integer part, which rounds the same way. -/
def sqrt : F64 → F64
  | nan => nan
  | inf s => if s then nan else inf false
  | finite s k =>
    if k = 0 then finite s 0
    else if s then nan
    else
      let x := k * scale
      let r := isqrt x
      round false (2 * r + (if r * r = x then 0 else 1)) 2

/-- Modelled from IEEE-754: the comparison `a < b` is false when an operand is NaN, and
`-0 < +0` is false. -/
def lt : F64 → F64 → Bool
  | nan, _ => false
  | _, nan => false
  | inf s, inf t => s && !t
  | inf s, finite _ _ => s
  | finite _ _, inf t => !t
  | finite s a, finite t b =>
    match s, t with
    | false, false => decide (a < b)
    | false, true => false
    | true, false => decide (0 < a ∨ 0 < b)
    | true, true => decide (b < a)

/-- Modelled from IEEE-754: the comparison `a == b` is false when an operand is NaN, and
`-0 == +0` is true. -/
def eq : F64 → F64 → Bool
  | nan, _ => false
  | _, nan => false
  | inf s, inf t => s == t
  | inf _, finite _ _ => false
  | finite _ _, inf _ => false
  | finite s a, finite t b => (a == 0 && b == 0) || (s == t && a == b)

/-- Modelled from the C++ standard library: `std::isfinite`. -/
def isFinite : F64 → Bool
  | finite _ _ => true
  | _ => false

/-- Modelled from the C++ standard library: `std::max(a, b)` is `(a < b) ? b : a`. -/
def max (a b : F64) : F64 := if lt a b then b else a

/-- Modelled from IEEE-754: the binary64 value nearest to the fraction `n / d`, which is
the value of a decimal literal such as `0.6`, written `ofRatio 3 5`. -/
def ofRatio (n d : Nat) : F64 := round false (n * scale) d

instance : Add F64 := ⟨add⟩
instance : Sub F64 := ⟨sub⟩
instance : Mul F64 := ⟨mul⟩
instance : Div F64 := ⟨div⟩
instance : Neg F64 := ⟨neg⟩
instance (n : Nat) : OfNat F64 n := ⟨ofRatio n 1⟩

/-- The binary64 value nearest to `π`, `0x400921FB54442D18`. -/
def pi : F64 := finite false (7074237752028440 * 2 ^ 1023)

end F64

namespace IEEE

/-- Value of `std::numeric_limits<double>::epsilon()`, namely `2^-52`: the private class
constant `epsilon` of the three vector classes at `T = double`. -/
def epsilon : F64 := F64.finite false (2 ^ 1022)

/-- Modelled from the C standard (Annex F.10.1.4): the results of `std::atan2(y, x)` at
a zero `y`: `atan2(±0, -0) = ±π`, `atan2(±0, +0) = ±0`, `atan2(±0, x) = ±π` for `x < 0`
and `atan2(±0, x) = ±0` for `x > 0`. -/
def IsAtan2 (f : F64 → F64 → F64) : Prop :=
  ∀ (s : Bool) (x : F64),
    ((x = F64.finite true 0 ∨ F64.lt x 0 = true) →
      f (F64.finite s 0) x = (if s then -F64.pi else F64.pi)) ∧
    ((x = F64.finite false 0 ∨ F64.lt 0 x = true) → f (F64.finite s 0) x = F64.finite s 0)

/-- Modelled from the C standard (Annex F.10.1.1): `std::acos(1) = +0`, and `std::acos(x)`
is NaN for `|x| > 1`. -/
def IsAcos (f : F64 → F64) : Prop :=
  f 1 = F64.finite false 0 ∧ ∀ x : F64, F64.lt 1 (F64.abs x) = true → f x = F64.nan

/-- A function with the values `IsAtan2` fixes: the table of Annex F at a zero `y`, and
NaN at the arguments the table does not cover. -/
def atan2Zero (y x : F64) : F64 :=
  match y with
  | F64.finite s 0 =>
    if x = F64.finite true 0 ∨ F64.lt x 0 = true then (if s then -F64.pi else F64.pi)
    else if x = F64.finite false 0 ∨ F64.lt 0 x = true then F64.finite s 0
    else F64.nan
  | _ => F64.nan

/-- A function with the values `IsAcos` fixes, and NaN at the other arguments. -/
def acosEdge (x : F64) : F64 := if x = 1 then F64.finite false 0 else F64.nan

/-- Embedding of `FloatComparator<double>::Compare` (FloatComparator.h, lines 39-49). -/
def FloatComparator.Compare (c : FloatComparator F64) (lhs rhs : F64) : Bool :=
  let diff := F64.abs (lhs - rhs)
  let max := F64.max (F64.abs lhs) (F64.abs rhs)
  if F64.eq max 0 then true
  else F64.lt diff (max * c.epsilon)

namespace Vector2

/-- Default constructor `Vector2<double>()`. -/
def ctor : Vector2 F64 := ⟨0, 0⟩

/-- Embedding of `Vector2<double>::operator+`. -/
def opAdd (self v : Vector2 F64) : Vector2 F64 := ⟨self.x + v.x, self.y + v.y⟩

/-- Embedding of `Vector2<double>::operator-` (binary). -/
def opSub (self v : Vector2 F64) : Vector2 F64 := ⟨self.x - v.x, self.y - v.y⟩

/-- Embedding of `Vector2<double>::operator*(double scalar)`. -/
def opMul (self : Vector2 F64) (scalar : F64) : Vector2 F64 :=
  ⟨self.x * scalar, self.y * scalar⟩

/-- Embedding of the free `operator*(double scalar, const Vector2<double>& v)`. -/
def opMulLeft (scalar : F64) (v : Vector2 F64) : Vector2 F64 :=
  ⟨v.x * scalar, v.y * scalar⟩

/-- Embedding of `Vector2<double>::operator/` (lines 185-193), production path. -/
def opDiv (self : Vector2 F64) (scalar : F64) : Vector2 F64 :=
  if F64.lt epsilon (F64.abs scalar) then ⟨self.x / scalar, self.y / scalar⟩
  else ctor

/-- Embedding of `Vector2<double>::operator==` (lines 237-242). -/
def opEq (self v : Vector2 F64) : Bool :=
  let comparator : FloatComparator F64 := ⟨5 * epsilon⟩
  FloatComparator.Compare comparator self.x v.x &&
    FloatComparator.Compare comparator self.y v.y

/-- Embedding of `Vector2<double>::LengthSquared`. -/
def LengthSquared (self : Vector2 F64) : F64 := self.x * self.x + self.y * self.y

/-- Embedding of `Vector2<double>::Length`. -/
def Length (self : Vector2 F64) : F64 := F64.sqrt (self.x * self.x + self.y * self.y)

/-- Embedding of `Vector2<double>::Normalized` (lines 263-268). -/
def Normalized (self : Vector2 F64) : Vector2 F64 :=
  let length := Length self
  if F64.lt epsilon length then opDiv self length else ctor

/-- Embedding of `Vector2<double>::Dot`. -/
def Dot (self v : Vector2 F64) : F64 := self.x * v.x + self.y * v.y

/-- Embedding of `Vector2<double>::Cross` (lines 287-291). -/
def Cross (self v : Vector2 F64) : F64 := self.x * v.y - self.y * v.x

/-- Embedding of `Vector2<double>::Perpendicular` (lines 293-297). -/
def Perpendicular (self : Vector2 F64) (clockwise : Bool) : Vector2 F64 :=
  if clockwise then ⟨-self.y, self.x⟩ else ⟨self.y, -self.x⟩

/-- Embedding of `Vector2<double>::AngleTo` (lines 299-305); `std::atan2` is the
parameter `atan2`. -/
def AngleTo (atan2 : F64 → F64 → F64) (self v : Vector2 F64) : F64 :=
  let dot := Dot self v
  let det := Cross self v
  atan2 det dot

/-- Embedding of `Vector2<double>::Projected` (lines 313-320). -/
def Projected (self v : Vector2 F64) : Vector2 F64 :=
  let lengthSquared := LengthSquared v
  if F64.lt lengthSquared epsilon then ctor
  else opMul v (Dot self v / lengthSquared)

/-- Embedding of `Vector2<double>::Lerp` (lines 333-337). -/
def Lerp (self v : Vector2 F64) (t : F64) : Vector2 F64 :=
  opAdd (opMulLeft (1 - t) self) (opMulLeft t v)

/-- Embedding of `Vector2<double>::Reflected` (lines 339-344). -/
def Reflected (self normal : Vector2 F64) : Vector2 F64 :=
  let n := Normalized normal
  opSub self (opMulLeft (2 * Dot self n) n)

end Vector2

namespace Vector3

/-- Embedding of `Vector3<double>::operator==` (lines 292-297). -/
def opEq (self v : Vector3 F64) : Bool :=
  let comparator : FloatComparator F64 := ⟨5 * epsilon⟩
  FloatComparator.Compare comparator self.x v.x &&
    FloatComparator.Compare comparator self.y v.y &&
    FloatComparator.Compare comparator self.z v.z

/-- Embedding of `Vector3<double>::Length`. -/
def Length (self : Vector3 F64) : F64 :=
  F64.sqrt (self.x * self.x + self.y * self.y + self.z * self.z)

/-- Embedding of `Vector3<double>::Dot`. -/
def Dot (self v : Vector3 F64) : F64 := self.x * v.x + self.y * v.y + self.z * v.z

/-- Embedding of `Vector3<double>::Cross` (lines 342-346). -/
def Cross (self v : Vector3 F64) : Vector3 F64 :=
  ⟨self.y * v.z - self.z * v.y, self.z * v.x - self.x * v.z, self.x * v.y - self.y * v.x⟩

/-- Embedding of `Vector3<double>::AngleTo` (lines 348-354). -/
def AngleTo (atan2 : F64 → F64 → F64) (self v : Vector3 F64) : F64 :=
  let dot := Dot self v
  let det := Length (Cross self v)
  atan2 det dot

end Vector3

namespace Vector4

/-- Embedding of `Vector4<double>::operator==` (lines 322-328). -/
def opEq (self v : Vector4 F64) : Bool :=
  let comparator : FloatComparator F64 := ⟨5 * epsilon⟩
  FloatComparator.Compare comparator self.x v.x &&
    FloatComparator.Compare comparator self.y v.y &&
    FloatComparator.Compare comparator self.z v.z &&
    FloatComparator.Compare comparator self.w v.w

/-- Embedding of `Vector4<double>::Length`. -/
def Length (self : Vector4 F64) : F64 :=
  F64.sqrt (self.x * self.x + self.y * self.y + self.z * self.z + self.w * self.w)

/-- Embedding of `Vector4<double>::Dot`. -/
def Dot (self v : Vector4 F64) : F64 :=
  self.x * v.x + self.y * v.y + self.z * v.z + self.w * v.w

/-- Embedding of `Vector4<double>::Cross` (lines 374-378). -/
def Cross (self v : Vector4 F64) : Vector4 F64 :=
  ⟨self.y * v.z - self.z * v.y, self.z * v.x - self.x * v.z, self.x * v.y - self.y * v.x, 0⟩

/-- Embedding of `Vector4<double>::AngleTo` (lines 380-386); `std::acos` is the
parameter `acos`. -/
def AngleTo (acos : F64 → F64) (self v : Vector4 F64) : F64 :=
  let dotProduct := Dot self v
  let lengthProduct := Length self * Length v
  acos (dotProduct / lengthProduct)

end Vector4

end IEEE

/-! ## Shared lemmas -/

section Lemmas

variable {T : Type} [LinearOrderedField T]

/-- Unfolding of `Compare` as a proposition. -/
lemma FloatComparator.compare_eq_true_iff (c : FloatComparator T) (a b : T) :
    c.Compare a b = true ↔ (max |a| |b| = 0 ∨ |a - b| < max |a| |b| * c.epsilon) := by
  unfold FloatComparator.Compare
  by_cases h : max |a| |b| = 0
  · simp [h]
  · simp [h]

/-- With a positive epsilon every scalar compares equal to itself. -/
lemma FloatComparator.compare_self (c : FloatComparator T) (hc : 0 < c.epsilon) (a : T) :
    c.Compare a a = true := by
  rw [FloatComparator.compare_eq_true_iff]
  by_cases h : a = 0
  · left; simp [h]
  · right
    have ha : 0 < |a| := abs_pos.mpr h
    simpa using mul_pos ha hc

/-- The comparison does not depend on the order of its operands. -/
lemma FloatComparator.compare_comm (c : FloatComparator T) (a b : T) :
    c.Compare a b = c.Compare b a := by
  unfold FloatComparator.Compare
  simp only [abs_sub_comm a b, max_comm |a| |b|]

/-- Five machine epsilons are positive when the machine epsilon is. -/
lemma five_mul_pos {eps : T} (heps : 0 < eps) : 0 < 5 * eps := by positivity

lemma Vector2_opEq_self {eps : T} (heps : 0 < eps) (v : Vector2 T) :
    Vector2.opEq eps v v = true := by
  simp [Vector2.opEq, FloatComparator.compare_self _ (five_mul_pos heps)]

lemma Vector3_opEq_self {eps : T} (heps : 0 < eps) (v : Vector3 T) :
    Vector3.opEq eps v v = true := by
  simp [Vector3.opEq, FloatComparator.compare_self _ (five_mul_pos heps)]

lemma Vector4_opEq_self {eps : T} (heps : 0 < eps) (v : Vector4 T) :
    Vector4.opEq eps v v = true := by
  simp [Vector4.opEq, FloatComparator.compare_self _ (five_mul_pos heps)]

lemma Vector2_opEq_comm (eps : T) (a b : Vector2 T) :
    Vector2.opEq eps a b = Vector2.opEq eps b a := by
  simp only [Vector2.opEq, FloatComparator.compare_comm _ a.x b.x,
    FloatComparator.compare_comm _ a.y b.y]

lemma Vector3_opEq_comm (eps : T) (a b : Vector3 T) :
    Vector3.opEq eps a b = Vector3.opEq eps b a := by
  simp only [Vector3.opEq, FloatComparator.compare_comm _ a.x b.x,
    FloatComparator.compare_comm _ a.y b.y, FloatComparator.compare_comm _ a.z b.z]

lemma Vector4_opEq_comm (eps : T) (a b : Vector4 T) :
    Vector4.opEq eps a b = Vector4.opEq eps b a := by
  simp only [Vector4.opEq, FloatComparator.compare_comm _ a.x b.x,
    FloatComparator.compare_comm _ a.y b.y, FloatComparator.compare_comm _ a.z b.z,
    FloatComparator.compare_comm _ a.w b.w]

/-- A divisor that passes the guard of `operator/` is not zero. -/
lemma ne_zero_of_guard {eps s : T} (heps : 0 < eps) (hs : eps < |s|) : s ≠ 0 := by
  intro h
  rw [h, abs_zero] at hs
  exact lt_asymm heps hs

lemma Vector2_opDiv_of_guard {eps s : T} (hs : eps < |s|) (v : Vector2 T) :
    Vector2.opDiv eps v s = ⟨v.x / s, v.y / s⟩ := by
  simp [Vector2.opDiv, hs]

lemma Vector3_opDiv_of_guard {eps s : T} (hs : eps < |s|) (v : Vector3 T) :
    Vector3.opDiv eps v s = ⟨v.x / s, v.y / s, v.z / s⟩ := by
  simp [Vector3.opDiv, hs]

lemma Vector4_opDiv_of_guard {eps s : T} (hs : eps < |s|) (v : Vector4 T) :
    Vector4.opDiv eps v s = ⟨v.x / s, v.y / s, v.z / s, v.w / s⟩ := by
  simp [Vector4.opDiv, hs]

lemma Vector2_opDiv_of_not_guard {eps s : T} (hs : |s| ≤ eps) (v : Vector2 T) :
    Vector2.opDiv eps v s = ⟨0, 0⟩ := by
  simp [Vector2.opDiv, not_lt.mpr hs, Vector2.ctor]

lemma Vector3_opDiv_of_not_guard {eps s : T} (hs : |s| ≤ eps) (v : Vector3 T) :
    Vector3.opDiv eps v s = ⟨0, 0, 0⟩ := by
  simp [Vector3.opDiv, not_lt.mpr hs, Vector3.ctor]

lemma Vector4_opDiv_of_not_guard {eps s : T} (hs : |s| ≤ eps) (v : Vector4 T) :
    Vector4.opDiv eps v s = ⟨0, 0, 0, 0⟩ := by
  simp [Vector4.opDiv, not_lt.mpr hs, Vector4.ctor]

lemma Vector2_opMul_opDiv_cancel {eps s : T} (heps : 0 < eps) (hs : eps < |s|)
    (v : Vector2 T) : (v.opMul s).opDiv eps s = v := by
  have h0 : s ≠ 0 := ne_zero_of_guard heps hs
  rw [Vector2_opDiv_of_guard hs]
  simp [Vector2.opMul, h0]

lemma Vector3_opMul_opDiv_cancel {eps s : T} (heps : 0 < eps) (hs : eps < |s|)
    (v : Vector3 T) : (v.opMul s).opDiv eps s = v := by
  have h0 : s ≠ 0 := ne_zero_of_guard heps hs
  rw [Vector3_opDiv_of_guard hs]
  simp [Vector3.opMul, h0]

lemma Vector4_opMul_opDiv_cancel {eps s : T} (heps : 0 < eps) (hs : eps < |s|)
    (v : Vector4 T) : (v.opMul s).opDiv eps s = v := by
  have h0 : s ≠ 0 := ne_zero_of_guard heps hs
  rw [Vector4_opDiv_of_guard hs]
  simp [Vector4.opMul, h0]

lemma Vector2_Normalized_of_gt {sqrt : T → T} {eps : T} (v : Vector2 T)
    (h : eps < v.Length sqrt) :
    v.Normalized sqrt eps = v.opDiv eps (v.Length sqrt) ∧
    v.Normalized sqrt eps = ⟨v.x / v.Length sqrt, v.y / v.Length sqrt⟩ := by
  have hg : eps < |v.Length sqrt| := lt_of_lt_of_le h (le_abs_self _)
  have h1 : v.Normalized sqrt eps = v.opDiv eps (v.Length sqrt) := by
    simp [Vector2.Normalized, h]
  exact ⟨h1, h1.trans (Vector2_opDiv_of_guard hg v)⟩

lemma Vector2_Normalized_of_le {sqrt : T → T} {eps : T} (v : Vector2 T)
    (h : v.Length sqrt ≤ eps) : v.Normalized sqrt eps = ⟨0, 0⟩ := by
  simp [Vector2.Normalized, not_lt.mpr h, Vector2.ctor]

lemma Vector2_Length_quotient {sqrt : T → T} (h1 : sqrt 1 = 1) (v : Vector2 T)
    (hL : v.Length sqrt ≠ 0) (hsq : v.Length sqrt * v.Length sqrt = v.LengthSquared) :
    Vector2.Length sqrt ⟨v.x / v.Length sqrt, v.y / v.Length sqrt⟩ = 1 := by
  have key : ∀ L : T, L ≠ 0 → L * L = v.x * v.x + v.y * v.y →
      v.x / L * (v.x / L) + v.y / L * (v.y / L) = 1 := by
    intro L hL0 hLL
    have : v.x / L * (v.x / L) + v.y / L * (v.y / L) = (v.x * v.x + v.y * v.y) / (L * L) := by ring
    rw [this, ← hLL]
    exact div_self (mul_self_ne_zero.mpr hL0)
  show sqrt _ = 1
  rw [key (v.Length sqrt) hL hsq, h1]

lemma Vector3_Normalized_of_gt {sqrt : T → T} {eps : T} (v : Vector3 T)
    (h : eps < v.Length sqrt) :
    v.Normalized sqrt eps = v.opDiv eps (v.Length sqrt) ∧
    v.Normalized sqrt eps = ⟨v.x / v.Length sqrt, v.y / v.Length sqrt, v.z / v.Length sqrt⟩ := by
  have hg : eps < |v.Length sqrt| := lt_of_lt_of_le h (le_abs_self _)
  have h1 : v.Normalized sqrt eps = v.opDiv eps (v.Length sqrt) := by
    simp [Vector3.Normalized, h]
  exact ⟨h1, h1.trans (Vector3_opDiv_of_guard hg v)⟩

lemma Vector3_Normalized_of_le {sqrt : T → T} {eps : T} (v : Vector3 T)
    (h : v.Length sqrt ≤ eps) : v.Normalized sqrt eps = ⟨0, 0, 0⟩ := by
  simp [Vector3.Normalized, not_lt.mpr h, Vector3.ctor]

lemma Vector3_Length_quotient {sqrt : T → T} (h1 : sqrt 1 = 1) (v : Vector3 T)
    (hL : v.Length sqrt ≠ 0) (hsq : v.Length sqrt * v.Length sqrt = v.LengthSquared) :
    Vector3.Length sqrt ⟨v.x / v.Length sqrt, v.y / v.Length sqrt, v.z / v.Length sqrt⟩ = 1 := by
  have key : ∀ L : T, L ≠ 0 → L * L = v.x * v.x + v.y * v.y + v.z * v.z →
      v.x / L * (v.x / L) + v.y / L * (v.y / L) + v.z / L * (v.z / L) = 1 := by
    intro L hL0 hLL
    have : v.x / L * (v.x / L) + v.y / L * (v.y / L) + v.z / L * (v.z / L) = (v.x * v.x + v.y * v.y + v.z * v.z) / (L * L) := by ring
    rw [this, ← hLL]
    exact div_self (mul_self_ne_zero.mpr hL0)
  show sqrt _ = 1
  rw [key (v.Length sqrt) hL hsq, h1]

lemma Vector4_Normalized_of_gt {sqrt : T → T} {eps : T} (v : Vector4 T)
    (h : eps < v.Length sqrt) :
    v.Normalized sqrt eps = v.opDiv eps (v.Length sqrt) ∧
    v.Normalized sqrt eps = ⟨v.x / v.Length sqrt, v.y / v.Length sqrt, v.z / v.Length sqrt, v.w / v.Length sqrt⟩ := by
  have hg : eps < |v.Length sqrt| := lt_of_lt_of_le h (le_abs_self _)
  have h1 : v.Normalized sqrt eps = v.opDiv eps (v.Length sqrt) := by
    simp [Vector4.Normalized, h]
  exact ⟨h1, h1.trans (Vector4_opDiv_of_guard hg v)⟩

lemma Vector4_Normalized_of_le {sqrt : T → T} {eps : T} (v : Vector4 T)
    (h : v.Length sqrt ≤ eps) : v.Normalized sqrt eps = ⟨0, 0, 0, 0⟩ := by
  simp [Vector4.Normalized, not_lt.mpr h, Vector4.ctor]

lemma Vector4_Length_quotient {sqrt : T → T} (h1 : sqrt 1 = 1) (v : Vector4 T)
    (hL : v.Length sqrt ≠ 0) (hsq : v.Length sqrt * v.Length sqrt = v.LengthSquared) :
    Vector4.Length sqrt ⟨v.x / v.Length sqrt, v.y / v.Length sqrt, v.z / v.Length sqrt, v.w / v.Length sqrt⟩ = 1 := by
  have key : ∀ L : T, L ≠ 0 → L * L = v.x * v.x + v.y * v.y + v.z * v.z + v.w * v.w →
      v.x / L * (v.x / L) + v.y / L * (v.y / L) + v.z / L * (v.z / L) + v.w / L * (v.w / L) = 1 := by
    intro L hL0 hLL
    have : v.x / L * (v.x / L) + v.y / L * (v.y / L) + v.z / L * (v.z / L) + v.w / L * (v.w / L) = (v.x * v.x + v.y * v.y + v.z * v.z + v.w * v.w) / (L * L) := by ring
    rw [this, ← hLL]
    exact div_self (mul_self_ne_zero.mpr hL0)
  show sqrt _ = 1
  rw [key (v.Length sqrt) hL hsq, h1]

/-- At the boundary value the guard of `operator/` rejects the divisor. -/
lemma not_guard_self {eps : T} (heps : 0 ≤ eps) : ¬ (|eps| > eps) := by
  rw [abs_of_nonneg heps]
  exact lt_irrefl eps

lemma Vector2_Projected_degenerate {eps : T} (self v : Vector2 T)
    (h : v.LengthSquared < eps) : Vector2.Projected eps self v = ⟨0, 0⟩ := by
  simp [Vector2.Projected, h, Vector2.ctor]

lemma Vector2_Project_degenerate {eps : T} (self v : Vector2 T)
    (h : v.LengthSquared < eps) : Vector2.Project eps self v = ⟨0, 0⟩ := by
  simp [Vector2.Project, h, Vector2.ctor]

lemma Vector2_Project_of_gt {eps : T} (self v : Vector2 T)
    (h : eps < v.LengthSquared) :
    Vector2.Project eps self v = v.opMul (self.Dot v / v.LengthSquared) := by
  have hg : eps < |v.LengthSquared| := lt_of_lt_of_le h (le_abs_self _)
  simp only [Vector2.Project, if_neg (not_lt.mpr h.le), Vector2_opDiv_of_guard hg,
    Vector2.opMul, mul_div_assoc]

lemma Vector2_Project_boundary {eps : T} (heps : 0 ≤ eps) (self v : Vector2 T)
    (h : v.LengthSquared = eps) : Vector2.Project eps self v = ⟨0, 0⟩ := by
  simp only [Vector2.Project, Vector2.opDiv, h, if_neg (lt_irrefl eps),
    if_neg (not_guard_self heps), Vector2.ctor]

lemma Vector2_Projected_of_ge {eps : T} (self v : Vector2 T)
    (h : eps ≤ v.LengthSquared) :
    Vector2.Projected eps self v = v.opMul (self.Dot v / v.LengthSquared) := by
  simp [Vector2.Projected, not_lt.mpr h]

lemma Vector3_Projected_degenerate {eps : T} (self v : Vector3 T)
    (h : v.LengthSquared < eps) : Vector3.Projected eps self v = ⟨0, 0, 0⟩ := by
  simp [Vector3.Projected, h, Vector3.ctor]

lemma Vector3_Project_degenerate {eps : T} (self v : Vector3 T)
    (h : v.LengthSquared < eps) : Vector3.Project eps self v = ⟨0, 0, 0⟩ := by
  simp [Vector3.Project, h, Vector3.ctor]

lemma Vector3_Project_of_gt {eps : T} (self v : Vector3 T)
    (h : eps < v.LengthSquared) :
    Vector3.Project eps self v = v.opMul (self.Dot v / v.LengthSquared) := by
  have hg : eps < |v.LengthSquared| := lt_of_lt_of_le h (le_abs_self _)
  simp only [Vector3.Project, if_neg (not_lt.mpr h.le), Vector3_opDiv_of_guard hg,
    Vector3.opMul, mul_div_assoc]

lemma Vector3_Project_boundary {eps : T} (heps : 0 ≤ eps) (self v : Vector3 T)
    (h : v.LengthSquared = eps) : Vector3.Project eps self v = ⟨0, 0, 0⟩ := by
  simp only [Vector3.Project, Vector3.opDiv, h, if_neg (lt_irrefl eps),
    if_neg (not_guard_self heps), Vector3.ctor]

lemma Vector3_Projected_eq_Project (eps : T) (self v : Vector3 T) :
    Vector3.Projected eps self v = Vector3.Project eps self v := rfl

lemma Vector3_Projected_of_gt {eps : T} (self v : Vector3 T)
    (h : eps < v.LengthSquared) :
    Vector3.Projected eps self v = v.opMul (self.Dot v / v.LengthSquared) :=
  Vector3_Project_of_gt self v h

lemma Vector3_Projected_boundary {eps : T} (heps : 0 ≤ eps) (self v : Vector3 T)
    (h : v.LengthSquared = eps) : Vector3.Projected eps self v = ⟨0, 0, 0⟩ :=
  Vector3_Project_boundary heps self v h

lemma Vector4_Projected_degenerate {eps : T} (self v : Vector4 T)
    (h : v.LengthSquared < eps) : Vector4.Projected eps self v = ⟨0, 0, 0, 0⟩ := by
  simp [Vector4.Projected, h, Vector4.ctor]

lemma Vector4_Project_degenerate {eps : T} (self v : Vector4 T)
    (h : v.LengthSquared < eps) : Vector4.Project eps self v = ⟨0, 0, 0, 0⟩ := by
  simp [Vector4.Project, h, Vector4.ctor]

lemma Vector4_Project_of_gt {eps : T} (self v : Vector4 T)
    (h : eps < v.LengthSquared) :
    Vector4.Project eps self v = v.opMul (self.Dot v / v.LengthSquared) := by
  have hg : eps < |v.LengthSquared| := lt_of_lt_of_le h (le_abs_self _)
  simp only [Vector4.Project, if_neg (not_lt.mpr h.le), Vector4_opDiv_of_guard hg,
    Vector4.opMul, mul_div_assoc]

lemma Vector4_Project_boundary {eps : T} (heps : 0 ≤ eps) (self v : Vector4 T)
    (h : v.LengthSquared = eps) : Vector4.Project eps self v = ⟨0, 0, 0, 0⟩ := by
  simp only [Vector4.Project, Vector4.opDiv, h, if_neg (lt_irrefl eps),
    if_neg (not_guard_self heps), Vector4.ctor]

lemma Vector4_Projected_of_ge {eps : T} (self v : Vector4 T)
    (h : eps ≤ v.LengthSquared) :
    Vector4.Projected eps self v = v.opMul (self.Dot v / v.LengthSquared) := by
  simp [Vector4.Projected, not_lt.mpr h]

lemma Vector2_ProjectedLogged_value (eps : T) (self v : Vector2 T) :
    (Vector2.ProjectedLogged eps self v).value = Vector2.Projected eps self v := by
  unfold Vector2.ProjectedLogged Vector2.Projected
  by_cases h : v.LengthSquared < eps <;> simp [h]

lemma Vector3_opDivLogged_value (eps : T) (v : Vector3 T) (s : T) :
    (Vector3.opDivLogged eps v s).value = Vector3.opDiv eps v s := by
  unfold Vector3.opDivLogged Vector3.opDiv
  by_cases h : |s| > eps <;> simp [h]

lemma Vector3_ProjectedLogged_value (eps : T) (self v : Vector3 T) :
    (Vector3.ProjectedLogged eps self v).value = Vector3.Projected eps self v := by
  unfold Vector3.ProjectedLogged Vector3.Projected
  by_cases h : v.LengthSquared < eps <;> simp [h, Vector3_opDivLogged_value]

lemma Vector4_ProjectedLogged_value (eps : T) (self v : Vector4 T) :
    (Vector4.ProjectedLogged eps self v).value = Vector4.Projected eps self v := by
  unfold Vector4.ProjectedLogged Vector4.Projected
  by_cases h : v.LengthSquared < eps <;> simp [h]

lemma epsilonF64_pos : 0 < epsilonF64 := by norm_num [epsilonF64]

lemma Vector2_Reflected_of_le {sqrt : T → T} {eps : T} (self normal : Vector2 T)
    (h : normal.Length sqrt ≤ eps) : self.Reflected sqrt eps normal = self := by
  simp [Vector2.Reflected, Vector2_Normalized_of_le normal h, Vector2.opSub, Vector2.opMulLeft]

lemma Vector2_Reflected_of_gt {sqrt : T → T} {eps : T} (self normal : Vector2 T)
    (h : eps < normal.Length sqrt)
    (hsq : normal.Length sqrt * normal.Length sqrt = normal.LengthSquared) :
    self.Reflected sqrt eps normal =
      ⟨self.x - 2 * (self.Dot normal / normal.LengthSquared) * normal.x, self.y - 2 * (self.Dot normal / normal.LengthSquared) * normal.y⟩ := by
  simp only [Vector2.Reflected, (Vector2_Normalized_of_gt normal h).2, Vector2.opSub,
    Vector2.opMulLeft, Vector2.Dot, ← hsq]
  congr 1 <;> ring

lemma Vector2_scaled_term (self n : Vector2 T) (k : T) (hk : k ≠ 0) :
    (self.Dot (n.opMul k) / (n.opMul k).LengthSquared) * (n.opMul k).x =
      (self.Dot n / n.LengthSquared) * n.x ∧
    (self.Dot (n.opMul k) / (n.opMul k).LengthSquared) * (n.opMul k).y =
      (self.Dot n / n.LengthSquared) * n.y := by
  have e : (n.opMul k).LengthSquared = k * k * n.LengthSquared := by
    simp only [Vector2.opMul, Vector2.LengthSquared]; ring
  have d : self.Dot (n.opMul k) = k * self.Dot n := by
    simp only [Vector2.opMul, Vector2.Dot]; ring
  rw [e, d]
  by_cases h : n.LengthSquared = 0
  · simp [h]
  · simp only [Vector2.opMul]
    constructor <;> field_simp <;> ring

lemma Vector2_Reflected_scale {sqrt : T → T} {eps : T} (self n : Vector2 T) (k : T)
    (hk : k ≠ 0) (h : eps < n.Length sqrt)
    (hsq : n.Length sqrt * n.Length sqrt = n.LengthSquared)
    (h' : eps < (n.opMul k).Length sqrt)
    (hsq' : (n.opMul k).Length sqrt * (n.opMul k).Length sqrt = (n.opMul k).LengthSquared) :
    self.Reflected sqrt eps (n.opMul k) = self.Reflected sqrt eps n := by
  rw [Vector2_Reflected_of_gt self n h hsq, Vector2_Reflected_of_gt self (n.opMul k) h' hsq']
  obtain ⟨ex, ey⟩ := Vector2_scaled_term self n k hk
  simp only [mul_assoc, ex, ey]

lemma Vector2_Reflected_twice {sqrt : T → T} {eps : T} (v n : Vector2 T)
    (hL : n.Length sqrt = 1)
    (hsq : n.Length sqrt * n.Length sqrt = n.LengthSquared) :
    (v.Reflected sqrt eps n).Reflected sqrt eps n = v := by
  by_cases h : eps < n.Length sqrt
  · have hLS : n.x * n.x + n.y * n.y = 1 := by
      have := hsq
      rw [hL] at this
      simpa [Vector2.LengthSquared] using this.symm
    have hN : n.Normalized sqrt eps = n := by
      rw [(Vector2_Normalized_of_gt n h).2, hL]
      simp
    simp only [Vector2.Reflected, hN, Vector2.opSub, Vector2.opMulLeft, Vector2.Dot]
    cases v with
    | mk vx vy =>
      simp only [Vector2.mk.injEq]
      constructor
      · linear_combination (4 * n.x * (vx * n.x + vy * n.y)) * hLS
      · linear_combination (4 * n.y * (vx * n.x + vy * n.y)) * hLS
  · rw [Vector2_Reflected_of_le v n (not_lt.mp h), Vector2_Reflected_of_le v n (not_lt.mp h)]

/-- The real square root is exact on every squared length. -/
lemma Vector2_real_sqrt_exact (n : Vector2 ℝ) :
    n.Length Real.sqrt * n.Length Real.sqrt = n.LengthSquared :=
  Real.mul_self_sqrt (add_nonneg (mul_self_nonneg _) (mul_self_nonneg _))

lemma Vector3_Reflected_of_le {sqrt : T → T} {eps : T} (self normal : Vector3 T)
    (h : normal.Length sqrt ≤ eps) : self.Reflected sqrt eps normal = self := by
  simp [Vector3.Reflected, Vector3_Normalized_of_le normal h, Vector3.opSub, Vector3.opMulLeft]

lemma Vector3_Reflected_of_gt {sqrt : T → T} {eps : T} (self normal : Vector3 T)
    (h : eps < normal.Length sqrt)
    (hsq : normal.Length sqrt * normal.Length sqrt = normal.LengthSquared) :
    self.Reflected sqrt eps normal =
      ⟨self.x - 2 * (self.Dot normal / normal.LengthSquared) * normal.x, self.y - 2 * (self.Dot normal / normal.LengthSquared) * normal.y, self.z - 2 * (self.Dot normal / normal.LengthSquared) * normal.z⟩ := by
  simp only [Vector3.Reflected, (Vector3_Normalized_of_gt normal h).2, Vector3.opSub,
    Vector3.opMulLeft, Vector3.Dot, ← hsq]
  congr 1 <;> ring

lemma Vector3_scaled_term (self n : Vector3 T) (k : T) (hk : k ≠ 0) :
    (self.Dot (n.opMul k) / (n.opMul k).LengthSquared) * (n.opMul k).x =
      (self.Dot n / n.LengthSquared) * n.x ∧
    (self.Dot (n.opMul k) / (n.opMul k).LengthSquared) * (n.opMul k).y =
      (self.Dot n / n.LengthSquared) * n.y ∧
    (self.Dot (n.opMul k) / (n.opMul k).LengthSquared) * (n.opMul k).z =
      (self.Dot n / n.LengthSquared) * n.z := by
  have e : (n.opMul k).LengthSquared = k * k * n.LengthSquared := by
    simp only [Vector3.opMul, Vector3.LengthSquared]; ring
  have d : self.Dot (n.opMul k) = k * self.Dot n := by
    simp only [Vector3.opMul, Vector3.Dot]; ring
  rw [e, d]
  by_cases h : n.LengthSquared = 0
  · simp [h]
  · simp only [Vector3.opMul]
    refine ⟨?_, ?_, ?_⟩ <;> field_simp <;> ring

lemma Vector3_Reflected_scale {sqrt : T → T} {eps : T} (self n : Vector3 T) (k : T)
    (hk : k ≠ 0) (h : eps < n.Length sqrt)
    (hsq : n.Length sqrt * n.Length sqrt = n.LengthSquared)
    (h' : eps < (n.opMul k).Length sqrt)
    (hsq' : (n.opMul k).Length sqrt * (n.opMul k).Length sqrt = (n.opMul k).LengthSquared) :
    self.Reflected sqrt eps (n.opMul k) = self.Reflected sqrt eps n := by
  rw [Vector3_Reflected_of_gt self n h hsq, Vector3_Reflected_of_gt self (n.opMul k) h' hsq']
  obtain ⟨ex, ey, ez⟩ := Vector3_scaled_term self n k hk
  simp only [mul_assoc, ex, ey, ez]

lemma Vector3_Reflected_twice {sqrt : T → T} {eps : T} (v n : Vector3 T)
    (hL : n.Length sqrt = 1)
    (hsq : n.Length sqrt * n.Length sqrt = n.LengthSquared) :
    (v.Reflected sqrt eps n).Reflected sqrt eps n = v := by
  by_cases h : eps < n.Length sqrt
  · have hLS : n.x * n.x + n.y * n.y + n.z * n.z = 1 := by
      have := hsq
      rw [hL] at this
      simpa [Vector3.LengthSquared] using this.symm
    have hN : n.Normalized sqrt eps = n := by
      rw [(Vector3_Normalized_of_gt n h).2, hL]
      simp
    simp only [Vector3.Reflected, hN, Vector3.opSub, Vector3.opMulLeft, Vector3.Dot]
    cases v with
    | mk vx vy vz =>
      simp only [Vector3.mk.injEq]
      refine ⟨?_, ?_, ?_⟩
      · linear_combination (4 * n.x * (vx * n.x + vy * n.y + vz * n.z)) * hLS
      · linear_combination (4 * n.y * (vx * n.x + vy * n.y + vz * n.z)) * hLS
      · linear_combination (4 * n.z * (vx * n.x + vy * n.y + vz * n.z)) * hLS
  · rw [Vector3_Reflected_of_le v n (not_lt.mp h), Vector3_Reflected_of_le v n (not_lt.mp h)]

/-- The real square root is exact on every squared length. -/
lemma Vector3_real_sqrt_exact (n : Vector3 ℝ) :
    n.Length Real.sqrt * n.Length Real.sqrt = n.LengthSquared :=
  Real.mul_self_sqrt (add_nonneg (add_nonneg (mul_self_nonneg _) (mul_self_nonneg _)) (mul_self_nonneg _))

lemma Vector4_Reflected_of_le {sqrt : T → T} {eps : T} (self normal : Vector4 T)
    (h : normal.Length sqrt ≤ eps) : self.Reflected sqrt eps normal = self := by
  simp [Vector4.Reflected, Vector4_Normalized_of_le normal h, Vector4.opSub, Vector4.opMulLeft]

lemma Vector4_Reflected_of_gt {sqrt : T → T} {eps : T} (self normal : Vector4 T)
    (h : eps < normal.Length sqrt)
    (hsq : normal.Length sqrt * normal.Length sqrt = normal.LengthSquared) :
    self.Reflected sqrt eps normal =
      ⟨self.x - 2 * (self.Dot normal / normal.LengthSquared) * normal.x, self.y - 2 * (self.Dot normal / normal.LengthSquared) * normal.y, self.z - 2 * (self.Dot normal / normal.LengthSquared) * normal.z, self.w - 2 * (self.Dot normal / normal.LengthSquared) * normal.w⟩ := by
  simp only [Vector4.Reflected, (Vector4_Normalized_of_gt normal h).2, Vector4.opSub,
    Vector4.opMulLeft, Vector4.Dot, ← hsq]
  congr 1 <;> ring

lemma Vector4_scaled_term (self n : Vector4 T) (k : T) (hk : k ≠ 0) :
    (self.Dot (n.opMul k) / (n.opMul k).LengthSquared) * (n.opMul k).x =
      (self.Dot n / n.LengthSquared) * n.x ∧
    (self.Dot (n.opMul k) / (n.opMul k).LengthSquared) * (n.opMul k).y =
      (self.Dot n / n.LengthSquared) * n.y ∧
    (self.Dot (n.opMul k) / (n.opMul k).LengthSquared) * (n.opMul k).z =
      (self.Dot n / n.LengthSquared) * n.z ∧
    (self.Dot (n.opMul k) / (n.opMul k).LengthSquared) * (n.opMul k).w =
      (self.Dot n / n.LengthSquared) * n.w := by
  have e : (n.opMul k).LengthSquared = k * k * n.LengthSquared := by
    simp only [Vector4.opMul, Vector4.LengthSquared]; ring
  have d : self.Dot (n.opMul k) = k * self.Dot n := by
    simp only [Vector4.opMul, Vector4.Dot]; ring
  rw [e, d]
  by_cases h : n.LengthSquared = 0
  · simp [h]
  · simp only [Vector4.opMul]
    refine ⟨?_, ?_, ?_, ?_⟩ <;> field_simp <;> ring

lemma Vector4_Reflected_scale {sqrt : T → T} {eps : T} (self n : Vector4 T) (k : T)
    (hk : k ≠ 0) (h : eps < n.Length sqrt)
    (hsq : n.Length sqrt * n.Length sqrt = n.LengthSquared)
    (h' : eps < (n.opMul k).Length sqrt)
    (hsq' : (n.opMul k).Length sqrt * (n.opMul k).Length sqrt = (n.opMul k).LengthSquared) :
    self.Reflected sqrt eps (n.opMul k) = self.Reflected sqrt eps n := by
  rw [Vector4_Reflected_of_gt self n h hsq, Vector4_Reflected_of_gt self (n.opMul k) h' hsq']
  obtain ⟨ex, ey, ez, ew⟩ := Vector4_scaled_term self n k hk
  simp only [mul_assoc, ex, ey, ez, ew]

lemma Vector4_Reflected_twice {sqrt : T → T} {eps : T} (v n : Vector4 T)
    (hL : n.Length sqrt = 1)
    (hsq : n.Length sqrt * n.Length sqrt = n.LengthSquared) :
    (v.Reflected sqrt eps n).Reflected sqrt eps n = v := by
  by_cases h : eps < n.Length sqrt
  · have hLS : n.x * n.x + n.y * n.y + n.z * n.z + n.w * n.w = 1 := by
      have := hsq
      rw [hL] at this
      simpa [Vector4.LengthSquared] using this.symm
    have hN : n.Normalized sqrt eps = n := by
      rw [(Vector4_Normalized_of_gt n h).2, hL]
      simp
    simp only [Vector4.Reflected, hN, Vector4.opSub, Vector4.opMulLeft, Vector4.Dot]
    cases v with
    | mk vx vy vz vw =>
      simp only [Vector4.mk.injEq]
      refine ⟨?_, ?_, ?_, ?_⟩
      · linear_combination (4 * n.x * (vx * n.x + vy * n.y + vz * n.z + vw * n.w)) * hLS
      · linear_combination (4 * n.y * (vx * n.x + vy * n.y + vz * n.z + vw * n.w)) * hLS
      · linear_combination (4 * n.z * (vx * n.x + vy * n.y + vz * n.z + vw * n.w)) * hLS
      · linear_combination (4 * n.w * (vx * n.x + vy * n.y + vz * n.z + vw * n.w)) * hLS
  · rw [Vector4_Reflected_of_le v n (not_lt.mp h), Vector4_Reflected_of_le v n (not_lt.mp h)]

/-- The real square root is exact on every squared length. -/
lemma Vector4_real_sqrt_exact (n : Vector4 ℝ) :
    n.Length Real.sqrt * n.Length Real.sqrt = n.LengthSquared :=
  Real.mul_self_sqrt (add_nonneg (add_nonneg (add_nonneg (mul_self_nonneg _) (mul_self_nonneg _)) (mul_self_nonneg _)) (mul_self_nonneg _))

lemma epsilonF64_real_pos : (0 : ℝ) < ((epsilonF64 : ℚ) : ℝ) := by
  exact_mod_cast epsilonF64_pos

/-- On positive operands in increasing order the comparison is a relative test against
the larger one. -/
lemma FloatComparator.compare_of_pos_le (c : FloatComparator T) {a b : T} (ha : 0 < a)
    (hab : a ≤ b) : c.Compare a b = true ↔ b - a < b * c.epsilon := by
  have hb : 0 < b := lt_of_lt_of_le ha hab
  rw [FloatComparator.compare_eq_true_iff, abs_of_pos ha, abs_of_pos hb, max_eq_right hab,
    abs_sub_comm, abs_of_nonneg (sub_nonneg.mpr hab)]
  constructor
  · rintro (h | h)
    · exact absurd h (ne_of_gt hb)
    · exact h
  · exact fun h => Or.inr h

lemma FloatComparator.compare_zero_zero (c : FloatComparator T) : c.Compare 0 0 = true := by
  simp [FloatComparator.Compare]

/-- The three scalars `1`, `1 + 3 eps`, `1 + 6 eps` under the tolerance `5 * eps`. -/
lemma FloatComparator.compare_chain {eps : T} (h0 : 0 < eps) (h1 : eps ≤ 1 / 30) :
    (FloatComparator.mk (5 * eps)).Compare 1 (1 + 3 * eps) = true ∧
    (FloatComparator.mk (5 * eps)).Compare (1 + 3 * eps) (1 + 6 * eps) = true ∧
    (FloatComparator.mk (5 * eps)).Compare 1 (1 + 6 * eps) = false := by
  have e2 : 0 < eps * eps := mul_pos h0 h0
  refine ⟨?_, ?_, ?_⟩
  · rw [FloatComparator.compare_of_pos_le _ one_pos (by linarith)]
    show 1 + 3 * eps - 1 < (1 + 3 * eps) * (5 * eps)
    nlinarith
  · rw [FloatComparator.compare_of_pos_le _ (by linarith) (by linarith)]
    show 1 + 6 * eps - (1 + 3 * eps) < (1 + 6 * eps) * (5 * eps)
    nlinarith
  · have hn : ¬ (FloatComparator.mk (5 * eps)).Compare 1 (1 + 6 * eps) = true := by
      rw [FloatComparator.compare_of_pos_le _ one_pos (by linarith)]
      show ¬ (1 + 6 * eps - 1 < (1 + 6 * eps) * (5 * eps))
      have : eps * eps ≤ eps * (1 / 30) := mul_le_mul_of_nonneg_left h1 h0.le
      nlinarith
    simpa using hn

/-- The real square root is a `std::sqrt` in exact arithmetic. -/
lemma isSqrt_real : IsSqrt Real.sqrt :=
  fun t ht => ⟨Real.sqrt_nonneg t, Real.mul_self_sqrt ht⟩

lemma isSqrt_mul_self {sqrt : T → T} (hs : IsSqrt sqrt) {r : T} (hr : 0 ≤ r) :
    sqrt (r * r) = r := by
  obtain ⟨h1, h2⟩ := hs (r * r) (mul_self_nonneg r)
  exact (mul_self_inj h1 hr).mp h2

lemma isSqrt_zero {sqrt : T → T} (hs : IsSqrt sqrt) : sqrt 0 = 0 := by
  have h := isSqrt_mul_self hs (le_refl (0 : T))
  simpa using h

lemma Vector2_LengthSquared_nonneg (v : Vector2 T) : 0 ≤ v.LengthSquared :=
  add_nonneg (mul_self_nonneg _) (mul_self_nonneg _)

lemma Vector2_Length_isSqrt {sqrt : T → T} (hs : IsSqrt sqrt) (v : Vector2 T) :
    0 ≤ v.Length sqrt ∧ v.Length sqrt * v.Length sqrt = v.LengthSquared :=
  hs v.LengthSquared (Vector2_LengthSquared_nonneg v)

lemma Vector2_DistanceTo_comm (sqrt : T → T) (a b : Vector2 T) :
    a.DistanceTo sqrt b = b.DistanceTo sqrt a := by
  simp only [Vector2.DistanceTo, Vector2.Length, Vector2.opSub]
  congr 1
  ring

lemma Vector2_DistanceTo_self {sqrt : T → T} (hs : IsSqrt sqrt) (a : Vector2 T) :
    a.DistanceTo sqrt a = 0 := by
  simp [Vector2.DistanceTo, Vector2.Length, Vector2.opSub, isSqrt_zero hs]

lemma Vector3_LengthSquared_nonneg (v : Vector3 T) : 0 ≤ v.LengthSquared :=
  add_nonneg (add_nonneg (mul_self_nonneg _) (mul_self_nonneg _)) (mul_self_nonneg _)

lemma Vector3_Length_isSqrt {sqrt : T → T} (hs : IsSqrt sqrt) (v : Vector3 T) :
    0 ≤ v.Length sqrt ∧ v.Length sqrt * v.Length sqrt = v.LengthSquared :=
  hs v.LengthSquared (Vector3_LengthSquared_nonneg v)

lemma Vector3_DistanceTo_comm (sqrt : T → T) (a b : Vector3 T) :
    a.DistanceTo sqrt b = b.DistanceTo sqrt a := by
  simp only [Vector3.DistanceTo, Vector3.Length, Vector3.opSub]
  congr 1
  ring

lemma Vector3_DistanceTo_self {sqrt : T → T} (hs : IsSqrt sqrt) (a : Vector3 T) :
    a.DistanceTo sqrt a = 0 := by
  simp [Vector3.DistanceTo, Vector3.Length, Vector3.opSub, isSqrt_zero hs]

lemma Vector4_LengthSquared_nonneg (v : Vector4 T) : 0 ≤ v.LengthSquared :=
  add_nonneg (add_nonneg (add_nonneg (mul_self_nonneg _) (mul_self_nonneg _)) (mul_self_nonneg _)) (mul_self_nonneg _)

lemma Vector4_Length_isSqrt {sqrt : T → T} (hs : IsSqrt sqrt) (v : Vector4 T) :
    0 ≤ v.Length sqrt ∧ v.Length sqrt * v.Length sqrt = v.LengthSquared :=
  hs v.LengthSquared (Vector4_LengthSquared_nonneg v)

lemma Vector4_DistanceTo_comm (sqrt : T → T) (a b : Vector4 T) :
    a.DistanceTo sqrt b = b.DistanceTo sqrt a := by
  simp only [Vector4.DistanceTo, Vector4.Length, Vector4.opSub]
  congr 1
  ring

lemma Vector4_DistanceTo_self {sqrt : T → T} (hs : IsSqrt sqrt) (a : Vector4 T) :
    a.DistanceTo sqrt a = 0 := by
  simp [Vector4.DistanceTo, Vector4.Length, Vector4.opSub, isSqrt_zero hs]

/-- Cauchy-Schwarz for four components, through the Lagrange identity. -/
lemma Vector4_Dot_sq_le (a b : Vector4 T) :
    a.Dot b * a.Dot b ≤ a.LengthSquared * b.LengthSquared := by
  have key : a.LengthSquared * b.LengthSquared - a.Dot b * a.Dot b =
      (a.x * b.y - a.y * b.x) ^ 2 + (a.x * b.z - a.z * b.x) ^ 2 +
      (a.x * b.w - a.w * b.x) ^ 2 + (a.y * b.z - a.z * b.y) ^ 2 +
      (a.y * b.w - a.w * b.y) ^ 2 + (a.z * b.w - a.w * b.z) ^ 2 := by
    simp only [Vector4.LengthSquared, Vector4.Dot]
    ring
  have hnn : 0 ≤ a.LengthSquared * b.LengthSquared - a.Dot b * a.Dot b := by
    rw [key]
    positivity
  linarith

/-- With an exact square root the dot product is bounded by the product of lengths. -/
lemma Vector4_Dot_bounds {sqrt : T → T} (hs : IsSqrt sqrt) (a b : Vector4 T) :
    -(a.Length sqrt * b.Length sqrt) ≤ a.Dot b ∧
    a.Dot b ≤ a.Length sqrt * b.Length sqrt := by
  obtain ⟨ha0, ha⟩ := Vector4_Length_isSqrt hs a
  obtain ⟨hb0, hb⟩ := Vector4_Length_isSqrt hs b
  have hsq : (a.Dot b) ^ 2 ≤ (a.Length sqrt * b.Length sqrt) ^ 2 := by
    have e : (a.Length sqrt * b.Length sqrt) ^ 2 = a.LengthSquared * b.LengthSquared := by
      rw [← ha, ← hb]
      ring
    rw [e, pow_two]
    exact Vector4_Dot_sq_le a b
  exact abs_le_of_sq_le_sq' hsq (mul_nonneg ha0 hb0)

lemma digitChar_isDigit : ∀ k : Nat, k < 10 → (Nat.digitChar k).isDigit = true := by
  decide

lemma fixedFraction_length (p m : Nat) : (fixedFraction p m).length = p := by
  simp [fixedFraction]

lemma fixedFraction_isDigit (p m : Nat) : ∀ c ∈ fixedFraction p m, c.isDigit = true := by
  intro c hc
  simp only [fixedFraction, List.mem_map] at hc
  obtain ⟨i, _, rfl⟩ := hc
  exact digitChar_isDigit _ (Nat.mod_lt _ (by norm_num))

lemma fixedDigits_natCast (p : Nat) : fixedDigits (p : Int) = p := by
  simp [fixedDigits]

lemma max_abs_eq_zero_iff (a b : T) : max |a| |b| = 0 ↔ a = 0 ∧ b = 0 := by
  constructor
  · intro h
    have ha : |a| ≤ 0 := h ▸ le_max_left |a| |b|
    have hb : |b| ≤ 0 := h ▸ le_max_right |a| |b|
    exact ⟨abs_eq_zero.mp (le_antisymm ha (abs_nonneg a)),
      abs_eq_zero.mp (le_antisymm hb (abs_nonneg b))⟩
  · rintro ⟨rfl, rfl⟩
    simp

/-- For operands of opposite sign (or one of them zero) the difference is at least as
large as the larger magnitude. -/
lemma max_abs_le_abs_sub {a b : T} (hab : a * b ≤ 0) : max |a| |b| ≤ |a - b| := by
  have h1 : |a| ≤ |a - b| := sq_le_sq.mp (by nlinarith [sq_nonneg b])
  have h2 : |b| ≤ |a - b| := sq_le_sq.mp (by nlinarith [sq_nonneg a])
  exact max_le h1 h2

/-- The relative test fails whenever the bound is at most the difference. -/
lemma FloatComparator.compare_iff_zero_of_le (c : FloatComparator T) (a b : T)
    (h : max |a| |b| * c.epsilon ≤ |a - b|) :
    c.Compare a b = true ↔ a = 0 ∧ b = 0 := by
  rw [FloatComparator.compare_eq_true_iff, max_abs_eq_zero_iff]
  constructor
  · rintro (h0 | hlt)
    · exact h0
    · exact absurd hlt (not_lt.mpr h)
  · exact fun h0 => Or.inl h0

lemma FloatComparator.compare_opposite (c : FloatComparator T) (hc : c.epsilon ≤ 1)
    {a b : T} (hab : a * b ≤ 0) : c.Compare a b = true ↔ a = 0 ∧ b = 0 := by
  apply FloatComparator.compare_iff_zero_of_le
  have hM : 0 ≤ max |a| |b| := le_trans (abs_nonneg a) (le_max_left _ _)
  calc max |a| |b| * c.epsilon ≤ max |a| |b| * 1 := mul_le_mul_of_nonneg_left hc hM
    _ = max |a| |b| := mul_one _
    _ ≤ |a - b| := max_abs_le_abs_sub hab

lemma FloatComparator.compare_nonpos (c : FloatComparator T) (hc : c.epsilon ≤ 0)
    (a b : T) : c.Compare a b = true ↔ a = 0 ∧ b = 0 := by
  apply FloatComparator.compare_iff_zero_of_le
  have hM : 0 ≤ max |a| |b| := le_trans (abs_nonneg a) (le_max_left _ _)
  exact le_trans (mul_nonpos_of_nonneg_of_nonpos hM hc) (abs_nonneg _)

lemma FloatComparator.compare_zero_right (c : FloatComparator T) (hc : c.epsilon ≤ 1)
    (a : T) : c.Compare a 0 = true ↔ a = 0 := by
  rw [FloatComparator.compare_opposite c hc (by simp)]
  simp

lemma Vector2_opEq_zero_iff {eps : T} (hm : 5 * eps ≤ 1) (v : Vector2 T) :
    Vector2.opEq eps v ⟨0, 0⟩ = true ↔ v = ⟨0, 0⟩ := by
  have hc : (FloatComparator.mk (5 * eps)).epsilon ≤ 1 := hm
  cases v
  simp [Vector2.opEq, FloatComparator.compare_zero_right _ hc, and_assoc]

lemma Vector3_opEq_zero_iff {eps : T} (hm : 5 * eps ≤ 1) (v : Vector3 T) :
    Vector3.opEq eps v ⟨0, 0, 0⟩ = true ↔ v = ⟨0, 0, 0⟩ := by
  have hc : (FloatComparator.mk (5 * eps)).epsilon ≤ 1 := hm
  cases v
  simp [Vector3.opEq, FloatComparator.compare_zero_right _ hc, and_assoc]

lemma Vector4_opEq_zero_iff {eps : T} (hm : 5 * eps ≤ 1) (v : Vector4 T) :
    Vector4.opEq eps v ⟨0, 0, 0, 0⟩ = true ↔ v = ⟨0, 0, 0, 0⟩ := by
  have hc : (FloatComparator.mk (5 * eps)).epsilon ≤ 1 := hm
  cases v
  simp [Vector4.opEq, FloatComparator.compare_zero_right _ hc, and_assoc]

lemma Vector2_Projected_formula {eps : T} (self v : Vector2 T) (h : eps < v.LengthSquared) :
    self.Projected eps v = v.opMul (self.Dot v / v.LengthSquared) :=
  Vector2_Projected_of_ge self v h.le

lemma Vector2_Dot_opMul_left (v w : Vector2 T) (k : T) : (v.opMul k).Dot w = k * v.Dot w := by
  simp only [Vector2.opMul, Vector2.Dot]
  ring

lemma Vector2_Dot_self (v : Vector2 T) : v.Dot v = v.LengthSquared := rfl

lemma Vector2_Projected_orthogonal {eps : T} (heps : 0 ≤ eps) (self v : Vector2 T)
    (h : eps < v.LengthSquared) : (self.opSub (self.Projected eps v)).Dot v = 0 := by
  have hLS : v.LengthSquared ≠ 0 := ne_of_gt (lt_of_le_of_lt heps h)
  have e : ∀ k : T, (self.opSub (v.opMul k)).Dot v = self.Dot v - k * v.LengthSquared := by
    intro k
    simp only [Vector2.opSub, Vector2.opMul, Vector2.Dot, Vector2.LengthSquared]
    ring
  rw [Vector2_Projected_formula self v h, e, div_mul_cancel₀ _ hLS, sub_self]

lemma Vector2_Projected_idempotent {eps : T} (heps : 0 ≤ eps) (self v : Vector2 T)
    (h : eps < v.LengthSquared) :
    (self.Projected eps v).Projected eps v = self.Projected eps v := by
  have hLS : v.LengthSquared ≠ 0 := ne_of_gt (lt_of_le_of_lt heps h)
  rw [Vector2_Projected_formula self v h, Vector2_Projected_formula _ v h, Vector2_Dot_opMul_left,
    Vector2_Dot_self, mul_div_assoc, div_self hLS, mul_one]

/-- Reflecting across a unit direction keeps the sum of squares. -/
lemma Vector2_reflect_sum_sq (vx vy ux uy : T) (hu : ux * ux + uy * uy = 1) :
    (vx - ux * (2 * (vx * ux + vy * uy))) * (vx - ux * (2 * (vx * ux + vy * uy))) + (vy - uy * (2 * (vx * ux + vy * uy))) * (vy - uy * (2 * (vx * ux + vy * uy))) =
      vx * vx + vy * vy := by
  linear_combination (4 * (vx * ux + vy * uy) ^ 2) * hu

lemma Vector2_Reflected_LengthSquared {sqrt : T → T} {eps : T} (v n : Vector2 T)
    (hsq : n.Length sqrt * n.Length sqrt = n.LengthSquared) :
    (v.Reflected sqrt eps n).LengthSquared = v.LengthSquared := by
  by_cases h : eps < n.Length sqrt
  · by_cases hL : n.Length sqrt = 0
    · simp [Vector2.Reflected, (Vector2_Normalized_of_gt n h).2, hL, Vector2.opSub, Vector2.opMulLeft]
    · have hu : ∀ L : T, L ≠ 0 → L * L = n.x * n.x + n.y * n.y →
          n.x / L * (n.x / L) + n.y / L * (n.y / L) = 1 := by
        intro L hL0 hLL
        have e : n.x / L * (n.x / L) + n.y / L * (n.y / L) = (n.x * n.x + n.y * n.y) / (L * L) := by ring
        rw [e, ← hLL]
        exact div_self (mul_self_ne_zero.mpr hL0)
      simp only [Vector2.Reflected, (Vector2_Normalized_of_gt n h).2, Vector2.opSub, Vector2.opMulLeft,
        Vector2.Dot, Vector2.LengthSquared]
      exact Vector2_reflect_sum_sq _ _ _ _ (hu _ hL hsq)
  · rw [Vector2_Reflected_of_le v n (not_lt.mp h)]

lemma Vector3_Projected_formula {eps : T} (self v : Vector3 T) (h : eps < v.LengthSquared) :
    self.Projected eps v = v.opMul (self.Dot v / v.LengthSquared) :=
  Vector3_Projected_of_gt self v h

lemma Vector3_Dot_opMul_left (v w : Vector3 T) (k : T) : (v.opMul k).Dot w = k * v.Dot w := by
  simp only [Vector3.opMul, Vector3.Dot]
  ring

lemma Vector3_Dot_self (v : Vector3 T) : v.Dot v = v.LengthSquared := rfl

lemma Vector3_Projected_orthogonal {eps : T} (heps : 0 ≤ eps) (self v : Vector3 T)
    (h : eps < v.LengthSquared) : (self.opSub (self.Projected eps v)).Dot v = 0 := by
  have hLS : v.LengthSquared ≠ 0 := ne_of_gt (lt_of_le_of_lt heps h)
  have e : ∀ k : T, (self.opSub (v.opMul k)).Dot v = self.Dot v - k * v.LengthSquared := by
    intro k
    simp only [Vector3.opSub, Vector3.opMul, Vector3.Dot, Vector3.LengthSquared]
    ring
  rw [Vector3_Projected_formula self v h, e, div_mul_cancel₀ _ hLS, sub_self]

lemma Vector3_Projected_idempotent {eps : T} (heps : 0 ≤ eps) (self v : Vector3 T)
    (h : eps < v.LengthSquared) :
    (self.Projected eps v).Projected eps v = self.Projected eps v := by
  have hLS : v.LengthSquared ≠ 0 := ne_of_gt (lt_of_le_of_lt heps h)
  rw [Vector3_Projected_formula self v h, Vector3_Projected_formula _ v h, Vector3_Dot_opMul_left,
    Vector3_Dot_self, mul_div_assoc, div_self hLS, mul_one]

/-- Reflecting across a unit direction keeps the sum of squares. -/
lemma Vector3_reflect_sum_sq (vx vy vz ux uy uz : T) (hu : ux * ux + uy * uy + uz * uz = 1) :
    (vx - ux * (2 * (vx * ux + vy * uy + vz * uz))) * (vx - ux * (2 * (vx * ux + vy * uy + vz * uz))) + (vy - uy * (2 * (vx * ux + vy * uy + vz * uz))) * (vy - uy * (2 * (vx * ux + vy * uy + vz * uz))) + (vz - uz * (2 * (vx * ux + vy * uy + vz * uz))) * (vz - uz * (2 * (vx * ux + vy * uy + vz * uz))) =
      vx * vx + vy * vy + vz * vz := by
  linear_combination (4 * (vx * ux + vy * uy + vz * uz) ^ 2) * hu

lemma Vector3_Reflected_LengthSquared {sqrt : T → T} {eps : T} (v n : Vector3 T)
    (hsq : n.Length sqrt * n.Length sqrt = n.LengthSquared) :
    (v.Reflected sqrt eps n).LengthSquared = v.LengthSquared := by
  by_cases h : eps < n.Length sqrt
  · by_cases hL : n.Length sqrt = 0
    · simp [Vector3.Reflected, (Vector3_Normalized_of_gt n h).2, hL, Vector3.opSub, Vector3.opMulLeft]
    · have hu : ∀ L : T, L ≠ 0 → L * L = n.x * n.x + n.y * n.y + n.z * n.z →
          n.x / L * (n.x / L) + n.y / L * (n.y / L) + n.z / L * (n.z / L) = 1 := by
        intro L hL0 hLL
        have e : n.x / L * (n.x / L) + n.y / L * (n.y / L) + n.z / L * (n.z / L) = (n.x * n.x + n.y * n.y + n.z * n.z) / (L * L) := by ring
        rw [e, ← hLL]
        exact div_self (mul_self_ne_zero.mpr hL0)
      simp only [Vector3.Reflected, (Vector3_Normalized_of_gt n h).2, Vector3.opSub, Vector3.opMulLeft,
        Vector3.Dot, Vector3.LengthSquared]
      exact Vector3_reflect_sum_sq _ _ _ _ _ _ (hu _ hL hsq)
  · rw [Vector3_Reflected_of_le v n (not_lt.mp h)]

lemma Vector4_Projected_formula {eps : T} (self v : Vector4 T) (h : eps < v.LengthSquared) :
    self.Projected eps v = v.opMul (self.Dot v / v.LengthSquared) :=
  Vector4_Projected_of_ge self v h.le

lemma Vector4_Dot_opMul_left (v w : Vector4 T) (k : T) : (v.opMul k).Dot w = k * v.Dot w := by
  simp only [Vector4.opMul, Vector4.Dot]
  ring

lemma Vector4_Dot_self (v : Vector4 T) : v.Dot v = v.LengthSquared := rfl

lemma Vector4_Projected_orthogonal {eps : T} (heps : 0 ≤ eps) (self v : Vector4 T)
    (h : eps < v.LengthSquared) : (self.opSub (self.Projected eps v)).Dot v = 0 := by
  have hLS : v.LengthSquared ≠ 0 := ne_of_gt (lt_of_le_of_lt heps h)
  have e : ∀ k : T, (self.opSub (v.opMul k)).Dot v = self.Dot v - k * v.LengthSquared := by
    intro k
    simp only [Vector4.opSub, Vector4.opMul, Vector4.Dot, Vector4.LengthSquared]
    ring
  rw [Vector4_Projected_formula self v h, e, div_mul_cancel₀ _ hLS, sub_self]

lemma Vector4_Projected_idempotent {eps : T} (heps : 0 ≤ eps) (self v : Vector4 T)
    (h : eps < v.LengthSquared) :
    (self.Projected eps v).Projected eps v = self.Projected eps v := by
  have hLS : v.LengthSquared ≠ 0 := ne_of_gt (lt_of_le_of_lt heps h)
  rw [Vector4_Projected_formula self v h, Vector4_Projected_formula _ v h, Vector4_Dot_opMul_left,
    Vector4_Dot_self, mul_div_assoc, div_self hLS, mul_one]

/-- Reflecting across a unit direction keeps the sum of squares. -/
lemma Vector4_reflect_sum_sq (vx vy vz vw ux uy uz uw : T) (hu : ux * ux + uy * uy + uz * uz + uw * uw = 1) :
    (vx - ux * (2 * (vx * ux + vy * uy + vz * uz + vw * uw))) * (vx - ux * (2 * (vx * ux + vy * uy + vz * uz + vw * uw))) + (vy - uy * (2 * (vx * ux + vy * uy + vz * uz + vw * uw))) * (vy - uy * (2 * (vx * ux + vy * uy + vz * uz + vw * uw))) + (vz - uz * (2 * (vx * ux + vy * uy + vz * uz + vw * uw))) * (vz - uz * (2 * (vx * ux + vy * uy + vz * uz + vw * uw))) + (vw - uw * (2 * (vx * ux + vy * uy + vz * uz + vw * uw))) * (vw - uw * (2 * (vx * ux + vy * uy + vz * uz + vw * uw))) =
      vx * vx + vy * vy + vz * vz + vw * vw := by
  linear_combination (4 * (vx * ux + vy * uy + vz * uz + vw * uw) ^ 2) * hu

lemma Vector4_Reflected_LengthSquared {sqrt : T → T} {eps : T} (v n : Vector4 T)
    (hsq : n.Length sqrt * n.Length sqrt = n.LengthSquared) :
    (v.Reflected sqrt eps n).LengthSquared = v.LengthSquared := by
  by_cases h : eps < n.Length sqrt
  · by_cases hL : n.Length sqrt = 0
    · simp [Vector4.Reflected, (Vector4_Normalized_of_gt n h).2, hL, Vector4.opSub, Vector4.opMulLeft]
    · have hu : ∀ L : T, L ≠ 0 → L * L = n.x * n.x + n.y * n.y + n.z * n.z + n.w * n.w →
          n.x / L * (n.x / L) + n.y / L * (n.y / L) + n.z / L * (n.z / L) + n.w / L * (n.w / L) = 1 := by
        intro L hL0 hLL
        have e : n.x / L * (n.x / L) + n.y / L * (n.y / L) + n.z / L * (n.z / L) + n.w / L * (n.w / L) = (n.x * n.x + n.y * n.y + n.z * n.z + n.w * n.w) / (L * L) := by ring
        rw [e, ← hLL]
        exact div_self (mul_self_ne_zero.mpr hL0)
      simp only [Vector4.Reflected, (Vector4_Normalized_of_gt n h).2, Vector4.opSub, Vector4.opMulLeft,
        Vector4.Dot, Vector4.LengthSquared]
      exact Vector4_reflect_sum_sq _ _ _ _ _ _ _ _ (hu _ hL hsq)
  · rw [Vector4_Reflected_of_le v n (not_lt.mp h)]

lemma isSqrt_one {sqrt : T → T} (hs : IsSqrt sqrt) : sqrt 1 = 1 := by
  have h := isSqrt_mul_self hs (zero_le_one : (0 : T) ≤ 1)
  simpa using h

/-- A length above `eps` whose square is below `eps` forces `0 < eps < 1`. -/
lemma eps_window {eps L : T} (hL : 0 ≤ L) (g : eps < L) (l : L * L < eps) :
    0 < eps ∧ eps < 1 := by
  have h0 : 0 < eps := lt_of_le_of_lt (mul_self_nonneg L) l
  refine ⟨h0, ?_⟩
  by_contra h1
  have h1' : 1 ≤ eps := not_lt.mp h1
  nlinarith

/-- For `0 < eps < 1` the scalar `2 eps / (1 + eps)` lies above `eps` and its square
lies below `eps`. -/
lemma eps_window_scalar {eps : T} (h0 : 0 < eps) (h1 : eps < 1) :
    0 ≤ 2 * eps / (1 + eps) ∧ eps < 2 * eps / (1 + eps) ∧
    2 * eps / (1 + eps) * (2 * eps / (1 + eps)) < eps := by
  have hp : 0 < 1 + eps := by linarith
  refine ⟨by positivity, ?_, ?_⟩
  · rw [lt_div_iff₀ hp]
    nlinarith
  · rw [div_mul_div_comm, div_lt_iff₀ (mul_pos hp hp)]
    have h2 : 0 < (1 - eps) * (1 - eps) := mul_pos (by linarith) (by linarith)
    nlinarith

lemma Vector2_LengthSquared_opMul (v : Vector2 T) (k : T) :
    (v.opMul k).LengthSquared = k * k * v.LengthSquared := by
  simp only [Vector2.opMul, Vector2.LengthSquared]
  ring

lemma Vector2_Dot_quotient (self v : Vector2 T) (L : T) :
    self.Dot ⟨v.x / L, v.y / L⟩ = self.Dot v / L := by
  simp only [Vector2.Dot]
  ring

lemma Vector2_rescale_window {sqrt : T → T} (hs : IsSqrt sqrt) {eps : T} (self v : Vector2 T)
    (g : eps < v.Length sqrt) (l : v.LengthSquared < eps) :
    (v.Normalized sqrt eps).Length sqrt = 1 ∧
    (v.Normalized sqrt eps).LengthSquared = 1 ∧
    self.Projected eps v = ⟨0, 0⟩ ∧
    self.Projected eps (v.Normalized sqrt eps) =
      (v.Normalized sqrt eps).opMul (self.Dot (v.Normalized sqrt eps)) ∧
    (self.Dot v ≠ 0 →
      self.Projected eps (v.Normalized sqrt eps) ≠ self.Projected eps v) := by
  obtain ⟨hL0, hLL⟩ := Vector2_Length_isSqrt hs v
  obtain ⟨he0, he1⟩ := eps_window hL0 g (by rw [hLL]; exact l)
  have hLne : v.Length sqrt ≠ 0 := ne_of_gt (lt_trans he0 g)
  have hN : v.Normalized sqrt eps = ⟨v.x / v.Length sqrt, v.y / v.Length sqrt⟩ := (Vector2_Normalized_of_gt v g).2
  have hlen : (v.Normalized sqrt eps).Length sqrt = 1 := by
    rw [hN]
    exact Vector2_Length_quotient (isSqrt_one hs) v hLne hLL
  have hls : (v.Normalized sqrt eps).LengthSquared = 1 := by
    have h := (Vector2_Length_isSqrt hs (v.Normalized sqrt eps)).2
    rw [hlen] at h
    simpa using h.symm
  have hz : self.Projected eps v = ⟨0, 0⟩ := Vector2_Projected_degenerate self v l
  have hp : self.Projected eps (v.Normalized sqrt eps) =
      (v.Normalized sqrt eps).opMul (self.Dot (v.Normalized sqrt eps)) := by
    rw [Vector2_Projected_formula self _ (by rw [hls]; exact he1), hls, div_one]
  refine ⟨hlen, hls, hz, hp, ?_⟩
  intro hd heq
  rw [hp, hz] at heq
  have h := congrArg Vector2.LengthSquared heq
  rw [Vector2_LengthSquared_opMul, hls, mul_one] at h
  have hd0 : self.Dot (v.Normalized sqrt eps) = 0 := by
    have h' : self.Dot (v.Normalized sqrt eps) * self.Dot (v.Normalized sqrt eps) = 0 := by
      simpa [Vector2.LengthSquared] using h
    exact mul_self_eq_zero.mp h'
  rw [hN, Vector2_Dot_quotient] at hd0
  exact (div_ne_zero hd hLne) hd0

lemma Vector2_window_exists {sqrt : T → T} (hs : IsSqrt sqrt) {eps : T} (h0 : 0 < eps)
    (h1 : eps < 1) : ∃ v : Vector2 T, eps < v.Length sqrt ∧ v.LengthSquared < eps := by
  obtain ⟨hr, hgt, hlt⟩ := eps_window_scalar h0 h1
  refine ⟨⟨2 * eps / (1 + eps), 0⟩, ?_, ?_⟩
  · simp only [Vector2.Length, mul_zero, add_zero, isSqrt_mul_self hs hr]
    exact hgt
  · simp only [Vector2.LengthSquared, mul_zero, add_zero]
    exact hlt

lemma Vector3_LengthSquared_opMul (v : Vector3 T) (k : T) :
    (v.opMul k).LengthSquared = k * k * v.LengthSquared := by
  simp only [Vector3.opMul, Vector3.LengthSquared]
  ring

lemma Vector3_Dot_quotient (self v : Vector3 T) (L : T) :
    self.Dot ⟨v.x / L, v.y / L, v.z / L⟩ = self.Dot v / L := by
  simp only [Vector3.Dot]
  ring

lemma Vector3_rescale_window {sqrt : T → T} (hs : IsSqrt sqrt) {eps : T} (self v : Vector3 T)
    (g : eps < v.Length sqrt) (l : v.LengthSquared < eps) :
    (v.Normalized sqrt eps).Length sqrt = 1 ∧
    (v.Normalized sqrt eps).LengthSquared = 1 ∧
    self.Projected eps v = ⟨0, 0, 0⟩ ∧
    self.Projected eps (v.Normalized sqrt eps) =
      (v.Normalized sqrt eps).opMul (self.Dot (v.Normalized sqrt eps)) ∧
    (self.Dot v ≠ 0 →
      self.Projected eps (v.Normalized sqrt eps) ≠ self.Projected eps v) := by
  obtain ⟨hL0, hLL⟩ := Vector3_Length_isSqrt hs v
  obtain ⟨he0, he1⟩ := eps_window hL0 g (by rw [hLL]; exact l)
  have hLne : v.Length sqrt ≠ 0 := ne_of_gt (lt_trans he0 g)
  have hN : v.Normalized sqrt eps = ⟨v.x / v.Length sqrt, v.y / v.Length sqrt, v.z / v.Length sqrt⟩ := (Vector3_Normalized_of_gt v g).2
  have hlen : (v.Normalized sqrt eps).Length sqrt = 1 := by
    rw [hN]
    exact Vector3_Length_quotient (isSqrt_one hs) v hLne hLL
  have hls : (v.Normalized sqrt eps).LengthSquared = 1 := by
    have h := (Vector3_Length_isSqrt hs (v.Normalized sqrt eps)).2
    rw [hlen] at h
    simpa using h.symm
  have hz : self.Projected eps v = ⟨0, 0, 0⟩ := Vector3_Projected_degenerate self v l
  have hp : self.Projected eps (v.Normalized sqrt eps) =
      (v.Normalized sqrt eps).opMul (self.Dot (v.Normalized sqrt eps)) := by
    rw [Vector3_Projected_formula self _ (by rw [hls]; exact he1), hls, div_one]
  refine ⟨hlen, hls, hz, hp, ?_⟩
  intro hd heq
  rw [hp, hz] at heq
  have h := congrArg Vector3.LengthSquared heq
  rw [Vector3_LengthSquared_opMul, hls, mul_one] at h
  have hd0 : self.Dot (v.Normalized sqrt eps) = 0 := by
    have h' : self.Dot (v.Normalized sqrt eps) * self.Dot (v.Normalized sqrt eps) = 0 := by
      simpa [Vector3.LengthSquared] using h
    exact mul_self_eq_zero.mp h'
  rw [hN, Vector3_Dot_quotient] at hd0
  exact (div_ne_zero hd hLne) hd0

lemma Vector3_window_exists {sqrt : T → T} (hs : IsSqrt sqrt) {eps : T} (h0 : 0 < eps)
    (h1 : eps < 1) : ∃ v : Vector3 T, eps < v.Length sqrt ∧ v.LengthSquared < eps := by
  obtain ⟨hr, hgt, hlt⟩ := eps_window_scalar h0 h1
  refine ⟨⟨2 * eps / (1 + eps), 0, 0⟩, ?_, ?_⟩
  · simp only [Vector3.Length, mul_zero, add_zero, isSqrt_mul_self hs hr]
    exact hgt
  · simp only [Vector3.LengthSquared, mul_zero, add_zero]
    exact hlt

lemma Vector4_LengthSquared_opMul (v : Vector4 T) (k : T) :
    (v.opMul k).LengthSquared = k * k * v.LengthSquared := by
  simp only [Vector4.opMul, Vector4.LengthSquared]
  ring

lemma Vector4_Dot_quotient (self v : Vector4 T) (L : T) :
    self.Dot ⟨v.x / L, v.y / L, v.z / L, v.w / L⟩ = self.Dot v / L := by
  simp only [Vector4.Dot]
  ring

lemma Vector4_rescale_window {sqrt : T → T} (hs : IsSqrt sqrt) {eps : T} (self v : Vector4 T)
    (g : eps < v.Length sqrt) (l : v.LengthSquared < eps) :
    (v.Normalized sqrt eps).Length sqrt = 1 ∧
    (v.Normalized sqrt eps).LengthSquared = 1 ∧
    self.Projected eps v = ⟨0, 0, 0, 0⟩ ∧
    self.Projected eps (v.Normalized sqrt eps) =
      (v.Normalized sqrt eps).opMul (self.Dot (v.Normalized sqrt eps)) ∧
    (self.Dot v ≠ 0 →
      self.Projected eps (v.Normalized sqrt eps) ≠ self.Projected eps v) := by
  obtain ⟨hL0, hLL⟩ := Vector4_Length_isSqrt hs v
  obtain ⟨he0, he1⟩ := eps_window hL0 g (by rw [hLL]; exact l)
  have hLne : v.Length sqrt ≠ 0 := ne_of_gt (lt_trans he0 g)
  have hN : v.Normalized sqrt eps = ⟨v.x / v.Length sqrt, v.y / v.Length sqrt, v.z / v.Length sqrt, v.w / v.Length sqrt⟩ := (Vector4_Normalized_of_gt v g).2
  have hlen : (v.Normalized sqrt eps).Length sqrt = 1 := by
    rw [hN]
    exact Vector4_Length_quotient (isSqrt_one hs) v hLne hLL
  have hls : (v.Normalized sqrt eps).LengthSquared = 1 := by
    have h := (Vector4_Length_isSqrt hs (v.Normalized sqrt eps)).2
    rw [hlen] at h
    simpa using h.symm
  have hz : self.Projected eps v = ⟨0, 0, 0, 0⟩ := Vector4_Projected_degenerate self v l
  have hp : self.Projected eps (v.Normalized sqrt eps) =
      (v.Normalized sqrt eps).opMul (self.Dot (v.Normalized sqrt eps)) := by
    rw [Vector4_Projected_formula self _ (by rw [hls]; exact he1), hls, div_one]
  refine ⟨hlen, hls, hz, hp, ?_⟩
  intro hd heq
  rw [hp, hz] at heq
  have h := congrArg Vector4.LengthSquared heq
  rw [Vector4_LengthSquared_opMul, hls, mul_one] at h
  have hd0 : self.Dot (v.Normalized sqrt eps) = 0 := by
    have h' : self.Dot (v.Normalized sqrt eps) * self.Dot (v.Normalized sqrt eps) = 0 := by
      simpa [Vector4.LengthSquared] using h
    exact mul_self_eq_zero.mp h'
  rw [hN, Vector4_Dot_quotient] at hd0
  exact (div_ne_zero hd hLne) hd0

lemma Vector4_window_exists {sqrt : T → T} (hs : IsSqrt sqrt) {eps : T} (h0 : 0 < eps)
    (h1 : eps < 1) : ∃ v : Vector4 T, eps < v.Length sqrt ∧ v.LengthSquared < eps := by
  obtain ⟨hr, hgt, hlt⟩ := eps_window_scalar h0 h1
  refine ⟨⟨2 * eps / (1 + eps), 0, 0, 0⟩, ?_, ?_⟩
  · simp only [Vector4.Length, mul_zero, add_zero, isSqrt_mul_self hs hr]
    exact hgt
  · simp only [Vector4.LengthSquared, mul_zero, add_zero]
    exact hlt

/-- Lagrange identity for the Vector3 cross and dot products. -/
lemma Vector3_Lagrange (a b : Vector3 T) :
    (a.Cross b).LengthSquared + a.Dot b ^ 2 = a.LengthSquared * b.LengthSquared := by
  simp only [Vector3.Cross, Vector3.LengthSquared, Vector3.Dot]
  ring

lemma Vector3_LengthSquared_pos (a : Vector3 T) (ha : a ≠ ⟨0, 0, 0⟩) :
    0 < a.LengthSquared := by
  refine lt_of_le_of_ne (Vector3_LengthSquared_nonneg a) (fun h => ha ?_)
  have h' : a.x * a.x + a.y * a.y + a.z * a.z = 0 := h.symm
  have hx : a.x * a.x = 0 :=
    le_antisymm (by linarith [mul_self_nonneg a.y, mul_self_nonneg a.z]) (mul_self_nonneg _)
  have hy : a.y * a.y = 0 :=
    le_antisymm (by linarith [mul_self_nonneg a.x, mul_self_nonneg a.z]) (mul_self_nonneg _)
  have hz : a.z * a.z = 0 :=
    le_antisymm (by linarith [mul_self_nonneg a.x, mul_self_nonneg a.y]) (mul_self_nonneg _)
  cases a
  simp only [Vector3.mk.injEq]
  exact ⟨mul_self_eq_zero.mp hx, mul_self_eq_zero.mp hy, mul_self_eq_zero.mp hz⟩

lemma Vector3_Length_pos {sqrt : T → T} (hs : IsSqrt sqrt) (a : Vector3 T)
    (ha : a ≠ ⟨0, 0, 0⟩) : 0 < a.Length sqrt := by
  obtain ⟨h0, h1⟩ := Vector3_Length_isSqrt hs a
  refine lt_of_le_of_ne h0 (fun h => ?_)
  have hp := Vector3_LengthSquared_pos a ha
  rw [← h1, ← h] at hp
  simp at hp

lemma Vector4_embed_Length (sqrt : T → T) (a : Vector3 T) :
    Vector4.Length sqrt ⟨a.x, a.y, a.z, 0⟩ = a.Length sqrt := by
  simp [Vector4.Length, Vector3.Length]

lemma Vector4_embed_Dot (a b : Vector3 T) :
    Vector4.Dot ⟨a.x, a.y, a.z, 0⟩ ⟨b.x, b.y, b.z, 0⟩ = a.Dot b := by
  simp [Vector4.Dot, Vector3.Dot]

/-- With exact library functions the Vector4 angle is the arc cosine of the normalized
dot product. -/
lemma Vector4_AngleTo_arccos {sqrt acos : ℝ → ℝ} (hs : IsSqrt sqrt) (hac : IsAcos acos)
    (a b : Vector4 ℝ) (ha : 0 < a.Length sqrt) (hb : 0 < b.Length sqrt) :
    a.AngleTo sqrt acos b = Real.arccos (a.Dot b / (a.Length sqrt * b.Length sqrt)) := by
  have hP : 0 < a.Length sqrt * b.Length sqrt := mul_pos ha hb
  obtain ⟨hlo, hhi⟩ := Vector4_Dot_bounds hs a b
  have h1 : -1 ≤ a.Dot b / (a.Length sqrt * b.Length sqrt) := by
    rw [le_div_iff₀ hP]
    linarith
  have h2 : a.Dot b / (a.Length sqrt * b.Length sqrt) ≤ 1 := (div_le_one hP).mpr hhi
  exact hac _ h1 h2

/-- With exact library functions the Vector3 angle of two non-zero vectors is the arc
cosine of the normalized dot product. -/
lemma Vector3_AngleTo_arccos {sqrt : ℝ → ℝ} {atan2 : ℝ → ℝ → ℝ} (hs : IsSqrt sqrt)
    (hat : IsAtan2 atan2) (a b : Vector3 ℝ) (ha : a ≠ ⟨0, 0, 0⟩) (hb : b ≠ ⟨0, 0, 0⟩) :
    a.AngleTo sqrt atan2 b = Real.arccos (a.Dot b / (a.Length sqrt * b.Length sqrt)) := by
  obtain ⟨hy0, hyy⟩ := Vector3_Length_isSqrt hs (a.Cross b)
  obtain ⟨_, haa⟩ := Vector3_Length_isSqrt hs a
  obtain ⟨_, hbb⟩ := Vector3_Length_isSqrt hs b
  have hP : 0 < a.Length sqrt * b.Length sqrt :=
    mul_pos (Vector3_Length_pos hs a ha) (Vector3_Length_pos hs b hb)
  have hns : a.Dot b * a.Dot b + (a.Cross b).Length sqrt * (a.Cross b).Length sqrt =
      a.Length sqrt * b.Length sqrt * (a.Length sqrt * b.Length sqrt) := by
    rw [mul_mul_mul_comm, haa, hbb, hyy, ← Vector3_Lagrange a b]
    ring
  have habs : Complex.abs ⟨a.Dot b, (a.Cross b).Length sqrt⟩ =
      a.Length sqrt * b.Length sqrt := by
    rw [Complex.abs_apply, Complex.normSq_mk, hns, Real.sqrt_mul_self hP.le]
  have hz : (⟨a.Dot b, (a.Cross b).Length sqrt⟩ : ℂ) ≠ 0 := by
    intro h
    rw [h, map_zero] at habs
    exact (ne_of_gt hP) habs.symm
  simp only [Vector3.AngleTo, hat _ _]
  rw [Complex.arg_of_im_nonneg_of_ne_zero hy0 hz, habs]

/-! ### IEEE-754 binary64 -/

set_option exponentiation.threshold 4096

lemma F64_mul_def (a b : F64) : a * b = F64.mul a b := rfl

lemma F64_add_def (a b : F64) : a + b = F64.add a b := rfl

lemma F64_sub_def (a b : F64) : a - b = F64.sub a b := rfl

lemma F64_neg_def (a : F64) : -a = F64.neg a := rfl

/-- Rounding a zero quotient gives the zero of the same sign. -/
lemma F64_round_zero (s : Bool) (d : Nat) (hd : 0 < d) : F64.round s 0 d = F64.finite s 0 := by
  have h53 : (0 : Nat) < 2 ^ 53 := Nat.pow_pos (by norm_num)
  have h98 : 0 < F64.overflow := Nat.pow_pos (by norm_num)
  have hm : F64.roundMag 0 d = 0 := by
    simp only [F64.roundMag, Nat.zero_div, if_pos h53, pow_zero, mul_one, F64.roundHalfEven,
      Nat.zero_mod, mul_zero, if_pos hd]
  simp only [F64.round, hm, if_pos h98]

/-- The literal `0` of `F64` is the positive zero. -/
lemma F64_zero_eq : (0 : F64) = F64.finite false 0 := by
  show F64.round false (0 * F64.scale) 1 = F64.finite false 0
  rw [Nat.zero_mul]
  exact F64_round_zero false 1 Nat.one_pos

/-- The rounded values of one quotient under opposite signs cancel to `+0` when finite,
and add up to NaN when they overflow. -/
lemma F64_round_add_neg (s : Bool) (n d : Nat) :
    F64.add (F64.round s n d) (F64.round (!s) n d)
      = if F64.isFinite (F64.round s n d) then F64.finite false 0 else F64.nan := by
  unfold F64.round
  split
  · cases s <;> simp [F64.add, F64.isFinite]
  · cases s <;> simp [F64.add, F64.isFinite]

/-- Finiteness of a rounded value does not depend on its sign. -/
lemma F64_isFinite_round (s : Bool) (n d : Nat) :
    F64.isFinite (F64.round s n d) = decide (F64.roundMag n d < F64.overflow) := by
  unfold F64.round
  split <;> simp [F64.isFinite, *]

/-- In `double`, for a Vector2 `v` with finite components, the `Dot` of
`v.Perpendicular(c)` with `v` is `+0` when the product `v.x * v.y` is finite and NaN when
it overflows. -/
lemma IEEE_Vector2_Perpendicular_Dot (v : Vector2 F64) (hx : v.x.isFinite = true)
    (hy : v.y.isFinite = true) (c : Bool) :
    IEEE.Vector2.Dot (IEEE.Vector2.Perpendicular v c) v
      = if F64.isFinite (v.x * v.y) then F64.finite false 0 else F64.nan := by
  obtain ⟨x, y⟩ := v
  cases x with
  | nan => simp [F64.isFinite] at hx
  | inf s => simp [F64.isFinite] at hx
  | finite s a =>
    cases y with
    | nan => simp [F64.isFinite] at hy
    | inf t => simp [F64.isFinite] at hy
    | finite t b =>
      have hf : ∀ u : Bool, F64.isFinite (F64.round u (a * b) F64.scale)
          = F64.isFinite (F64.round (xor s t) (a * b) F64.scale) := by
        intro u
        rw [F64_isFinite_round, F64_isFinite_round]
      cases c
      · have h := F64_round_add_neg (xor t s) (a * b) F64.scale
        rw [hf] at h
        cases s <;> cases t <;>
          simpa [IEEE.Vector2.Dot, IEEE.Vector2.Perpendicular, F64_mul_def, F64_add_def,
            F64_neg_def, F64.mul, F64.neg, Nat.mul_comm b a] using h
      · have h := F64_round_add_neg (xor (!t) s) (a * b) F64.scale
        rw [hf] at h
        cases s <;> cases t <;>
          simpa [IEEE.Vector2.Dot, IEEE.Vector2.Perpendicular, F64_mul_def, F64_add_def,
            F64_neg_def, F64.mul, F64.neg, Nat.mul_comm b a] using h

/-- In `double`, the difference `x * y - y * x` of the two products of finite values is
`+0` when the product is finite and NaN when it overflows. -/
lemma F64_mul_sub_mul_comm (x y : F64) (hx : x.isFinite = true) (hy : y.isFinite = true) :
    x * y - y * x = if F64.isFinite (x * y) then F64.finite false 0 else F64.nan := by
  cases x with
  | nan => simp [F64.isFinite] at hx
  | inf s => simp [F64.isFinite] at hx
  | finite s a =>
    cases y with
    | nan => simp [F64.isFinite] at hy
    | inf t => simp [F64.isFinite] at hy
    | finite t b =>
      have hn : F64.neg (F64.round (xor t s) (a * b) F64.scale)
          = F64.round (!(xor s t)) (a * b) F64.scale := by
        unfold F64.round
        split <;> cases s <;> cases t <;> rfl
      have h := F64_round_add_neg (xor s t) (a * b) F64.scale
      simp only [F64_mul_def, F64_sub_def, F64.sub, F64.mul, Nat.mul_comm b a, hn]
      exact h

/-- In `double`, `a.Cross(a)` for a Vector3 with finite components: each component is
`+0` when the product it is built from is finite, and NaN when that product overflows. -/
lemma IEEE_Vector3_Cross_self (a : Vector3 F64) (hx : a.x.isFinite = true)
    (hy : a.y.isFinite = true) (hz : a.z.isFinite = true) :
    IEEE.Vector3.Cross a a =
      ⟨if F64.isFinite (a.y * a.z) then F64.finite false 0 else F64.nan,
       if F64.isFinite (a.z * a.x) then F64.finite false 0 else F64.nan,
       if F64.isFinite (a.x * a.y) then F64.finite false 0 else F64.nan⟩ := by
  simp only [IEEE.Vector3.Cross, F64_mul_sub_mul_comm _ _ hy hz,
    F64_mul_sub_mul_comm _ _ hz hx, F64_mul_sub_mul_comm _ _ hx hy]

/-- In `double`, `a.Cross(a)` for a Vector4 with finite `x`, `y`, `z`. -/
lemma IEEE_Vector4_Cross_self (a : Vector4 F64) (hx : a.x.isFinite = true)
    (hy : a.y.isFinite = true) (hz : a.z.isFinite = true) :
    IEEE.Vector4.Cross a a =
      ⟨if F64.isFinite (a.y * a.z) then F64.finite false 0 else F64.nan,
       if F64.isFinite (a.z * a.x) then F64.finite false 0 else F64.nan,
       if F64.isFinite (a.x * a.y) then F64.finite false 0 else F64.nan, 0⟩ := by
  simp only [IEEE.Vector4.Cross, F64_mul_sub_mul_comm _ _ hy hz,
    F64_mul_sub_mul_comm _ _ hz hx, F64_mul_sub_mul_comm _ _ hx hy]

end Lemmas

/-! ## Theorems -/

section Claims

variable {T : Type} [LinearOrderedField T]

/-- C1: for every comparator epsilon `eps` and all scalars `a`, `b`,
`FloatComparator(eps).Compare(a, b)` is true if and only if `max(|a|, |b|) = 0` or
`|a - b| < max(|a|, |b|) * eps`, with a strict inequality. -/
theorem FloatComparator.Compare_spec (eps a b : T) :
    (FloatComparator.mk eps).Compare a b = true ↔
      (max |a| |b| = 0 ∨ |a - b| < max |a| |b| * eps) :=
  FloatComparator.compare_eq_true_iff ⟨eps⟩ a b

/-- C2: for Vector2, Vector3 and Vector4, `a == b` is true exactly when
`FloatComparator(5 * eps).Compare` holds for every pair of corresponding components, and
`a != b` is the logical negation of `a == b`. -/
theorem Vector_opEq_opNe_spec (eps : T) (a2 b2 : Vector2 T) (a3 b3 : Vector3 T)
    (a4 b4 : Vector4 T) :
    ((Vector2.opEq eps a2 b2 = true ↔
        ((FloatComparator.mk (5 * eps)).Compare a2.x b2.x = true ∧
         (FloatComparator.mk (5 * eps)).Compare a2.y b2.y = true)) ∧
      Vector2.opNe eps a2 b2 = !Vector2.opEq eps a2 b2) ∧
    ((Vector3.opEq eps a3 b3 = true ↔
        ((FloatComparator.mk (5 * eps)).Compare a3.x b3.x = true ∧
         (FloatComparator.mk (5 * eps)).Compare a3.y b3.y = true ∧
         (FloatComparator.mk (5 * eps)).Compare a3.z b3.z = true)) ∧
      Vector3.opNe eps a3 b3 = !Vector3.opEq eps a3 b3) ∧
    ((Vector4.opEq eps a4 b4 = true ↔
        ((FloatComparator.mk (5 * eps)).Compare a4.x b4.x = true ∧
         (FloatComparator.mk (5 * eps)).Compare a4.y b4.y = true ∧
         (FloatComparator.mk (5 * eps)).Compare a4.z b4.z = true ∧
         (FloatComparator.mk (5 * eps)).Compare a4.w b4.w = true)) ∧
      Vector4.opNe eps a4 b4 = !Vector4.opEq eps a4 b4) := by
  refine ⟨⟨?_, ?_⟩, ⟨?_, ?_⟩, ⟨?_, ?_⟩⟩
  · simp [Vector2.opEq]
  · simp [Vector2.opEq, Vector2.opNe, Bool.not_and]
  · simp [Vector3.opEq, and_assoc]
  · simp [Vector3.opEq, Vector3.opNe, Bool.not_and]
  · simp [Vector4.opEq, and_assoc]
  · simp [Vector4.opEq, Vector4.opNe, Bool.not_and]

/-- C4: scalar division with the near-zero guard (production path).  For Vector2,
Vector3 and Vector4, `v / s` is the component-wise quotient when `|s| > eps` and the
zero vector when `|s| <= eps`. -/
theorem Vector_opDiv_spec (eps s : T) (v2 : Vector2 T) (v3 : Vector3 T) (v4 : Vector4 T) :
    ((eps < |s| → Vector2.opDiv eps v2 s = ⟨v2.x / s, v2.y / s⟩) ∧
      (|s| ≤ eps → Vector2.opDiv eps v2 s = ⟨0, 0⟩)) ∧
    ((eps < |s| → Vector3.opDiv eps v3 s = ⟨v3.x / s, v3.y / s, v3.z / s⟩) ∧
      (|s| ≤ eps → Vector3.opDiv eps v3 s = ⟨0, 0, 0⟩)) ∧
    ((eps < |s| → Vector4.opDiv eps v4 s = ⟨v4.x / s, v4.y / s, v4.z / s, v4.w / s⟩) ∧
      (|s| ≤ eps → Vector4.opDiv eps v4 s = ⟨0, 0, 0, 0⟩)) :=
  ⟨⟨fun h => Vector2_opDiv_of_guard h v2, fun h => Vector2_opDiv_of_not_guard h v2⟩,
   ⟨fun h => Vector3_opDiv_of_guard h v3, fun h => Vector3_opDiv_of_not_guard h v3⟩,
   ⟨fun h => Vector4_opDiv_of_guard h v4, fun h => Vector4_opDiv_of_not_guard h v4⟩⟩

/-- Witness of C4: division by `2` and by the `double` epsilon itself. -/
theorem Vector_opDiv_spec_witness :
    (Vector2.opDiv epsilonF64 ⟨1, 2⟩ 2 = ⟨1 / 2, 2 / 2⟩ ∧
      Vector2.opDiv epsilonF64 ⟨1, 2⟩ epsilonF64 = ⟨0, 0⟩) ∧
    (Vector3.opDiv epsilonF64 ⟨1, 2, 3⟩ 2 = ⟨1 / 2, 2 / 2, 3 / 2⟩ ∧
      Vector3.opDiv epsilonF64 ⟨1, 2, 3⟩ epsilonF64 = ⟨0, 0, 0⟩) ∧
    (Vector4.opDiv epsilonF64 ⟨1, 2, 3, 4⟩ 2 = ⟨1 / 2, 2 / 2, 3 / 2, 4 / 2⟩ ∧
      Vector4.opDiv epsilonF64 ⟨1, 2, 3, 4⟩ epsilonF64 = ⟨0, 0, 0, 0⟩) :=
  have h2 : epsilonF64 < |(2 : ℚ)| := by norm_num [epsilonF64]
  have h0 : |epsilonF64| ≤ epsilonF64 :=
    (abs_of_pos (by norm_num [epsilonF64] : (0 : ℚ) < epsilonF64)).le
  ⟨⟨(Vector_opDiv_spec epsilonF64 2 ⟨1, 2⟩ ⟨1, 2, 3⟩ ⟨1, 2, 3, 4⟩).1.1 h2,
    (Vector_opDiv_spec epsilonF64 epsilonF64 ⟨1, 2⟩ ⟨1, 2, 3⟩ ⟨1, 2, 3, 4⟩).1.2 h0⟩,
   ⟨(Vector_opDiv_spec epsilonF64 2 ⟨1, 2⟩ ⟨1, 2, 3⟩ ⟨1, 2, 3, 4⟩).2.1.1 h2,
    (Vector_opDiv_spec epsilonF64 epsilonF64 ⟨1, 2⟩ ⟨1, 2, 3⟩ ⟨1, 2, 3, 4⟩).2.1.2 h0⟩,
   ⟨(Vector_opDiv_spec epsilonF64 2 ⟨1, 2⟩ ⟨1, 2, 3⟩ ⟨1, 2, 3, 4⟩).2.2.1 h2,
    (Vector_opDiv_spec epsilonF64 epsilonF64 ⟨1, 2⟩ ⟨1, 2, 3⟩ ⟨1, 2, 3, 4⟩).2.2.2 h0⟩⟩

/-- C5, amended: in exact arithmetic, for the machine epsilon `eps > 0` and every vector
`v` of Vector2, Vector3 or Vector4: for every scalar `s` with `|s| > eps`, `(v * s) / s`
is `v` itself and `(v * s) / s == v`; for every scalar `s` with `|s| <= eps`, zero or
not, the guard of `operator/` makes `(v * s) / s` the zero vector, and then, when
`5 * eps <= 1`, `(v * s) / s == v` holds exactly when `v` is the zero vector. -/
theorem Vector_opMul_opDiv_roundtrip (eps s : T) (heps : 0 < eps)
    (v2 : Vector2 T) (v3 : Vector3 T) (v4 : Vector4 T) :
    (eps < |s| →
      ((v2.opMul s).opDiv eps s = v2 ∧
        Vector2.opEq eps ((v2.opMul s).opDiv eps s) v2 = true) ∧
      ((v3.opMul s).opDiv eps s = v3 ∧
        Vector3.opEq eps ((v3.opMul s).opDiv eps s) v3 = true) ∧
      ((v4.opMul s).opDiv eps s = v4 ∧
        Vector4.opEq eps ((v4.opMul s).opDiv eps s) v4 = true)) ∧
    (|s| ≤ eps →
      ((v2.opMul s).opDiv eps s = ⟨0, 0⟩ ∧
        (5 * eps ≤ 1 →
          (Vector2.opEq eps ((v2.opMul s).opDiv eps s) v2 = true ↔ v2 = ⟨0, 0⟩))) ∧
      ((v3.opMul s).opDiv eps s = ⟨0, 0, 0⟩ ∧
        (5 * eps ≤ 1 →
          (Vector3.opEq eps ((v3.opMul s).opDiv eps s) v3 = true ↔ v3 = ⟨0, 0, 0⟩))) ∧
      ((v4.opMul s).opDiv eps s = ⟨0, 0, 0, 0⟩ ∧
        (5 * eps ≤ 1 →
          (Vector4.opEq eps ((v4.opMul s).opDiv eps s) v4 = true ↔
            v4 = ⟨0, 0, 0, 0⟩)))) := by
  refine ⟨fun hs => ?_, fun hs => ?_⟩
  · rw [Vector2_opMul_opDiv_cancel heps hs, Vector3_opMul_opDiv_cancel heps hs,
      Vector4_opMul_opDiv_cancel heps hs]
    exact ⟨⟨rfl, Vector2_opEq_self heps v2⟩, ⟨rfl, Vector3_opEq_self heps v3⟩,
      ⟨rfl, Vector4_opEq_self heps v4⟩⟩
  · rw [Vector2_opDiv_of_not_guard hs, Vector3_opDiv_of_not_guard hs,
      Vector4_opDiv_of_not_guard hs]
    refine ⟨⟨rfl, fun hm => ?_⟩, ⟨rfl, fun hm => ?_⟩, ⟨rfl, fun hm => ?_⟩⟩
    · rw [Vector2_opEq_comm, Vector2_opEq_zero_iff hm]
    · rw [Vector3_opEq_comm, Vector3_opEq_zero_iff hm]
    · rw [Vector4_opEq_comm, Vector4_opEq_zero_iff hm]

/-- Witness of the amended C5 at the `double` epsilon: `s = 3` passes the guard and the
round trip returns `v`; `s = 2^-53` does not, and the round trip returns the zero
vector, which is not `== v` for the non-zero `v` used. -/
theorem Vector_opMul_opDiv_roundtrip_witness :
    (0 < epsilonF64 ∧ epsilonF64 < |(3 : ℚ)| ∧ |(1 : ℚ) / 2 ^ 53| ≤ epsilonF64 ∧
      5 * epsilonF64 ≤ 1) ∧
    (Vector2.opDiv epsilonF64 (Vector2.opMul ⟨1, 2⟩ 3) 3 = ⟨1, 2⟩ ∧
      Vector2.opEq epsilonF64 (Vector2.opDiv epsilonF64 (Vector2.opMul ⟨1, 2⟩ 3) 3) ⟨1, 2⟩
        = true) ∧
    (Vector3.opDiv epsilonF64 (Vector3.opMul ⟨1, 2, 3⟩ 3) 3 = ⟨1, 2, 3⟩ ∧
      Vector3.opEq epsilonF64 (Vector3.opDiv epsilonF64 (Vector3.opMul ⟨1, 2, 3⟩ 3) 3)
        ⟨1, 2, 3⟩ = true) ∧
    (Vector4.opDiv epsilonF64 (Vector4.opMul ⟨1, 2, 3, 4⟩ 3) 3 = ⟨1, 2, 3, 4⟩ ∧
      Vector4.opEq epsilonF64 (Vector4.opDiv epsilonF64 (Vector4.opMul ⟨1, 2, 3, 4⟩ 3) 3)
        ⟨1, 2, 3, 4⟩ = true) ∧
    (Vector2.opDiv epsilonF64 (Vector2.opMul ⟨1, 2⟩ (1 / 2 ^ 53)) (1 / 2 ^ 53) = ⟨0, 0⟩ ∧
      ¬ (Vector2.opEq epsilonF64
        (Vector2.opDiv epsilonF64 (Vector2.opMul ⟨1, 2⟩ (1 / 2 ^ 53)) (1 / 2 ^ 53)) ⟨1, 2⟩
        = true)) :=
  have h0 : 0 < epsilonF64 := by norm_num [epsilonF64]
  have h3 : epsilonF64 < |(3 : ℚ)| := by norm_num [epsilonF64]
  have hs : |(1 : ℚ) / 2 ^ 53| ≤ epsilonF64 := by
    rw [abs_of_pos (by norm_num)]
    norm_num [epsilonF64]
  have hm : 5 * epsilonF64 ≤ 1 := by norm_num [epsilonF64]
  have hv : (⟨1, 2⟩ : Vector2 ℚ) ≠ ⟨0, 0⟩ := by decide
  have big := (Vector_opMul_opDiv_roundtrip epsilonF64 3 h0
    ⟨1, 2⟩ ⟨1, 2, 3⟩ ⟨1, 2, 3, 4⟩).1 h3
  have small := (Vector_opMul_opDiv_roundtrip epsilonF64 (1 / 2 ^ 53) h0
    ⟨1, 2⟩ ⟨1, 2, 3⟩ ⟨1, 2, 3, 4⟩).2 hs
  ⟨⟨h0, h3, hs, hm⟩, big.1, big.2.1, big.2.2,
    small.1.1, fun h => hv ((small.1.2 hm).mp h)⟩

/-- C6 (code defect): `Vector4<T>::AngleTo` executes the division
`dotProduct / lengthProduct` with no guard in front of it.  When `self` is the zero
vector (and `sqrt 0 = 0`) the divisor `Length() * v.Length()` is zero for every `v`, so
the division is executed with a zero divisor. -/
theorem Vector4_AngleTo_zero_divisor (sqrt acos : T → T) (h0 : sqrt 0 = 0)
    (v : Vector4 T) :
    (Vector4.AngleToLogged sqrt acos ⟨0, 0, 0, 0⟩ v).value =
      Vector4.AngleTo sqrt acos ⟨0, 0, 0, 0⟩ v ∧
    (Vector4.AngleToLogged sqrt acos ⟨0, 0, 0, 0⟩ v).divisors = [0] := by
  refine ⟨rfl, ?_⟩
  simp [Vector4.AngleToLogged, Vector4.Length, h0]

/-- Witness of the C6 defect: the angle from the zero vector to `(1, 0, 0, 0)`. -/
theorem Vector4_AngleTo_zero_divisor_witness :
    Rat.sqrt 0 = 0 ∧
    (Vector4.AngleToLogged Rat.sqrt (fun t => t) ⟨0, 0, 0, 0⟩ ⟨1, 0, 0, 0⟩).value =
      Vector4.AngleTo Rat.sqrt (fun t => t) ⟨0, 0, 0, 0⟩ ⟨1, 0, 0, 0⟩ ∧
    (Vector4.AngleToLogged Rat.sqrt (fun t => t) ⟨0, 0, 0, 0⟩ ⟨1, 0, 0, 0⟩).divisors = [0] :=
  ⟨by norm_num [Rat.sqrt],
   Vector4_AngleTo_zero_divisor Rat.sqrt (fun t => t) (by norm_num [Rat.sqrt]) ⟨1, 0, 0, 0⟩⟩

/-- C7, amended: in exact arithmetic, for every vector `v` of any of the three types,
with machine epsilon `eps > 0` and a square root that is exact at `1` and at
`LengthSquared(v)`: if `Length(v) > eps` then `Normalized(v)` is `v / Length(v)`, the
component-wise quotient, and its length is `1`; otherwise `Normalized(v)` is the zero
vector. -/
theorem Vector_Normalized_spec (sqrt : T → T) (eps : T) (heps : 0 < eps) (h1 : sqrt 1 = 1)
    (v2 : Vector2 T) (v3 : Vector3 T) (v4 : Vector4 T)
    (h2 : v2.Length sqrt * v2.Length sqrt = v2.LengthSquared)
    (h3 : v3.Length sqrt * v3.Length sqrt = v3.LengthSquared)
    (h4 : v4.Length sqrt * v4.Length sqrt = v4.LengthSquared) :
    ((eps < v2.Length sqrt →
        v2.Normalized sqrt eps = v2.opDiv eps (v2.Length sqrt) ∧
        v2.Normalized sqrt eps = ⟨v2.x / v2.Length sqrt, v2.y / v2.Length sqrt⟩ ∧
        (v2.Normalized sqrt eps).Length sqrt = 1) ∧
      (v2.Length sqrt ≤ eps → v2.Normalized sqrt eps = ⟨0, 0⟩)) ∧
    ((eps < v3.Length sqrt →
        v3.Normalized sqrt eps = v3.opDiv eps (v3.Length sqrt) ∧
        v3.Normalized sqrt eps = ⟨v3.x / v3.Length sqrt, v3.y / v3.Length sqrt, v3.z / v3.Length sqrt⟩ ∧
        (v3.Normalized sqrt eps).Length sqrt = 1) ∧
      (v3.Length sqrt ≤ eps → v3.Normalized sqrt eps = ⟨0, 0, 0⟩)) ∧
    ((eps < v4.Length sqrt →
        v4.Normalized sqrt eps = v4.opDiv eps (v4.Length sqrt) ∧
        v4.Normalized sqrt eps = ⟨v4.x / v4.Length sqrt, v4.y / v4.Length sqrt, v4.z / v4.Length sqrt, v4.w / v4.Length sqrt⟩ ∧
        (v4.Normalized sqrt eps).Length sqrt = 1) ∧
      (v4.Length sqrt ≤ eps → v4.Normalized sqrt eps = ⟨0, 0, 0, 0⟩)) := by
  refine ⟨?_, ?_, ?_⟩
  · refine ⟨fun h => ?_, fun h => Vector2_Normalized_of_le v2 h⟩
    obtain ⟨e1, e2⟩ := Vector2_Normalized_of_gt v2 h
    refine ⟨e1, e2, ?_⟩
    rw [e2]
    exact Vector2_Length_quotient h1 v2 (ne_of_gt (lt_trans heps h)) h2
  · refine ⟨fun h => ?_, fun h => Vector3_Normalized_of_le v3 h⟩
    obtain ⟨e1, e2⟩ := Vector3_Normalized_of_gt v3 h
    refine ⟨e1, e2, ?_⟩
    rw [e2]
    exact Vector3_Length_quotient h1 v3 (ne_of_gt (lt_trans heps h)) h3
  · refine ⟨fun h => ?_, fun h => Vector4_Normalized_of_le v4 h⟩
    obtain ⟨e1, e2⟩ := Vector4_Normalized_of_gt v4 h
    refine ⟨e1, e2, ?_⟩
    rw [e2]
    exact Vector4_Length_quotient h1 v4 (ne_of_gt (lt_trans heps h)) h4

/-- Witness of C7 with `Rat.sqrt` at the `double` epsilon: `(3, 4)`, `(2, 3, 6)` and
`(2, 4, 5, 6)` have lengths `5`, `7` and `9`; the zero vectors take the fallback. -/
theorem Vector_Normalized_spec_witness :
    (0 < epsilonF64 ∧ Rat.sqrt 1 = 1) ∧
    (Vector2.Normalized Rat.sqrt epsilonF64 ⟨3, 4⟩ = ⟨3 / 5, 4 / 5⟩ ∧
      (Vector2.Normalized Rat.sqrt epsilonF64 ⟨3, 4⟩).Length Rat.sqrt = 1 ∧
      Vector2.Normalized Rat.sqrt epsilonF64 ⟨0, 0⟩ = ⟨0, 0⟩) ∧
    (Vector3.Normalized Rat.sqrt epsilonF64 ⟨2, 3, 6⟩ = ⟨2 / 7, 3 / 7, 6 / 7⟩ ∧
      (Vector3.Normalized Rat.sqrt epsilonF64 ⟨2, 3, 6⟩).Length Rat.sqrt = 1 ∧
      Vector3.Normalized Rat.sqrt epsilonF64 ⟨0, 0, 0⟩ = ⟨0, 0, 0⟩) ∧
    (Vector4.Normalized Rat.sqrt epsilonF64 ⟨2, 4, 5, 6⟩ = ⟨2 / 9, 4 / 9, 5 / 9, 6 / 9⟩ ∧
      (Vector4.Normalized Rat.sqrt epsilonF64 ⟨2, 4, 5, 6⟩).Length Rat.sqrt = 1 ∧
      Vector4.Normalized Rat.sqrt epsilonF64 ⟨0, 0, 0, 0⟩ = ⟨0, 0, 0, 0⟩) := by
  have he : (0 : ℚ) < epsilonF64 := by norm_num [epsilonF64]
  have h1 : Rat.sqrt 1 = 1 := by norm_num [Rat.sqrt]
  have h0 : Rat.sqrt 0 = 0 := by norm_num [Rat.sqrt]
  have l2 : Vector2.Length Rat.sqrt ⟨3, 4⟩ = 5 := by norm_num [Vector2.Length, Rat.sqrt]
  have l3 : Vector3.Length Rat.sqrt ⟨2, 3, 6⟩ = 7 := by norm_num [Vector3.Length, Rat.sqrt]
  have l4 : Vector4.Length Rat.sqrt ⟨2, 4, 5, 6⟩ = 9 := by
    norm_num [Vector4.Length, Rat.sqrt]
  have z2 : Vector2.Length Rat.sqrt ⟨0, 0⟩ = 0 := by simp [Vector2.Length, h0]
  have z3 : Vector3.Length Rat.sqrt ⟨0, 0, 0⟩ = 0 := by simp [Vector3.Length, h0]
  have z4 : Vector4.Length Rat.sqrt ⟨0, 0, 0, 0⟩ = 0 := by simp [Vector4.Length, h0]
  have P := Vector_Normalized_spec Rat.sqrt epsilonF64 he h1 ⟨3, 4⟩ ⟨2, 3, 6⟩ ⟨2, 4, 5, 6⟩
    (by rw [l2]; norm_num [Vector2.LengthSquared])
    (by rw [l3]; norm_num [Vector3.LengthSquared])
    (by rw [l4]; norm_num [Vector4.LengthSquared])
  have Z := Vector_Normalized_spec Rat.sqrt epsilonF64 he h1 ⟨0, 0⟩ ⟨0, 0, 0⟩ ⟨0, 0, 0, 0⟩
    (by rw [z2]; norm_num [Vector2.LengthSquared])
    (by rw [z3]; norm_num [Vector3.LengthSquared])
    (by rw [z4]; norm_num [Vector4.LengthSquared])
  have g2 := P.1.1 (by rw [l2]; norm_num [epsilonF64])
  have g3 := P.2.1.1 (by rw [l3]; norm_num [epsilonF64])
  have g4 := P.2.2.1 (by rw [l4]; norm_num [epsilonF64])
  rw [l2] at g2
  rw [l3] at g3
  rw [l4] at g4
  exact ⟨⟨he, h1⟩,
    ⟨g2.2.1, g2.2.2, Z.1.2 (by rw [z2]; exact he.le)⟩,
    ⟨g3.2.1, g3.2.2, Z.2.1.2 (by rw [z3]; exact he.le)⟩,
    ⟨g4.2.1, g4.2.2, Z.2.2.2 (by rw [z4]; exact he.le)⟩⟩

/-- C8 (code defect): `Vector3<T>::Projected` at a target with `LengthSquared(v)` equal
to the machine epsilon.  With the `double` epsilon, `self = (1, 0, 0)` and
`v = (2^-26, 0, 0)`: `LengthSquared(v) = 2^-52` is not below epsilon, the claimed value
`v * (Dot(self, v) / LengthSquared(v))` is `(1, 0, 0)`, but the code routes
`v * Dot(v) / lengthSquared` through the guarded vector `operator/` and returns the zero
vector.  Vector2 and Vector4 return the claimed value at the same input. -/
theorem Vector3_Projected_boundary_defect :
    Vector3.LengthSquared (⟨1 / 2 ^ 26, 0, 0⟩ : Vector3 ℚ) = epsilonF64 ∧
    Vector3.opMul (⟨1 / 2 ^ 26, 0, 0⟩ : Vector3 ℚ)
        (Vector3.Dot ⟨1, 0, 0⟩ ⟨1 / 2 ^ 26, 0, 0⟩ / Vector3.LengthSquared ⟨1 / 2 ^ 26, 0, 0⟩)
      = ⟨1, 0, 0⟩ ∧
    Vector3.Projected epsilonF64 ⟨1, 0, 0⟩ ⟨1 / 2 ^ 26, 0, 0⟩ = ⟨0, 0, 0⟩ ∧
    Vector2.Projected epsilonF64 ⟨1, 0⟩ ⟨1 / 2 ^ 26, 0⟩ = ⟨1, 0⟩ ∧
    Vector4.Projected epsilonF64 ⟨1, 0, 0, 0⟩ ⟨1 / 2 ^ 26, 0, 0, 0⟩ = ⟨1, 0, 0, 0⟩ := by
  have h3 : Vector3.LengthSquared (⟨1 / 2 ^ 26, 0, 0⟩ : Vector3 ℚ) = epsilonF64 := by
    norm_num [Vector3.LengthSquared, epsilonF64]
  have h2 : epsilonF64 ≤ Vector2.LengthSquared (⟨1 / 2 ^ 26, 0⟩ : Vector2 ℚ) := by
    norm_num [Vector2.LengthSquared, epsilonF64]
  have h4 : epsilonF64 ≤ Vector4.LengthSquared (⟨1 / 2 ^ 26, 0, 0, 0⟩ : Vector4 ℚ) := by
    norm_num [Vector4.LengthSquared, epsilonF64]
  refine ⟨h3, ?_, Vector3_Projected_boundary epsilonF64_pos.le _ _ h3, ?_, ?_⟩
  · norm_num [Vector3.opMul, Vector3.Dot, Vector3.LengthSquared]
  · rw [Vector2_Projected_of_ge _ _ h2]
    norm_num [Vector2.opMul, Vector2.Dot, Vector2.LengthSquared]
  · rw [Vector4_Projected_of_ge _ _ h4]
    norm_num [Vector4.opMul, Vector4.Dot, Vector4.LengthSquared]

/-- C9: degenerate projection target.  For the machine epsilon `eps > 0` and every
`self` of any of the three types, `self.Projected(zero vector)` is the zero vector and
no scalar division is executed on that path. -/
theorem Vector_Projected_zero_target (eps : T) (heps : 0 < eps) (s2 : Vector2 T)
    (s3 : Vector3 T) (s4 : Vector4 T) :
    (Vector2.Projected eps s2 ⟨0, 0⟩ = ⟨0, 0⟩ ∧
      (Vector2.ProjectedLogged eps s2 ⟨0, 0⟩).value = Vector2.Projected eps s2 ⟨0, 0⟩ ∧
      (Vector2.ProjectedLogged eps s2 ⟨0, 0⟩).divisors = []) ∧
    (Vector3.Projected eps s3 ⟨0, 0, 0⟩ = ⟨0, 0, 0⟩ ∧
      (Vector3.ProjectedLogged eps s3 ⟨0, 0, 0⟩).value = Vector3.Projected eps s3 ⟨0, 0, 0⟩ ∧
      (Vector3.ProjectedLogged eps s3 ⟨0, 0, 0⟩).divisors = []) ∧
    (Vector4.Projected eps s4 ⟨0, 0, 0, 0⟩ = ⟨0, 0, 0, 0⟩ ∧
      (Vector4.ProjectedLogged eps s4 ⟨0, 0, 0, 0⟩).value =
        Vector4.Projected eps s4 ⟨0, 0, 0, 0⟩ ∧
      (Vector4.ProjectedLogged eps s4 ⟨0, 0, 0, 0⟩).divisors = []) := by
  refine ⟨⟨?_, Vector2_ProjectedLogged_value _ _ _, ?_⟩,
    ⟨?_, Vector3_ProjectedLogged_value _ _ _, ?_⟩,
    ⟨?_, Vector4_ProjectedLogged_value _ _ _, ?_⟩⟩
  · exact Vector2_Projected_degenerate _ _ (by simpa [Vector2.LengthSquared] using heps)
  · simp [Vector2.ProjectedLogged, Vector2.LengthSquared, heps]
  · exact Vector3_Projected_degenerate _ _ (by simpa [Vector3.LengthSquared] using heps)
  · simp [Vector3.ProjectedLogged, Vector3.LengthSquared, heps]
  · exact Vector4_Projected_degenerate _ _ (by simpa [Vector4.LengthSquared] using heps)
  · simp [Vector4.ProjectedLogged, Vector4.LengthSquared, heps]

/-- Witness of C9: `Vector3(3,2,1).Projected(Vector3(0,0,0)) = Vector3(0,0,0)` at the
`double` epsilon, with an empty division log, and the same for the other two types. -/
theorem Vector_Projected_zero_target_witness :
    0 < epsilonF64 ∧
    (Vector2.Projected epsilonF64 ⟨3, 2⟩ ⟨0, 0⟩ = ⟨0, 0⟩ ∧
      (Vector2.ProjectedLogged epsilonF64 ⟨3, 2⟩ ⟨0, 0⟩).value =
        Vector2.Projected epsilonF64 ⟨3, 2⟩ ⟨0, 0⟩ ∧
      (Vector2.ProjectedLogged epsilonF64 ⟨3, 2⟩ ⟨0, 0⟩).divisors = []) ∧
    (Vector3.Projected epsilonF64 ⟨3, 2, 1⟩ ⟨0, 0, 0⟩ = ⟨0, 0, 0⟩ ∧
      (Vector3.ProjectedLogged epsilonF64 ⟨3, 2, 1⟩ ⟨0, 0, 0⟩).value =
        Vector3.Projected epsilonF64 ⟨3, 2, 1⟩ ⟨0, 0, 0⟩ ∧
      (Vector3.ProjectedLogged epsilonF64 ⟨3, 2, 1⟩ ⟨0, 0, 0⟩).divisors = []) ∧
    (Vector4.Projected epsilonF64 ⟨3, 2, 1, 0⟩ ⟨0, 0, 0, 0⟩ = ⟨0, 0, 0, 0⟩ ∧
      (Vector4.ProjectedLogged epsilonF64 ⟨3, 2, 1, 0⟩ ⟨0, 0, 0, 0⟩).value =
        Vector4.Projected epsilonF64 ⟨3, 2, 1, 0⟩ ⟨0, 0, 0, 0⟩ ∧
      (Vector4.ProjectedLogged epsilonF64 ⟨3, 2, 1, 0⟩ ⟨0, 0, 0, 0⟩).divisors = []) :=
  ⟨epsilonF64_pos,
   Vector_Projected_zero_target epsilonF64 epsilonF64_pos ⟨3, 2⟩ ⟨3, 2, 1⟩ ⟨3, 2, 1, 0⟩⟩

/-- C10 (code defect): `Project` against `Projected` at a target with
`LengthSquared(v)` equal to the machine epsilon.  With the `double` epsilon and
`v = (2^-26, 0, ...)`, `Vector2::Projected` and `Vector4::Projected` return
`(1, 0, ...)`, while `Project` sends `v * Dot(v) / lengthSquared` through the guarded
vector `operator/` and leaves the zero vector in `self`. -/
theorem Vector_Project_boundary_defect :
    Vector2.LengthSquared (⟨1 / 2 ^ 26, 0⟩ : Vector2 ℚ) = epsilonF64 ∧
    Vector2.Projected epsilonF64 ⟨1, 0⟩ ⟨1 / 2 ^ 26, 0⟩ = ⟨1, 0⟩ ∧
    Vector2.Project epsilonF64 ⟨1, 0⟩ ⟨1 / 2 ^ 26, 0⟩ = ⟨0, 0⟩ ∧
    Vector4.LengthSquared (⟨1 / 2 ^ 26, 0, 0, 0⟩ : Vector4 ℚ) = epsilonF64 ∧
    Vector4.Projected epsilonF64 ⟨1, 0, 0, 0⟩ ⟨1 / 2 ^ 26, 0, 0, 0⟩ = ⟨1, 0, 0, 0⟩ ∧
    Vector4.Project epsilonF64 ⟨1, 0, 0, 0⟩ ⟨1 / 2 ^ 26, 0, 0, 0⟩ = ⟨0, 0, 0, 0⟩ := by
  have h2 : Vector2.LengthSquared (⟨1 / 2 ^ 26, 0⟩ : Vector2 ℚ) = epsilonF64 := by
    norm_num [Vector2.LengthSquared, epsilonF64]
  have h4 : Vector4.LengthSquared (⟨1 / 2 ^ 26, 0, 0, 0⟩ : Vector4 ℚ) = epsilonF64 := by
    norm_num [Vector4.LengthSquared, epsilonF64]
  refine ⟨h2, ?_, Vector2_Project_boundary epsilonF64_pos.le _ _ h2,
    h4, ?_, Vector4_Project_boundary epsilonF64_pos.le _ _ h4⟩
  · rw [Vector2_Projected_of_ge _ _ h2.ge]
    norm_num [Vector2.opMul, Vector2.Dot, Vector2.LengthSquared]
  · rw [Vector4_Projected_of_ge _ _ h4.ge]
    norm_num [Vector4.opMul, Vector4.Dot, Vector4.LengthSquared]

/-- C11, amended: in exact arithmetic, `Reflected` normalizes the normal first.  For the
machine epsilon `eps`, every `self` and every normal with `Length(normal) > eps` (any of
the three types, the square root exact at `LengthSquared(normal)`),
`self.Reflected(normal) = self - 2 * (Dot(self, normal) / LengthSquared(normal)) * normal`
component-wise; and the result is the same for every nonzero multiple `normal * k` that
is itself longer than `eps` (the square root exact at its squared length too): it does
not depend on the magnitude of the normal. -/
theorem Vector_Reflected_formula (sqrt : T → T) (eps : T)
    (s2 n2 : Vector2 T) (s3 n3 : Vector3 T) (s4 n4 : Vector4 T)
    (g2 : eps < n2.Length sqrt)
    (h2 : n2.Length sqrt * n2.Length sqrt = n2.LengthSquared)
    (g3 : eps < n3.Length sqrt)
    (h3 : n3.Length sqrt * n3.Length sqrt = n3.LengthSquared)
    (g4 : eps < n4.Length sqrt)
    (h4 : n4.Length sqrt * n4.Length sqrt = n4.LengthSquared) :
    (s2.Reflected sqrt eps n2 =
        ⟨s2.x - 2 * (s2.Dot n2 / n2.LengthSquared) * n2.x, s2.y - 2 * (s2.Dot n2 / n2.LengthSquared) * n2.y⟩ ∧
      ∀ k : T, k ≠ 0 → eps < (n2.opMul k).Length sqrt →
        (n2.opMul k).Length sqrt * (n2.opMul k).Length sqrt = (n2.opMul k).LengthSquared →
        s2.Reflected sqrt eps (n2.opMul k) = s2.Reflected sqrt eps n2) ∧
    (s3.Reflected sqrt eps n3 =
        ⟨s3.x - 2 * (s3.Dot n3 / n3.LengthSquared) * n3.x, s3.y - 2 * (s3.Dot n3 / n3.LengthSquared) * n3.y, s3.z - 2 * (s3.Dot n3 / n3.LengthSquared) * n3.z⟩ ∧
      ∀ k : T, k ≠ 0 → eps < (n3.opMul k).Length sqrt →
        (n3.opMul k).Length sqrt * (n3.opMul k).Length sqrt = (n3.opMul k).LengthSquared →
        s3.Reflected sqrt eps (n3.opMul k) = s3.Reflected sqrt eps n3) ∧
    (s4.Reflected sqrt eps n4 =
        ⟨s4.x - 2 * (s4.Dot n4 / n4.LengthSquared) * n4.x, s4.y - 2 * (s4.Dot n4 / n4.LengthSquared) * n4.y, s4.z - 2 * (s4.Dot n4 / n4.LengthSquared) * n4.z, s4.w - 2 * (s4.Dot n4 / n4.LengthSquared) * n4.w⟩ ∧
      ∀ k : T, k ≠ 0 → eps < (n4.opMul k).Length sqrt →
        (n4.opMul k).Length sqrt * (n4.opMul k).Length sqrt = (n4.opMul k).LengthSquared →
        s4.Reflected sqrt eps (n4.opMul k) = s4.Reflected sqrt eps n4) :=
  ⟨⟨Vector2_Reflected_of_gt s2 n2 g2 h2,
    fun k hk g hq => Vector2_Reflected_scale s2 n2 k hk g2 h2 g hq⟩,
   ⟨Vector3_Reflected_of_gt s3 n3 g3 h3,
    fun k hk g hq => Vector3_Reflected_scale s3 n3 k hk g3 h3 g hq⟩,
   ⟨Vector4_Reflected_of_gt s4 n4 g4 h4,
    fun k hk g hq => Vector4_Reflected_scale s4 n4 k hk g4 h4 g hq⟩⟩

/-- Witness of C11 over the reals with the real square root at the `double` epsilon:
`Vector2(1,3).Reflected(Vector2(-1,2)) = Vector2(3,-1)`,
`Vector3(1,-1,-1).Reflected(Vector3(0,1,0)) = Vector3(1,1,-1)` and
`Vector4(1,2,3,4).Reflected(Vector4(0,0,0,2)) = Vector4(1,2,3,-4)`. -/
theorem Vector_Reflected_formula_witness :
    Vector2.Reflected Real.sqrt ((epsilonF64 : ℚ) : ℝ) ⟨1, 3⟩ ⟨-1, 2⟩ = ⟨3, -1⟩ ∧
    Vector3.Reflected Real.sqrt ((epsilonF64 : ℚ) : ℝ) ⟨1, -1, -1⟩ ⟨0, 1, 0⟩ = ⟨1, 1, -1⟩ ∧
    Vector4.Reflected Real.sqrt ((epsilonF64 : ℚ) : ℝ) ⟨1, 2, 3, 4⟩ ⟨0, 0, 0, 2⟩
      = ⟨1, 2, 3, -4⟩ := by
  have he := epsilonF64_real_pos
  have g2 : ((epsilonF64 : ℚ) : ℝ) < Vector2.Length Real.sqrt ⟨-1, 2⟩ :=
    (Real.lt_sqrt he.le).mpr (by norm_num [epsilonF64])
  have g3 : ((epsilonF64 : ℚ) : ℝ) < Vector3.Length Real.sqrt ⟨0, 1, 0⟩ :=
    (Real.lt_sqrt he.le).mpr (by norm_num [epsilonF64])
  have g4 : ((epsilonF64 : ℚ) : ℝ) < Vector4.Length Real.sqrt ⟨0, 0, 0, 2⟩ :=
    (Real.lt_sqrt he.le).mpr (by norm_num [epsilonF64])
  have P := Vector_Reflected_formula Real.sqrt ((epsilonF64 : ℚ) : ℝ)
    ⟨1, 3⟩ ⟨-1, 2⟩ ⟨1, -1, -1⟩ ⟨0, 1, 0⟩ ⟨1, 2, 3, 4⟩ ⟨0, 0, 0, 2⟩
    g2 (Vector2_real_sqrt_exact _) g3 (Vector3_real_sqrt_exact _)
    g4 (Vector4_real_sqrt_exact _)
  refine ⟨P.1.1.trans ?_, P.2.1.1.trans ?_, P.2.2.1.trans ?_⟩
  · norm_num [Vector2.Dot, Vector2.LengthSquared]
  · norm_num [Vector3.Dot, Vector3.LengthSquared]
  · norm_num [Vector4.Dot, Vector4.LengthSquared]

/-- C12, amended: in exact arithmetic, reflection is involutive for a unit normal.  For
the machine epsilon `eps > 0`, every vector `v` and every normal `n` with `Length(n) = 1`
(any of the three types, the square root exact at `LengthSquared(n)`),
`v.Reflected(n).Reflected(n)` is `v` itself, hence `v.Reflected(n).Reflected(n) == v`. -/
theorem Vector_Reflected_involutive (sqrt : T → T) (eps : T) (heps : 0 < eps)
    (v2 n2 : Vector2 T) (v3 n3 : Vector3 T) (v4 n4 : Vector4 T)
    (l2 : n2.Length sqrt = 1)
    (h2 : n2.Length sqrt * n2.Length sqrt = n2.LengthSquared)
    (l3 : n3.Length sqrt = 1)
    (h3 : n3.Length sqrt * n3.Length sqrt = n3.LengthSquared)
    (l4 : n4.Length sqrt = 1)
    (h4 : n4.Length sqrt * n4.Length sqrt = n4.LengthSquared) :
    ((v2.Reflected sqrt eps n2).Reflected sqrt eps n2 = v2 ∧
      Vector2.opEq eps ((v2.Reflected sqrt eps n2).Reflected sqrt eps n2) v2 = true) ∧
    ((v3.Reflected sqrt eps n3).Reflected sqrt eps n3 = v3 ∧
      Vector3.opEq eps ((v3.Reflected sqrt eps n3).Reflected sqrt eps n3) v3 = true) ∧
    ((v4.Reflected sqrt eps n4).Reflected sqrt eps n4 = v4 ∧
      Vector4.opEq eps ((v4.Reflected sqrt eps n4).Reflected sqrt eps n4) v4 = true) := by
  have e2 : (v2.Reflected sqrt eps n2).Reflected sqrt eps n2 = v2 :=
    Vector2_Reflected_twice v2 n2 l2 h2
  have e3 : (v3.Reflected sqrt eps n3).Reflected sqrt eps n3 = v3 :=
    Vector3_Reflected_twice v3 n3 l3 h3
  have e4 : (v4.Reflected sqrt eps n4).Reflected sqrt eps n4 = v4 :=
    Vector4_Reflected_twice v4 n4 l4 h4
  exact ⟨⟨e2, by rw [e2]; exact Vector2_opEq_self heps v2⟩,
    ⟨e3, by rw [e3]; exact Vector3_opEq_self heps v3⟩,
    ⟨e4, by rw [e4]; exact Vector4_opEq_self heps v4⟩⟩

/-- Witness of C12 with `Rat.sqrt` at the `double` epsilon: the unit normals
`(3/5, 4/5)`, `(0, 1, 0)` and `(0, 0, 0, 1)`. -/
theorem Vector_Reflected_involutive_witness :
    (0 < epsilonF64 ∧ Vector2.Length Rat.sqrt ⟨3 / 5, 4 / 5⟩ = 1 ∧
      Vector3.Length Rat.sqrt ⟨0, 1, 0⟩ = 1 ∧ Vector4.Length Rat.sqrt ⟨0, 0, 0, 1⟩ = 1) ∧
    ((Vector2.Reflected Rat.sqrt epsilonF64
        (Vector2.Reflected Rat.sqrt epsilonF64 ⟨1, 3⟩ ⟨3 / 5, 4 / 5⟩) ⟨3 / 5, 4 / 5⟩ = ⟨1, 3⟩ ∧
      Vector2.opEq epsilonF64 (Vector2.Reflected Rat.sqrt epsilonF64
        (Vector2.Reflected Rat.sqrt epsilonF64 ⟨1, 3⟩ ⟨3 / 5, 4 / 5⟩) ⟨3 / 5, 4 / 5⟩) ⟨1, 3⟩
        = true) ∧
    (Vector3.Reflected Rat.sqrt epsilonF64
        (Vector3.Reflected Rat.sqrt epsilonF64 ⟨1, -1, -1⟩ ⟨0, 1, 0⟩) ⟨0, 1, 0⟩ = ⟨1, -1, -1⟩ ∧
      Vector3.opEq epsilonF64 (Vector3.Reflected Rat.sqrt epsilonF64
        (Vector3.Reflected Rat.sqrt epsilonF64 ⟨1, -1, -1⟩ ⟨0, 1, 0⟩) ⟨0, 1, 0⟩) ⟨1, -1, -1⟩
        = true) ∧
    (Vector4.Reflected Rat.sqrt epsilonF64
        (Vector4.Reflected Rat.sqrt epsilonF64 ⟨1, 2, 3, 4⟩ ⟨0, 0, 0, 1⟩) ⟨0, 0, 0, 1⟩
        = ⟨1, 2, 3, 4⟩ ∧
      Vector4.opEq epsilonF64 (Vector4.Reflected Rat.sqrt epsilonF64
        (Vector4.Reflected Rat.sqrt epsilonF64 ⟨1, 2, 3, 4⟩ ⟨0, 0, 0, 1⟩) ⟨0, 0, 0, 1⟩)
        ⟨1, 2, 3, 4⟩ = true)) := by
  have l2 : Vector2.Length Rat.sqrt ⟨3 / 5, 4 / 5⟩ = 1 := by
    norm_num [Vector2.Length, Rat.sqrt]
  have l3 : Vector3.Length Rat.sqrt ⟨0, 1, 0⟩ = 1 := by norm_num [Vector3.Length, Rat.sqrt]
  have l4 : Vector4.Length Rat.sqrt ⟨0, 0, 0, 1⟩ = 1 := by
    norm_num [Vector4.Length, Rat.sqrt]
  exact ⟨⟨epsilonF64_pos, l2, l3, l4⟩,
    Vector_Reflected_involutive Rat.sqrt epsilonF64 epsilonF64_pos
      ⟨1, 3⟩ ⟨3 / 5, 4 / 5⟩ ⟨1, -1, -1⟩ ⟨0, 1, 0⟩ ⟨1, 2, 3, 4⟩ ⟨0, 0, 0, 1⟩
      l2 (by rw [l2]; norm_num [Vector2.LengthSquared])
      l3 (by rw [l3]; norm_num [Vector3.LengthSquared])
      l4 (by rw [l4]; norm_num [Vector4.LengthSquared])⟩

/-- C13: reflection across a degenerate normal is the identity.  For the machine epsilon
`eps > 0` (and `sqrt 0 = 0`) and every vector `v` of any of the three types,
`v.Reflected(zero vector) = v`, and `v.Reflected(n) = v` for every normal `n` with
`Length(n) <= eps`. -/
theorem Vector_Reflected_degenerate (sqrt : T → T) (eps : T) (heps : 0 < eps)
    (h0 : sqrt 0 = 0) (v2 n2 : Vector2 T) (v3 n3 : Vector3 T) (v4 n4 : Vector4 T) :
    (v2.Reflected sqrt eps ⟨0, 0⟩ = v2 ∧
      (n2.Length sqrt ≤ eps → v2.Reflected sqrt eps n2 = v2)) ∧
    (v3.Reflected sqrt eps ⟨0, 0, 0⟩ = v3 ∧
      (n3.Length sqrt ≤ eps → v3.Reflected sqrt eps n3 = v3)) ∧
    (v4.Reflected sqrt eps ⟨0, 0, 0, 0⟩ = v4 ∧
      (n4.Length sqrt ≤ eps → v4.Reflected sqrt eps n4 = v4)) :=
  ⟨⟨Vector2_Reflected_of_le v2 _ (by simpa [Vector2.Length, h0] using heps.le),
    fun h => Vector2_Reflected_of_le v2 n2 h⟩,
   ⟨Vector3_Reflected_of_le v3 _ (by simpa [Vector3.Length, h0] using heps.le),
    fun h => Vector3_Reflected_of_le v3 n3 h⟩,
   ⟨Vector4_Reflected_of_le v4 _ (by simpa [Vector4.Length, h0] using heps.le),
    fun h => Vector4_Reflected_of_le v4 n4 h⟩⟩

/-- Witness of C13 with `Rat.sqrt` at the `double` epsilon: the zero normal, and a
normal whose length is exactly the epsilon. -/
theorem Vector_Reflected_degenerate_witness :
    (0 < epsilonF64 ∧ Rat.sqrt 0 = 0 ∧
      Vector2.Length Rat.sqrt ⟨1 / 2 ^ 52, 0⟩ ≤ epsilonF64 ∧
      Vector3.Length Rat.sqrt ⟨0, 1 / 2 ^ 52, 0⟩ ≤ epsilonF64 ∧
      Vector4.Length Rat.sqrt ⟨0, 0, 0, 1 / 2 ^ 52⟩ ≤ epsilonF64) ∧
    (Vector2.Reflected Rat.sqrt epsilonF64 ⟨1, 3⟩ ⟨0, 0⟩ = ⟨1, 3⟩ ∧
      Vector2.Reflected Rat.sqrt epsilonF64 ⟨1, 3⟩ ⟨1 / 2 ^ 52, 0⟩ = ⟨1, 3⟩) ∧
    (Vector3.Reflected Rat.sqrt epsilonF64 ⟨1, -1, -1⟩ ⟨0, 0, 0⟩ = ⟨1, -1, -1⟩ ∧
      Vector3.Reflected Rat.sqrt epsilonF64 ⟨1, -1, -1⟩ ⟨0, 1 / 2 ^ 52, 0⟩ = ⟨1, -1, -1⟩) ∧
    (Vector4.Reflected Rat.sqrt epsilonF64 ⟨1, 2, 3, 4⟩ ⟨0, 0, 0, 0⟩ = ⟨1, 2, 3, 4⟩ ∧
      Vector4.Reflected Rat.sqrt epsilonF64 ⟨1, 2, 3, 4⟩ ⟨0, 0, 0, 1 / 2 ^ 52⟩
        = ⟨1, 2, 3, 4⟩) := by
  have h0 : Rat.sqrt 0 = 0 := by norm_num [Rat.sqrt]
  have hs : Rat.sqrt (1 / 2 ^ 52 * (1 / 2 ^ 52)) = 1 / 2 ^ 52 := by
    rw [Rat.sqrt_eq, abs_of_pos (by norm_num)]
  have l2 : Vector2.Length Rat.sqrt ⟨1 / 2 ^ 52, 0⟩ ≤ epsilonF64 := by
    simp only [Vector2.Length, mul_zero, add_zero, hs, epsilonF64, le_refl]
  have l3 : Vector3.Length Rat.sqrt ⟨0, 1 / 2 ^ 52, 0⟩ ≤ epsilonF64 := by
    simp only [Vector3.Length, mul_zero, add_zero, zero_add, hs, epsilonF64, le_refl]
  have l4 : Vector4.Length Rat.sqrt ⟨0, 0, 0, 1 / 2 ^ 52⟩ ≤ epsilonF64 := by
    simp only [Vector4.Length, mul_zero, add_zero, zero_add, hs, epsilonF64, le_refl]
  have P := Vector_Reflected_degenerate Rat.sqrt epsilonF64 epsilonF64_pos h0
    ⟨1, 3⟩ ⟨1 / 2 ^ 52, 0⟩ ⟨1, -1, -1⟩ ⟨0, 1 / 2 ^ 52, 0⟩ ⟨1, 2, 3, 4⟩ ⟨0, 0, 0, 1 / 2 ^ 52⟩
  exact ⟨⟨epsilonF64_pos, h0, l2, l3, l4⟩, ⟨P.1.1, P.1.2 l2⟩, ⟨P.2.1.1, P.2.1.2 l3⟩,
    ⟨P.2.2.1, P.2.2.2 l4⟩⟩

/-- C14, amended: in exact arithmetic, `Dot` is additive in its first argument.  For all
`v1`, `v2`, `v3` of the same type (Vector2, Vector3, Vector4),
`Dot(v1 + v2, v3) = Dot(v1, v3) + Dot(v2, v3)`. -/
theorem Vector_Dot_add_left (a2 b2 c2 : Vector2 T) (a3 b3 c3 : Vector3 T)
    (a4 b4 c4 : Vector4 T) :
    (a2.opAdd b2).Dot c2 = a2.Dot c2 + b2.Dot c2 ∧
    (a3.opAdd b3).Dot c3 = a3.Dot c3 + b3.Dot c3 ∧
    (a4.opAdd b4).Dot c4 = a4.Dot c4 + b4.Dot c4 := by
  refine ⟨?_, ?_, ?_⟩
  · simp only [Vector2.opAdd, Vector2.Dot]; ring
  · simp only [Vector3.opAdd, Vector3.Dot]; ring
  · simp only [Vector4.opAdd, Vector4.Dot]; ring

/-- C16: Vector3 `Cross` is the standard 3D cross product,
`a.Cross(b) = (a.y*b.z - a.z*b.y, a.z*b.x - a.x*b.z, a.x*b.y - a.y*b.x)`, and
`Vector3(1,2,3).Cross(Vector3(4,5,6)) = Vector3(-3,6,-3)`. -/
theorem Vector3_Cross_spec (a b : Vector3 T) :
    a.Cross b = ⟨a.y * b.z - a.z * b.y, a.z * b.x - a.x * b.z, a.x * b.y - a.y * b.x⟩ ∧
    Vector3.Cross (⟨1, 2, 3⟩ : Vector3 ℚ) ⟨4, 5, 6⟩ = ⟨-3, 6, -3⟩ := by
  refine ⟨rfl, ?_⟩
  norm_num [Vector3.Cross]

/-- C17: Vector4 `Cross`.  The `(x, y, z)` part of `a.Cross(b)` is the 3D cross product
of the `(x, y, z)` parts of `a` and `b`, the `w` component is `0`, and the result does
not depend on `a.w` or `b.w`. -/
theorem Vector4_Cross_spec (a b : Vector4 T) :
    (⟨(a.Cross b).x, (a.Cross b).y, (a.Cross b).z⟩ : Vector3 T) =
      Vector3.Cross ⟨a.x, a.y, a.z⟩ ⟨b.x, b.y, b.z⟩ ∧
    (a.Cross b).w = 0 ∧
    ∀ w1 w2 : T, Vector4.Cross ⟨a.x, a.y, a.z, w1⟩ ⟨b.x, b.y, b.z, w2⟩ = a.Cross b :=
  ⟨rfl, rfl, fun _ _ => rfl⟩

/-- C18, amended: for every Vector2 `v`, `v.Perpendicular(false) = (v.y, -v.x)` and
`v.Perpendicular(true) = (-v.y, v.x)`.  In exact arithmetic, in both directions the `Dot`
of the result with `v` (in either order) is exactly `0`.  For `T = double` and `v` with
finite components, in both directions the `Dot` of the result with `v` is exactly `0`
when the product `v.x * v.y` does not overflow, and NaN when it does. -/
theorem Vector2_Perpendicular_spec (v : Vector2 T) :
    (v.Perpendicular false = ⟨v.y, -v.x⟩ ∧
      v.Perpendicular true = ⟨-v.y, v.x⟩ ∧
      (v.Perpendicular false).Dot v = 0 ∧
      (v.Perpendicular true).Dot v = 0 ∧
      v.Dot (v.Perpendicular false) = 0 ∧
      v.Dot (v.Perpendicular true) = 0) ∧
    (∀ w : Vector2 F64,
      IEEE.Vector2.Perpendicular w false = ⟨w.y, -w.x⟩ ∧
      IEEE.Vector2.Perpendicular w true = ⟨-w.y, w.x⟩ ∧
      (w.x.isFinite = true → w.y.isFinite = true → ∀ c : Bool,
        IEEE.Vector2.Dot (IEEE.Vector2.Perpendicular w c) w
          = if F64.isFinite (w.x * w.y) then F64.finite false 0 else F64.nan)) := by
  refine ⟨?_, fun w => ⟨rfl, rfl, IEEE_Vector2_Perpendicular_Dot w⟩⟩
  refine ⟨by simp [Vector2.Perpendicular], by simp [Vector2.Perpendicular], ?_, ?_, ?_, ?_⟩ <;>
    simp only [Vector2.Perpendicular, Vector2.Dot, if_true, if_false, Bool.false_eq_true] <;>
    ring

/-- C20, amended: Vector2 `AngleTo` is signed.  For every `atan2` and all `a`, `b`,
`a.AngleTo(b) = atan2(a.Cross(b), a.Dot(b))`; in exact arithmetic over the reals, with
`atan2(y, x)` the argument of `x + y i`, the angle is negative exactly when
`a.Cross(b) < 0` and positive when `a.Cross(b) > 0`, and
`Vector2(1,1).AngleTo(Vector2(1,-1)) = -π/2`. -/
theorem Vector2_AngleTo_signed (f : T → T → T) (a b : Vector2 T)
    (atan2 : ℝ → ℝ → ℝ) (hat : IsAtan2 atan2) (c d : Vector2 ℝ) :
    Vector2.AngleTo f a b = f (a.Cross b) (a.Dot b) ∧
    Vector2.AngleTo atan2 c d = atan2 (c.Cross d) (c.Dot d) ∧
    (Vector2.AngleTo atan2 c d < 0 ↔ c.Cross d < 0) ∧
    (0 < c.Cross d → 0 < Vector2.AngleTo atan2 c d) ∧
    Vector2.AngleTo atan2 ⟨1, 1⟩ ⟨1, -1⟩ = -(Real.pi / 2) := by
  refine ⟨rfl, rfl, ?_, ?_, ?_⟩
  · simp only [Vector2.AngleTo, hat _ _]
    exact Complex.arg_neg_iff
  · intro h
    simp only [Vector2.AngleTo, hat _ _]
    have h1 : 0 ≤ Complex.arg ⟨c.Dot d, c.Cross d⟩ := Complex.arg_nonneg_iff.mpr h.le
    have h2 : Complex.arg ⟨c.Dot d, c.Cross d⟩ ≠ 0 := by
      intro h0
      exact (ne_of_gt h) (Complex.arg_eq_zero_iff.mp h0).2
    exact lt_of_le_of_ne h1 (Ne.symm h2)
  · simp only [Vector2.AngleTo, hat _ _]
    refine Complex.arg_eq_neg_pi_div_two_iff.mpr ⟨?_, ?_⟩
    · norm_num [Vector2.Dot]
    · norm_num [Vector2.Cross]

/-- Witness of C20: the argument of `x + y i` is a real `atan2`, and with it
`Vector2(1,1).AngleTo(Vector2(1,-1)) = -π/2`. -/
theorem Vector2_AngleTo_signed_witness :
    IsAtan2 (fun y x => Complex.arg ⟨x, y⟩) ∧
    Vector2.AngleTo (fun y x => Complex.arg ⟨x, y⟩) ⟨1, 1⟩ ⟨1, -1⟩ = -(Real.pi / 2) :=
  ⟨fun _ _ => rfl,
   (Vector2_AngleTo_signed (fun y x => Complex.arg ⟨x, y⟩) ⟨1, 1⟩ ⟨1, -1⟩
     (fun y x => Complex.arg ⟨x, y⟩) (fun _ _ => rfl) ⟨1, 1⟩ ⟨1, -1⟩).2.2.2.2⟩

/-- C23: in-place forms have the semantics of their non-mutating counterparts.  For
every `v`, `w` (also as the normal) and scalar `s` of each of the three types, the value
of `v` after `v += w`, `v -= w`, `v *= s`, `v /= s` (the zero-vector fallback included),
`v.Normalize()` and `v.Reflect(w)` is `v + w`, `v - w`, `v * s`, `v / s`,
`v.Normalized()` and `v.Reflected(w)` computed from the original `v`. -/
theorem Vector_inplace_spec (sqrt : T → T) (eps s : T) (v2 w2 : Vector2 T)
    (v3 w3 : Vector3 T) (v4 w4 : Vector4 T) :
    (v2.opAddAssign w2 = v2.opAdd w2 ∧
      v2.opSubAssign w2 = v2.opSub w2 ∧
      v2.opMulAssign s = v2.opMul s ∧
      v2.opDivAssign eps s = v2.opDiv eps s ∧
      v2.Normalize sqrt eps = v2.Normalized sqrt eps ∧
      v2.Reflect sqrt eps w2 = v2.Reflected sqrt eps w2) ∧
    (v3.opAddAssign w3 = v3.opAdd w3 ∧
      v3.opSubAssign w3 = v3.opSub w3 ∧
      v3.opMulAssign s = v3.opMul s ∧
      v3.opDivAssign eps s = v3.opDiv eps s ∧
      v3.Normalize sqrt eps = v3.Normalized sqrt eps ∧
      v3.Reflect sqrt eps w3 = v3.Reflected sqrt eps w3) ∧
    (v4.opAddAssign w4 = v4.opAdd w4 ∧
      v4.opSubAssign w4 = v4.opSub w4 ∧
      v4.opMulAssign s = v4.opMul s ∧
      v4.opDivAssign eps s = v4.opDiv eps s ∧
      v4.Normalize sqrt eps = v4.Normalized sqrt eps ∧
      v4.Reflect sqrt eps w4 = v4.Reflected sqrt eps w4) :=
  ⟨⟨rfl, rfl, rfl, rfl, rfl, rfl⟩, ⟨rfl, rfl, rfl, rfl, rfl, rfl⟩,
   ⟨rfl, rfl, rfl, rfl, rfl, rfl⟩⟩

/-- C24: static mirrors forward to the instance methods.  For Vector2 and Vector3 and
all inputs, the static `Dot`, `Cross`, `Angle`, `Distance`, `Project`, `Lerp` and
`Reflect` return `v1.Dot(v2)`, `v1.Cross(v2)`, `v1.AngleTo(v2)`, `v1.DistanceTo(v2)`,
`v1.Projected(v2)`, `v1.Lerp(v2, t)` and `v1.Reflected(n)`. -/
theorem Vector_Static_spec (sqrt : T → T) (atan2 : T → T → T) (eps t : T)
    (a2 b2 : Vector2 T) (a3 b3 : Vector3 T) :
    (Vector2.Static.Dot a2 b2 = a2.Dot b2 ∧
      Vector2.Static.Cross a2 b2 = a2.Cross b2 ∧
      Vector2.Static.Angle atan2 a2 b2 = a2.AngleTo atan2 b2 ∧
      Vector2.Static.Distance sqrt a2 b2 = a2.DistanceTo sqrt b2 ∧
      Vector2.Static.Project eps a2 b2 = a2.Projected eps b2 ∧
      Vector2.Static.Lerp a2 b2 t = a2.Lerp b2 t ∧
      Vector2.Static.Reflect sqrt eps a2 b2 = a2.Reflected sqrt eps b2) ∧
    (Vector3.Static.Dot a3 b3 = a3.Dot b3 ∧
      Vector3.Static.Cross a3 b3 = a3.Cross b3 ∧
      Vector3.Static.Angle sqrt atan2 a3 b3 = a3.AngleTo sqrt atan2 b3 ∧
      Vector3.Static.Distance sqrt a3 b3 = a3.DistanceTo sqrt b3 ∧
      Vector3.Static.Project eps a3 b3 = a3.Projected eps b3 ∧
      Vector3.Static.Lerp a3 b3 t = a3.Lerp b3 t ∧
      Vector3.Static.Reflect sqrt eps a3 b3 = a3.Reflected sqrt eps b3) :=
  ⟨⟨rfl, rfl, rfl, rfl, rfl, rfl, rfl⟩, ⟨rfl, rfl, rfl, rfl, rfl, rfl, rfl⟩⟩

/-- C26, amended: in exact arithmetic, for every comparator epsilon `eps` with
`0 < eps <= 9/10`, `FloatComparator(eps).Compare(1, 1 + 10*eps)` is false. -/
theorem FloatComparator.Compare_ten_eps (eps : T) (h0 : 0 < eps) (h1 : eps ≤ 9 / 10) :
    (FloatComparator.mk eps).Compare 1 (1 + 10 * eps) = false := by
  have hpos : (0 : T) < 1 + 10 * eps := by positivity
  have habs : |1 + 10 * eps| = 1 + 10 * eps := abs_of_pos hpos
  have hmax : max |(1 : T)| |1 + 10 * eps| = 1 + 10 * eps := by
    rw [abs_one, habs]
    exact max_eq_right (by linarith)
  have hdiff : |1 - (1 + 10 * eps)| = 10 * eps := by
    rw [show (1 : T) - (1 + 10 * eps) = -(10 * eps) by ring, abs_neg]
    exact abs_of_pos (by positivity)
  have hne : ¬ (FloatComparator.mk eps).Compare 1 (1 + 10 * eps) = true := by
    rw [FloatComparator.compare_eq_true_iff, hmax, hdiff]
    rintro (h | h)
    · exact (ne_of_gt hpos) h
    · nlinarith
  simpa using hne

/-- Witness of C26 at the `double` epsilon. -/
theorem FloatComparator.Compare_ten_eps_witness :
    (0 < epsilonF64 ∧ epsilonF64 ≤ 9 / 10) ∧
    (FloatComparator.mk epsilonF64).Compare 1 (1 + 10 * epsilonF64) = false :=
  ⟨⟨epsilonF64_pos, by norm_num [epsilonF64]⟩,
   FloatComparator.Compare_ten_eps epsilonF64 epsilonF64_pos (by norm_num [epsilonF64])⟩

/-- C27: vector equality is not transitive.  For every machine epsilon `eps` with
`0 < eps <= 1/30` there are scalars `p`, `q`, `r` with `Compare(p, q)`, `Compare(q, r)`
and not `Compare(p, r)` under the tolerance `5 * eps`, and for each vector type there are
vectors `a`, `b`, `c` with `a == b`, `b == c` and `a != c`. -/
theorem Vector_opEq_not_transitive (eps : T) (h0 : 0 < eps) (h1 : eps ≤ 1 / 30) :
    (∃ p q r : T, (FloatComparator.mk (5 * eps)).Compare p q = true ∧
      (FloatComparator.mk (5 * eps)).Compare q r = true ∧
      (FloatComparator.mk (5 * eps)).Compare p r = false) ∧
    (∃ a b c : Vector2 T, Vector2.opEq eps a b = true ∧ Vector2.opEq eps b c = true ∧
      Vector2.opEq eps a c = false ∧ Vector2.opNe eps a c = true) ∧
    (∃ a b c : Vector3 T, Vector3.opEq eps a b = true ∧ Vector3.opEq eps b c = true ∧
      Vector3.opEq eps a c = false ∧ Vector3.opNe eps a c = true) ∧
    (∃ a b c : Vector4 T, Vector4.opEq eps a b = true ∧ Vector4.opEq eps b c = true ∧
      Vector4.opEq eps a c = false ∧ Vector4.opNe eps a c = true) := by
  obtain ⟨hpq, hqr, hpr⟩ := FloatComparator.compare_chain h0 h1
  refine ⟨⟨1, 1 + 3 * eps, 1 + 6 * eps, hpq, hqr, hpr⟩, ?_, ?_, ?_⟩
  · refine ⟨⟨1, 0⟩, ⟨1 + 3 * eps, 0⟩, ⟨1 + 6 * eps, 0⟩, ?_, ?_, ?_, ?_⟩ <;>
      simp [Vector2.opEq, Vector2.opNe, hpq, hqr, hpr, FloatComparator.compare_zero_zero]
  · refine ⟨⟨1, 0, 0⟩, ⟨1 + 3 * eps, 0, 0⟩, ⟨1 + 6 * eps, 0, 0⟩, ?_, ?_, ?_, ?_⟩ <;>
      simp [Vector3.opEq, Vector3.opNe, hpq, hqr, hpr, FloatComparator.compare_zero_zero]
  · refine ⟨⟨1, 0, 0, 0⟩, ⟨1 + 3 * eps, 0, 0, 0⟩, ⟨1 + 6 * eps, 0, 0, 0⟩, ?_, ?_, ?_, ?_⟩ <;>
      simp [Vector4.opEq, Vector4.opNe, hpq, hqr, hpr, FloatComparator.compare_zero_zero]

/-- Witness of C27 at the `double` epsilon. -/
theorem Vector_opEq_not_transitive_witness :
    (0 < epsilonF64 ∧ epsilonF64 ≤ 1 / 30) ∧
    (∃ p q r : ℚ, (FloatComparator.mk (5 * epsilonF64)).Compare p q = true ∧
      (FloatComparator.mk (5 * epsilonF64)).Compare q r = true ∧
      (FloatComparator.mk (5 * epsilonF64)).Compare p r = false) ∧
    (∃ a b c : Vector2 ℚ, Vector2.opEq epsilonF64 a b = true ∧
      Vector2.opEq epsilonF64 b c = true ∧
      Vector2.opEq epsilonF64 a c = false ∧ Vector2.opNe epsilonF64 a c = true) :=
  have h1 : epsilonF64 ≤ 1 / 30 := by norm_num [epsilonF64]
  ⟨⟨epsilonF64_pos, h1⟩,
   (Vector_opEq_not_transitive epsilonF64 epsilonF64_pos h1).1,
   (Vector_opEq_not_transitive epsilonF64 epsilonF64_pos h1).2.1⟩

/-- C28, amended: in exact arithmetic, for every vector `v` of any of the three types,
`LengthSquared(v)` is the sum of the squares of the components, equals `v.Dot(v)` and is
`>= 0`; with an exact square root, `Length(v)` is its non-negative square root:
`Length(v) >= 0` and `Length(v) * Length(v) = LengthSquared(v)`.  `Vector2(3,4)` has
`Length` 5 and `LengthSquared` 25, and `Vector3(3,4,12)` has `Length` 13. -/
theorem Vector_Length_spec (sqrt : T → T) (hs : IsSqrt sqrt) (v2 : Vector2 T)
    (v3 : Vector3 T) (v4 : Vector4 T) :
    (v2.LengthSquared = v2.x * v2.x + v2.y * v2.y ∧
      v2.LengthSquared = v2.Dot v2 ∧
      0 ≤ v2.LengthSquared ∧
      v2.Length sqrt = sqrt v2.LengthSquared ∧
      0 ≤ v2.Length sqrt ∧
      v2.Length sqrt * v2.Length sqrt = v2.LengthSquared) ∧
    (v3.LengthSquared = v3.x * v3.x + v3.y * v3.y + v3.z * v3.z ∧
      v3.LengthSquared = v3.Dot v3 ∧
      0 ≤ v3.LengthSquared ∧
      v3.Length sqrt = sqrt v3.LengthSquared ∧
      0 ≤ v3.Length sqrt ∧
      v3.Length sqrt * v3.Length sqrt = v3.LengthSquared) ∧
    (v4.LengthSquared = v4.x * v4.x + v4.y * v4.y + v4.z * v4.z + v4.w * v4.w ∧
      v4.LengthSquared = v4.Dot v4 ∧
      0 ≤ v4.LengthSquared ∧
      v4.Length sqrt = sqrt v4.LengthSquared ∧
      0 ≤ v4.Length sqrt ∧
      v4.Length sqrt * v4.Length sqrt = v4.LengthSquared) ∧
    (Vector2.Length sqrt ⟨3, 4⟩ = 5 ∧ Vector2.LengthSquared (⟨3, 4⟩ : Vector2 T) = 25 ∧
      Vector3.Length sqrt ⟨3, 4, 12⟩ = 13) := by
  have e5 : Vector2.Length sqrt ⟨3, 4⟩ = 5 := by
    have h := isSqrt_mul_self hs (show (0 : T) ≤ 5 by norm_num)
    rw [← h]
    simp only [Vector2.Length]
    norm_num
  have e13 : Vector3.Length sqrt ⟨3, 4, 12⟩ = 13 := by
    have h := isSqrt_mul_self hs (show (0 : T) ≤ 13 by norm_num)
    rw [← h]
    simp only [Vector3.Length]
    norm_num
  exact ⟨⟨rfl, rfl, Vector2_LengthSquared_nonneg v2, rfl, (Vector2_Length_isSqrt hs v2).1,
      (Vector2_Length_isSqrt hs v2).2⟩,
    ⟨rfl, rfl, Vector3_LengthSquared_nonneg v3, rfl, (Vector3_Length_isSqrt hs v3).1,
      (Vector3_Length_isSqrt hs v3).2⟩,
    ⟨rfl, rfl, Vector4_LengthSquared_nonneg v4, rfl, (Vector4_Length_isSqrt hs v4).1,
      (Vector4_Length_isSqrt hs v4).2⟩,
    ⟨e5, by norm_num [Vector2.LengthSquared], e13⟩⟩

/-- Witness of C28 over the reals with the real square root. -/
theorem Vector_Length_spec_witness :
    IsSqrt Real.sqrt ∧
    (Vector2.Length Real.sqrt ⟨3, 4⟩ = 5 ∧ Vector2.LengthSquared (⟨3, 4⟩ : Vector2 ℝ) = 25 ∧
      Vector3.Length Real.sqrt ⟨3, 4, 12⟩ = 13) :=
  ⟨isSqrt_real,
   (Vector_Length_spec Real.sqrt isSqrt_real ⟨3, 4⟩ ⟨3, 4, 12⟩ ⟨1, 2, 3, 4⟩).2.2.2⟩

/-- C29: for all `a`, `b` of the same type (Vector2, Vector3, Vector4),
`a.DistanceTo(b) = (a - b).Length()`; with an exact `std::sqrt`,
`a.DistanceTo(b) = b.DistanceTo(a)`, `a.DistanceTo(b) >= 0` and `a.DistanceTo(a) = 0`;
and `Vector2(0,3).DistanceTo(Vector2(4,0)) = 5`. -/
theorem Vector_DistanceTo_spec (sqrt : T → T) (hs : IsSqrt sqrt) (a2 b2 : Vector2 T)
    (a3 b3 : Vector3 T) (a4 b4 : Vector4 T) :
    (a2.DistanceTo sqrt b2 = (a2.opSub b2).Length sqrt ∧
      a2.DistanceTo sqrt b2 = b2.DistanceTo sqrt a2 ∧
      0 ≤ a2.DistanceTo sqrt b2 ∧
      a2.DistanceTo sqrt a2 = 0) ∧
    (a3.DistanceTo sqrt b3 = (a3.opSub b3).Length sqrt ∧
      a3.DistanceTo sqrt b3 = b3.DistanceTo sqrt a3 ∧
      0 ≤ a3.DistanceTo sqrt b3 ∧
      a3.DistanceTo sqrt a3 = 0) ∧
    (a4.DistanceTo sqrt b4 = (a4.opSub b4).Length sqrt ∧
      a4.DistanceTo sqrt b4 = b4.DistanceTo sqrt a4 ∧
      0 ≤ a4.DistanceTo sqrt b4 ∧
      a4.DistanceTo sqrt a4 = 0) ∧
    Vector2.DistanceTo sqrt ⟨0, 3⟩ ⟨4, 0⟩ = 5 := by
  have e5 : Vector2.DistanceTo sqrt ⟨0, 3⟩ ⟨4, 0⟩ = 5 := by
    have h := isSqrt_mul_self hs (show (0 : T) ≤ 5 by norm_num)
    rw [← h]
    simp only [Vector2.DistanceTo, Vector2.Length, Vector2.opSub]
    norm_num
  exact ⟨⟨rfl, Vector2_DistanceTo_comm sqrt a2 b2, (Vector2_Length_isSqrt hs _).1,
      Vector2_DistanceTo_self hs a2⟩,
    ⟨rfl, Vector3_DistanceTo_comm sqrt a3 b3, (Vector3_Length_isSqrt hs _).1,
      Vector3_DistanceTo_self hs a3⟩,
    ⟨rfl, Vector4_DistanceTo_comm sqrt a4 b4, (Vector4_Length_isSqrt hs _).1,
      Vector4_DistanceTo_self hs a4⟩,
    e5⟩

/-- Witness of C29 over the reals with the real square root. -/
theorem Vector_DistanceTo_spec_witness :
    IsSqrt Real.sqrt ∧
    Vector2.DistanceTo Real.sqrt ⟨0, 3⟩ ⟨4, 0⟩ = 5 ∧
    Vector3.DistanceTo Real.sqrt ⟨1, 2, 3⟩ ⟨4, 5, 6⟩
      = Vector3.DistanceTo Real.sqrt ⟨4, 5, 6⟩ ⟨1, 2, 3⟩ ∧
    Vector4.DistanceTo Real.sqrt ⟨1, 2, 3, 4⟩ ⟨1, 2, 3, 4⟩ = 0 :=
  have P := Vector_DistanceTo_spec Real.sqrt isSqrt_real ⟨0, 3⟩ ⟨4, 0⟩
    ⟨1, 2, 3⟩ ⟨4, 5, 6⟩ ⟨1, 2, 3, 4⟩ ⟨5, 6, 7, 8⟩
  ⟨isSqrt_real, P.2.2.2, P.2.1.2.1, P.2.2.1.2.2.2⟩

/-- C22, amended: in exact arithmetic over the reals, with an exact square root and the
real arc cosine, for all Vector4 `a`, `b` with non-zero lengths:
`a.AngleTo(b) = acos(Dot(a, b) / (Length(a) * Length(b)))`, the argument lies in
`[-1, 1]`, so the result is its arc cosine and lies in `[0, π]`. -/
theorem Vector4_AngleTo_spec (sqrt acos : ℝ → ℝ) (hs : IsSqrt sqrt) (hac : IsAcos acos)
    (a b : Vector4 ℝ) (ha : a.Length sqrt ≠ 0) (hb : b.Length sqrt ≠ 0) :
    a.AngleTo sqrt acos b = acos (a.Dot b / (a.Length sqrt * b.Length sqrt)) ∧
    -1 ≤ a.Dot b / (a.Length sqrt * b.Length sqrt) ∧
    a.Dot b / (a.Length sqrt * b.Length sqrt) ≤ 1 ∧
    a.AngleTo sqrt acos b = Real.arccos (a.Dot b / (a.Length sqrt * b.Length sqrt)) ∧
    0 ≤ a.AngleTo sqrt acos b ∧
    a.AngleTo sqrt acos b ≤ Real.pi := by
  have hpa : 0 < a.Length sqrt := lt_of_le_of_ne (Vector4_Length_isSqrt hs a).1 (Ne.symm ha)
  have hpb : 0 < b.Length sqrt := lt_of_le_of_ne (Vector4_Length_isSqrt hs b).1 (Ne.symm hb)
  have hP : 0 < a.Length sqrt * b.Length sqrt := mul_pos hpa hpb
  obtain ⟨hlo, hhi⟩ := Vector4_Dot_bounds hs a b
  have h1 : -1 ≤ a.Dot b / (a.Length sqrt * b.Length sqrt) := by
    rw [le_div_iff₀ hP]
    linarith
  have h2 : a.Dot b / (a.Length sqrt * b.Length sqrt) ≤ 1 := (div_le_one hP).mpr hhi
  have h3 : a.AngleTo sqrt acos b =
      Real.arccos (a.Dot b / (a.Length sqrt * b.Length sqrt)) := hac _ h1 h2
  exact ⟨rfl, h1, h2, h3, h3 ▸ Real.arccos_nonneg _, h3 ▸ Real.arccos_le_pi _⟩

/-- Witness of C22 with the real square root and arc cosine, on two unit vectors. -/
theorem Vector4_AngleTo_spec_witness :
    (IsSqrt Real.sqrt ∧ IsAcos Real.arccos ∧
      Vector4.Length Real.sqrt ⟨1, 0, 0, 0⟩ ≠ 0 ∧ Vector4.Length Real.sqrt ⟨0, 1, 0, 0⟩ ≠ 0) ∧
    -1 ≤ Vector4.Dot (⟨1, 0, 0, 0⟩ : Vector4 ℝ) ⟨0, 1, 0, 0⟩ /
      (Vector4.Length Real.sqrt ⟨1, 0, 0, 0⟩ * Vector4.Length Real.sqrt ⟨0, 1, 0, 0⟩) ∧
    Vector4.Dot (⟨1, 0, 0, 0⟩ : Vector4 ℝ) ⟨0, 1, 0, 0⟩ /
      (Vector4.Length Real.sqrt ⟨1, 0, 0, 0⟩ * Vector4.Length Real.sqrt ⟨0, 1, 0, 0⟩) ≤ 1 ∧
    0 ≤ Vector4.AngleTo Real.sqrt Real.arccos ⟨1, 0, 0, 0⟩ ⟨0, 1, 0, 0⟩ ∧
    Vector4.AngleTo Real.sqrt Real.arccos ⟨1, 0, 0, 0⟩ ⟨0, 1, 0, 0⟩ ≤ Real.pi := by
  have la : Vector4.Length Real.sqrt ⟨1, 0, 0, 0⟩ ≠ 0 := by norm_num [Vector4.Length]
  have lb : Vector4.Length Real.sqrt ⟨0, 1, 0, 0⟩ ≠ 0 := by norm_num [Vector4.Length]
  have P := Vector4_AngleTo_spec Real.sqrt Real.arccos isSqrt_real (fun _ _ _ => rfl)
    ⟨1, 0, 0, 0⟩ ⟨0, 1, 0, 0⟩ la lb
  exact ⟨⟨isSqrt_real, fun _ _ _ => rfl, la, lb⟩, P.2.1, P.2.2.1, P.2.2.2.2.1, P.2.2.2.2.2⟩

/-- C30: rendering.  For every vector, every scalar formatter `fixed` of the stream and
every precision, `ToString(precision)` is `"("`, the components in the order
`x, y[, z][, w]` each rendered by the formatter at that precision and separated by
`", "`, then `")"`.  With the fixed-point formatter of the standard library and a
precision `p >= 0`, a rendered scalar is a sign, the integer digits and, when `p > 0`, a
point followed by exactly `p` decimal digits; so at the default precision `2`,
`Vector2(-1,2).ToString() = "(-1.00, 2.00)"` and
`Vector3(-1,2,-3).ToString() = "(-1.00, 2.00, -3.00)"`. -/
theorem Vector_ToString_spec {S : Type} (fixed : Int → S → String) (precision : Int)
    (p m : Nat) (q : ℚ) (v2 : Vector2 S) (v3 : Vector3 S) (v4 : Vector4 S) :
    v2.ToString fixed precision =
      "(" ++ fixed precision v2.x ++ ", " ++ fixed precision v2.y ++ ")" ∧
    v3.ToString fixed precision =
      "(" ++ fixed precision v3.x ++ ", " ++ fixed precision v3.y ++ ", " ++
        fixed precision v3.z ++ ")" ∧
    v4.ToString fixed precision =
      "(" ++ fixed precision v4.x ++ ", " ++ fixed precision v4.y ++ ", " ++
        fixed precision v4.z ++ ", " ++ fixed precision v4.w ++ ")" ∧
    fixedPoint (p : Int) q =
      (if q < 0 then "-" else "") ++ Nat.repr (fixedScaled p q / 10 ^ p) ++
        (if p = 0 then ""
         else "." ++ String.mk (fixedFraction p (fixedScaled p q % 10 ^ p))) ∧
    (fixedFraction p m).length = p ∧
    (∀ c ∈ fixedFraction p m, c.isDigit = true) ∧
    Vector2.ToString fixedPoint 2 (⟨-1, 2⟩ : Vector2 ℚ) = "(-1.00, 2.00)" ∧
    Vector3.ToString fixedPoint 2 (⟨-1, 2, -3⟩ : Vector3 ℚ) = "(-1.00, 2.00, -3.00)" := by
  refine ⟨rfl, rfl, rfl, ?_, fixedFraction_length p m, fixedFraction_isDigit p m, ?_, ?_⟩
  · simp only [fixedPoint, fixedDigits_natCast]
  · simp [Vector2.ToString, fixedPoint, fixedDigits, fixedScaled, fixedFraction]
    rfl
  · simp [Vector3.ToString, fixedPoint, fixedDigits, fixedScaled, fixedFraction]
    rfl

/-- C31: zero is only equal to zero.  For every comparator epsilon `eps <= 1` and
scalars `a`, `b` with `a * b <= 0`, `Compare(a, b)` is true if and only if `a = 0` and
`b = 0`; consequently, for a machine epsilon `meps` with `5 * meps <= 1` and every vector
`v` of any of the three types, `v == zero vector` holds exactly when every component of
`v` is `0`. -/
theorem FloatComparator.Compare_zero_only (eps a b : T) (heps : eps ≤ 1) (hab : a * b ≤ 0)
    (meps : T) (hm : 5 * meps ≤ 1) (v2 : Vector2 T) (v3 : Vector3 T) (v4 : Vector4 T) :
    ((FloatComparator.mk eps).Compare a b = true ↔ a = 0 ∧ b = 0) ∧
    (Vector2.opEq meps v2 ⟨0, 0⟩ = true ↔ v2 = ⟨0, 0⟩) ∧
    (Vector3.opEq meps v3 ⟨0, 0, 0⟩ = true ↔ v3 = ⟨0, 0, 0⟩) ∧
    (Vector4.opEq meps v4 ⟨0, 0, 0, 0⟩ = true ↔ v4 = ⟨0, 0, 0, 0⟩) :=
  ⟨FloatComparator.compare_opposite ⟨eps⟩ heps hab, Vector2_opEq_zero_iff hm v2,
   Vector3_opEq_zero_iff hm v3, Vector4_opEq_zero_iff hm v4⟩

/-- Witness of C31: the comparator with epsilon `1` on `2^-60` and `-2^-60`, and the
vectors with one component `2^-100` against zero at the `double` epsilon. -/
theorem FloatComparator.Compare_zero_only_witness :
    ((1 : ℚ) ≤ 1 ∧ (1 / 2 ^ 60 : ℚ) * (-(1 / 2 ^ 60)) ≤ 0 ∧ 5 * epsilonF64 ≤ 1) ∧
    ((FloatComparator.mk (1 : ℚ)).Compare (1 / 2 ^ 60) (-(1 / 2 ^ 60)) = true ↔
      (1 / 2 ^ 60 : ℚ) = 0 ∧ (-(1 / 2 ^ 60) : ℚ) = 0) ∧
    (Vector2.opEq epsilonF64 ⟨1 / 2 ^ 100, 0⟩ ⟨0, 0⟩ = true ↔
      (⟨1 / 2 ^ 100, 0⟩ : Vector2 ℚ) = ⟨0, 0⟩) ∧
    (Vector3.opEq epsilonF64 ⟨0, 1 / 2 ^ 100, 0⟩ ⟨0, 0, 0⟩ = true ↔
      (⟨0, 1 / 2 ^ 100, 0⟩ : Vector3 ℚ) = ⟨0, 0, 0⟩) ∧
    (Vector4.opEq epsilonF64 ⟨0, 0, 0, 1 / 2 ^ 100⟩ ⟨0, 0, 0, 0⟩ = true ↔
      (⟨0, 0, 0, 1 / 2 ^ 100⟩ : Vector4 ℚ) = ⟨0, 0, 0, 0⟩) :=
  have h1 : (1 / 2 ^ 60 : ℚ) * (-(1 / 2 ^ 60)) ≤ 0 := by norm_num
  have h2 : 5 * epsilonF64 ≤ 1 := by norm_num [epsilonF64]
  ⟨⟨le_refl 1, h1, h2⟩,
   FloatComparator.Compare_zero_only 1 (1 / 2 ^ 60) (-(1 / 2 ^ 60)) (le_refl 1) h1
     epsilonF64 h2 ⟨1 / 2 ^ 100, 0⟩ ⟨0, 1 / 2 ^ 100, 0⟩ ⟨0, 0, 0, 1 / 2 ^ 100⟩⟩

/-- C32: a comparator built with a non-positive epsilon is not exact equality.  For
every `eps <= 0` and all scalars `a`, `b`, `Compare(a, b)` is true if and only if `a = 0`
and `b = 0`; in particular `Compare(x, x)` is false for every `x != 0`. -/
theorem FloatComparator.Compare_nonpos_epsilon (eps a b x : T) (heps : eps ≤ 0) :
    ((FloatComparator.mk eps).Compare a b = true ↔ a = 0 ∧ b = 0) ∧
    (x ≠ 0 → (FloatComparator.mk eps).Compare x x = false) := by
  refine ⟨FloatComparator.compare_nonpos ⟨eps⟩ heps a b, fun hx => ?_⟩
  have hn : ¬ (FloatComparator.mk eps).Compare x x = true := by
    rw [FloatComparator.compare_nonpos ⟨eps⟩ heps x x]
    exact fun h => hx h.1
  simpa using hn

/-- Witness of C32 at epsilon `0`: `Compare(3, 3)` is false. -/
theorem FloatComparator.Compare_nonpos_epsilon_witness :
    ((0 : ℚ) ≤ 0 ∧ (3 : ℚ) ≠ 0) ∧
    ((FloatComparator.mk (0 : ℚ)).Compare 3 3 = true ↔ (3 : ℚ) = 0 ∧ (3 : ℚ) = 0) ∧
    (FloatComparator.mk (0 : ℚ)).Compare 3 3 = false :=
  ⟨⟨le_refl 0, by norm_num⟩,
   (FloatComparator.Compare_nonpos_epsilon 0 3 3 3 (le_refl 0)).1,
   (FloatComparator.Compare_nonpos_epsilon 0 3 3 3 (le_refl 0)).2 (by norm_num)⟩

/-- C36, amended.  In exact arithmetic, the cross product is orthogonal to both
operands: for all Vector3 `a`, `b`, `Dot(a.Cross(b), a) = 0`, `Dot(a.Cross(b), b) = 0` and
`a.Cross(a)` is the zero vector; the same holds for Vector4.  For `T = double` and `c`
with finite `x`, `y`, `z`, each of the components `x`, `y`, `z` of `c.Cross(c)` is `+0`
when the product it is built from (`y * z`, `z * x`, `x * y`) does not overflow, and NaN
when it does; for Vector4 the `w` of `c.Cross(c)` is `0`. -/
theorem Vector_Cross_orthogonal (a3 b3 : Vector3 T) (a4 b4 : Vector4 T) :
    (((a3.Cross b3).Dot a3 = 0 ∧ (a3.Cross b3).Dot b3 = 0 ∧ a3.Cross a3 = ⟨0, 0, 0⟩) ∧
      ((a4.Cross b4).Dot a4 = 0 ∧ (a4.Cross b4).Dot b4 = 0 ∧
        a4.Cross a4 = ⟨0, 0, 0, 0⟩)) ∧
    (∀ c : Vector3 F64, c.x.isFinite = true → c.y.isFinite = true → c.z.isFinite = true →
      IEEE.Vector3.Cross c c =
        ⟨if F64.isFinite (c.y * c.z) then F64.finite false 0 else F64.nan,
         if F64.isFinite (c.z * c.x) then F64.finite false 0 else F64.nan,
         if F64.isFinite (c.x * c.y) then F64.finite false 0 else F64.nan⟩) ∧
    (∀ c : Vector4 F64, c.x.isFinite = true → c.y.isFinite = true → c.z.isFinite = true →
      IEEE.Vector4.Cross c c =
        ⟨if F64.isFinite (c.y * c.z) then F64.finite false 0 else F64.nan,
         if F64.isFinite (c.z * c.x) then F64.finite false 0 else F64.nan,
         if F64.isFinite (c.x * c.y) then F64.finite false 0 else F64.nan, 0⟩) := by
  refine ⟨⟨⟨?_, ?_, ?_⟩, ⟨?_, ?_, ?_⟩⟩, IEEE_Vector3_Cross_self, IEEE_Vector4_Cross_self⟩
  · simp only [Vector3.Cross, Vector3.Dot]; ring
  · simp only [Vector3.Cross, Vector3.Dot]; ring
  · simp only [Vector3.Cross, Vector3.mk.injEq]
    refine ⟨?_, ?_, ?_⟩ <;> ring
  · simp only [Vector4.Cross, Vector4.Dot]; ring
  · simp only [Vector4.Cross, Vector4.Dot]; ring
  · simp only [Vector4.Cross, Vector4.mk.injEq]
    refine ⟨?_, ?_, ?_, trivial⟩ <;> ring

/-- C34, amended: in exact arithmetic, `Projected` is an orthogonal projection on
non-degenerate targets.  For the machine epsilon `eps > 0` and every pair `self`, `v` of
the same type with `LengthSquared(v) > eps`, `Dot(self - self.Projected(v), v) = 0` and
`self.Projected(v).Projected(v) = self.Projected(v)`. -/
theorem Vector_Projected_orthogonal (eps : T) (heps : 0 < eps)
    (s2 v2 : Vector2 T) (s3 v3 : Vector3 T) (s4 v4 : Vector4 T)
    (h2 : eps < v2.LengthSquared) (h3 : eps < v3.LengthSquared) (h4 : eps < v4.LengthSquared) :
    ((s2.opSub (s2.Projected eps v2)).Dot v2 = 0 ∧
      (s2.Projected eps v2).Projected eps v2 = s2.Projected eps v2) ∧
    ((s3.opSub (s3.Projected eps v3)).Dot v3 = 0 ∧
      (s3.Projected eps v3).Projected eps v3 = s3.Projected eps v3) ∧
    ((s4.opSub (s4.Projected eps v4)).Dot v4 = 0 ∧
      (s4.Projected eps v4).Projected eps v4 = s4.Projected eps v4) :=
  ⟨⟨Vector2_Projected_orthogonal heps.le s2 v2 h2,
    Vector2_Projected_idempotent heps.le s2 v2 h2⟩,
   ⟨Vector3_Projected_orthogonal heps.le s3 v3 h3,
    Vector3_Projected_idempotent heps.le s3 v3 h3⟩,
   ⟨Vector4_Projected_orthogonal heps.le s4 v4 h4,
    Vector4_Projected_idempotent heps.le s4 v4 h4⟩⟩

/-- Witness of C34 at the `double` epsilon, on the vectors of the unit tests. -/
theorem Vector_Projected_orthogonal_witness :
    (0 < epsilonF64 ∧ epsilonF64 < Vector2.LengthSquared (⟨2, 1⟩ : Vector2 ℚ)) ∧
    ((Vector2.opSub ⟨2, 6⟩ (Vector2.Projected epsilonF64 ⟨2, 6⟩ ⟨2, 1⟩)).Dot ⟨2, 1⟩ = 0 ∧
      Vector2.Projected epsilonF64 (Vector2.Projected epsilonF64 ⟨2, 6⟩ ⟨2, 1⟩) ⟨2, 1⟩ =
        Vector2.Projected epsilonF64 ⟨2, 6⟩ ⟨2, 1⟩) ∧
    ((Vector3.opSub ⟨3, 2, 1⟩ (Vector3.Projected epsilonF64 ⟨3, 2, 1⟩ ⟨1, 1, 1⟩)).Dot
        ⟨1, 1, 1⟩ = 0 ∧
      Vector3.Projected epsilonF64 (Vector3.Projected epsilonF64 ⟨3, 2, 1⟩ ⟨1, 1, 1⟩)
        ⟨1, 1, 1⟩ = Vector3.Projected epsilonF64 ⟨3, 2, 1⟩ ⟨1, 1, 1⟩) ∧
    ((Vector4.opSub ⟨4, 3, 2, 1⟩
        (Vector4.Projected epsilonF64 ⟨4, 3, 2, 1⟩ ⟨1, 0, 1, 0⟩)).Dot ⟨1, 0, 1, 0⟩ = 0 ∧
      Vector4.Projected epsilonF64 (Vector4.Projected epsilonF64 ⟨4, 3, 2, 1⟩ ⟨1, 0, 1, 0⟩)
        ⟨1, 0, 1, 0⟩ = Vector4.Projected epsilonF64 ⟨4, 3, 2, 1⟩ ⟨1, 0, 1, 0⟩) :=
  have g2 : epsilonF64 < Vector2.LengthSquared (⟨2, 1⟩ : Vector2 ℚ) := by
    norm_num [Vector2.LengthSquared, epsilonF64]
  have g3 : epsilonF64 < Vector3.LengthSquared (⟨1, 1, 1⟩ : Vector3 ℚ) := by
    norm_num [Vector3.LengthSquared, epsilonF64]
  have g4 : epsilonF64 < Vector4.LengthSquared (⟨1, 0, 1, 0⟩ : Vector4 ℚ) := by
    norm_num [Vector4.LengthSquared, epsilonF64]
  ⟨⟨epsilonF64_pos, g2⟩,
   Vector_Projected_orthogonal epsilonF64 epsilonF64_pos ⟨2, 6⟩ ⟨2, 1⟩ ⟨3, 2, 1⟩ ⟨1, 1, 1⟩
     ⟨4, 3, 2, 1⟩ ⟨1, 0, 1, 0⟩ g2 g3 g4⟩

/-- C35, amended: in exact arithmetic, reflection preserves length.  For every vector `v`
and every normal `n` of the same type, degenerate or not, unit or not (the square root
exact at `LengthSquared(n)`), `LengthSquared(v.Reflected(n)) = LengthSquared(v)`, hence
`Length(v.Reflected(n)) = Length(v)`. -/
theorem Vector_Reflected_preserves_length (sqrt : T → T) (eps : T)
    (v2 n2 : Vector2 T) (v3 n3 : Vector3 T) (v4 n4 : Vector4 T)
    (h2 : n2.Length sqrt * n2.Length sqrt = n2.LengthSquared)
    (h3 : n3.Length sqrt * n3.Length sqrt = n3.LengthSquared)
    (h4 : n4.Length sqrt * n4.Length sqrt = n4.LengthSquared) :
    ((v2.Reflected sqrt eps n2).LengthSquared = v2.LengthSquared ∧
      (v2.Reflected sqrt eps n2).Length sqrt = v2.Length sqrt) ∧
    ((v3.Reflected sqrt eps n3).LengthSquared = v3.LengthSquared ∧
      (v3.Reflected sqrt eps n3).Length sqrt = v3.Length sqrt) ∧
    ((v4.Reflected sqrt eps n4).LengthSquared = v4.LengthSquared ∧
      (v4.Reflected sqrt eps n4).Length sqrt = v4.Length sqrt) :=
  ⟨⟨Vector2_Reflected_LengthSquared v2 n2 h2,
    congrArg sqrt (Vector2_Reflected_LengthSquared v2 n2 h2)⟩,
   ⟨Vector3_Reflected_LengthSquared v3 n3 h3,
    congrArg sqrt (Vector3_Reflected_LengthSquared v3 n3 h3)⟩,
   ⟨Vector4_Reflected_LengthSquared v4 n4 h4,
    congrArg sqrt (Vector4_Reflected_LengthSquared v4 n4 h4)⟩⟩

/-- Witness of C35 with `Rat.sqrt` at the `double` epsilon: the normals `(3, 4)`,
`(2, 3, 6)` and `(2, 4, 5, 6)` of lengths `5`, `7` and `9`. -/
theorem Vector_Reflected_preserves_length_witness :
    Vector2.LengthSquared (Vector2.Reflected Rat.sqrt epsilonF64 ⟨1, 3⟩ ⟨3, 4⟩) =
      Vector2.LengthSquared (⟨1, 3⟩ : Vector2 ℚ) ∧
    Vector3.LengthSquared (Vector3.Reflected Rat.sqrt epsilonF64 ⟨1, -1, -1⟩ ⟨2, 3, 6⟩) =
      Vector3.LengthSquared (⟨1, -1, -1⟩ : Vector3 ℚ) ∧
    Vector4.LengthSquared (Vector4.Reflected Rat.sqrt epsilonF64 ⟨1, 2, 3, 4⟩ ⟨2, 4, 5, 6⟩) =
      Vector4.LengthSquared (⟨1, 2, 3, 4⟩ : Vector4 ℚ) := by
  have l2 : Vector2.Length Rat.sqrt ⟨3, 4⟩ = 5 := by norm_num [Vector2.Length, Rat.sqrt]
  have l3 : Vector3.Length Rat.sqrt ⟨2, 3, 6⟩ = 7 := by norm_num [Vector3.Length, Rat.sqrt]
  have l4 : Vector4.Length Rat.sqrt ⟨2, 4, 5, 6⟩ = 9 := by
    norm_num [Vector4.Length, Rat.sqrt]
  have P := Vector_Reflected_preserves_length Rat.sqrt epsilonF64
    ⟨1, 3⟩ ⟨3, 4⟩ ⟨1, -1, -1⟩ ⟨2, 3, 6⟩ ⟨1, 2, 3, 4⟩ ⟨2, 4, 5, 6⟩
    (by rw [l2]; norm_num [Vector2.LengthSquared])
    (by rw [l3]; norm_num [Vector3.LengthSquared])
    (by rw [l4]; norm_num [Vector4.LengthSquared])
  exact ⟨P.1.1, P.2.1.1, P.2.2.1⟩

/-- C33, amended: in exact arithmetic, projection is not invariant under rescaling the
target.  With an exact square root, for every `v` with `eps < Length(v)` and
`LengthSquared(v) < eps` (such `v` exist in each type whenever `0 < eps < 1`):
`Normalized(v)` is a unit vector, `self.Projected(v)` is the zero vector for every
`self`, while `self.Projected(v.Normalized()) = v.Normalized() * Dot(self, v.Normalized())`,
which differs from `self.Projected(v)` as soon as `Dot(self, v)` is not zero. -/
theorem Vector_Projected_rescale (sqrt : T → T) (hs : IsSqrt sqrt) (eps : T)
    (s2 v2 : Vector2 T) (s3 v3 : Vector3 T) (s4 v4 : Vector4 T)
    (g2 : eps < v2.Length sqrt) (l2 : v2.LengthSquared < eps)
    (g3 : eps < v3.Length sqrt) (l3 : v3.LengthSquared < eps)
    (g4 : eps < v4.Length sqrt) (l4 : v4.LengthSquared < eps) :
    ((v2.Normalized sqrt eps).Length sqrt = 1 ∧
      (v2.Normalized sqrt eps).LengthSquared = 1 ∧
      s2.Projected eps v2 = ⟨0, 0⟩ ∧
      s2.Projected eps (v2.Normalized sqrt eps) =
        (v2.Normalized sqrt eps).opMul (s2.Dot (v2.Normalized sqrt eps)) ∧
      (s2.Dot v2 ≠ 0 →
        s2.Projected eps (v2.Normalized sqrt eps) ≠ s2.Projected eps v2)) ∧
    ((v3.Normalized sqrt eps).Length sqrt = 1 ∧
      (v3.Normalized sqrt eps).LengthSquared = 1 ∧
      s3.Projected eps v3 = ⟨0, 0, 0⟩ ∧
      s3.Projected eps (v3.Normalized sqrt eps) =
        (v3.Normalized sqrt eps).opMul (s3.Dot (v3.Normalized sqrt eps)) ∧
      (s3.Dot v3 ≠ 0 →
        s3.Projected eps (v3.Normalized sqrt eps) ≠ s3.Projected eps v3)) ∧
    ((v4.Normalized sqrt eps).Length sqrt = 1 ∧
      (v4.Normalized sqrt eps).LengthSquared = 1 ∧
      s4.Projected eps v4 = ⟨0, 0, 0, 0⟩ ∧
      s4.Projected eps (v4.Normalized sqrt eps) =
        (v4.Normalized sqrt eps).opMul (s4.Dot (v4.Normalized sqrt eps)) ∧
      (s4.Dot v4 ≠ 0 →
        s4.Projected eps (v4.Normalized sqrt eps) ≠ s4.Projected eps v4)) ∧
    (0 < eps → eps < 1 →
      (∃ v : Vector2 T, eps < v.Length sqrt ∧ v.LengthSquared < eps) ∧
      (∃ v : Vector3 T, eps < v.Length sqrt ∧ v.LengthSquared < eps) ∧
      (∃ v : Vector4 T, eps < v.Length sqrt ∧ v.LengthSquared < eps)) :=
  ⟨Vector2_rescale_window hs s2 v2 g2 l2, Vector3_rescale_window hs s3 v3 g3 l3,
   Vector4_rescale_window hs s4 v4 g4 l4,
   fun h0 h1 => ⟨Vector2_window_exists hs h0 h1, Vector3_window_exists hs h0 h1,
     Vector4_window_exists hs h0 h1⟩⟩

/-- Witness of C33 over the reals with the real square root at the `double` epsilon: the
targets of length `2^-30`, whose squared length `2^-60` is below `2^-52`. -/
theorem Vector_Projected_rescale_witness :
    IsSqrt Real.sqrt ∧
    ((Vector2.Normalized Real.sqrt ((epsilonF64 : ℚ) : ℝ) ⟨1 / 2 ^ 30, 0⟩).Length Real.sqrt
        = 1 ∧
      Vector2.Projected ((epsilonF64 : ℚ) : ℝ) ⟨1, 1⟩ ⟨1 / 2 ^ 30, 0⟩ = ⟨0, 0⟩ ∧
      Vector2.Projected ((epsilonF64 : ℚ) : ℝ) ⟨1, 1⟩
          (Vector2.Normalized Real.sqrt ((epsilonF64 : ℚ) : ℝ) ⟨1 / 2 ^ 30, 0⟩) ≠
        Vector2.Projected ((epsilonF64 : ℚ) : ℝ) ⟨1, 1⟩ ⟨1 / 2 ^ 30, 0⟩) ∧
    (Vector3.Projected ((epsilonF64 : ℚ) : ℝ) ⟨3, 2, 1⟩ ⟨0, 1 / 2 ^ 30, 0⟩ = ⟨0, 0, 0⟩ ∧
      Vector3.Projected ((epsilonF64 : ℚ) : ℝ) ⟨3, 2, 1⟩
          (Vector3.Normalized Real.sqrt ((epsilonF64 : ℚ) : ℝ) ⟨0, 1 / 2 ^ 30, 0⟩) ≠
        Vector3.Projected ((epsilonF64 : ℚ) : ℝ) ⟨3, 2, 1⟩ ⟨0, 1 / 2 ^ 30, 0⟩) ∧
    (Vector4.Projected ((epsilonF64 : ℚ) : ℝ) ⟨4, 3, 2, 1⟩ ⟨0, 0, 0, 1 / 2 ^ 30⟩
        = ⟨0, 0, 0, 0⟩ ∧
      Vector4.Projected ((epsilonF64 : ℚ) : ℝ) ⟨4, 3, 2, 1⟩
          (Vector4.Normalized Real.sqrt ((epsilonF64 : ℚ) : ℝ) ⟨0, 0, 0, 1 / 2 ^ 30⟩) ≠
        Vector4.Projected ((epsilonF64 : ℚ) : ℝ) ⟨4, 3, 2, 1⟩ ⟨0, 0, 0, 1 / 2 ^ 30⟩) := by
  have he := epsilonF64_real_pos
  have g2 : ((epsilonF64 : ℚ) : ℝ) < Vector2.Length Real.sqrt ⟨1 / 2 ^ 30, 0⟩ :=
    (Real.lt_sqrt he.le).mpr (by norm_num [epsilonF64])
  have g3 : ((epsilonF64 : ℚ) : ℝ) < Vector3.Length Real.sqrt ⟨0, 1 / 2 ^ 30, 0⟩ :=
    (Real.lt_sqrt he.le).mpr (by norm_num [epsilonF64])
  have g4 : ((epsilonF64 : ℚ) : ℝ) < Vector4.Length Real.sqrt ⟨0, 0, 0, 1 / 2 ^ 30⟩ :=
    (Real.lt_sqrt he.le).mpr (by norm_num [epsilonF64])
  have l2 : Vector2.LengthSquared (⟨1 / 2 ^ 30, 0⟩ : Vector2 ℝ) < ((epsilonF64 : ℚ) : ℝ) := by
    norm_num [Vector2.LengthSquared, epsilonF64]
  have l3 : Vector3.LengthSquared (⟨0, 1 / 2 ^ 30, 0⟩ : Vector3 ℝ)
      < ((epsilonF64 : ℚ) : ℝ) := by
    norm_num [Vector3.LengthSquared, epsilonF64]
  have l4 : Vector4.LengthSquared (⟨0, 0, 0, 1 / 2 ^ 30⟩ : Vector4 ℝ)
      < ((epsilonF64 : ℚ) : ℝ) := by
    norm_num [Vector4.LengthSquared, epsilonF64]
  have P := Vector_Projected_rescale Real.sqrt isSqrt_real ((epsilonF64 : ℚ) : ℝ)
    ⟨1, 1⟩ ⟨1 / 2 ^ 30, 0⟩ ⟨3, 2, 1⟩ ⟨0, 1 / 2 ^ 30, 0⟩ ⟨4, 3, 2, 1⟩ ⟨0, 0, 0, 1 / 2 ^ 30⟩
    g2 l2 g3 l3 g4 l4
  exact ⟨isSqrt_real,
    ⟨P.1.1, P.1.2.2.1, P.1.2.2.2.2 (by norm_num [Vector2.Dot])⟩,
    ⟨P.2.1.2.2.1, P.2.1.2.2.2.2 (by norm_num [Vector3.Dot])⟩,
    ⟨P.2.2.1.2.2.1, P.2.2.1.2.2.2.2 (by norm_num [Vector4.Dot])⟩⟩

/-- C37: the atan2-based and acos-based angle formulas agree in exact arithmetic.  For
all Vector3 `a`, `b`,
`LengthSquared(a.Cross(b)) + Dot(a, b)^2 = LengthSquared(a) * LengthSquared(b)`; and with
exact `std::sqrt`, `std::atan2` and `std::acos`, for all non-zero `a`, `b`, Vector3
`a.AngleTo(b)` equals `Vector4(a.x, a.y, a.z, 0).AngleTo(Vector4(b.x, b.y, b.z, 0))`. -/
theorem Vector_AngleTo_agree (c d : Vector3 T) (sqrt acos : ℝ → ℝ) (atan2 : ℝ → ℝ → ℝ)
    (hs : IsSqrt sqrt) (hac : IsAcos acos) (hat : IsAtan2 atan2) (a b : Vector3 ℝ)
    (ha : a ≠ ⟨0, 0, 0⟩) (hb : b ≠ ⟨0, 0, 0⟩) :
    (c.Cross d).LengthSquared + c.Dot d ^ 2 = c.LengthSquared * d.LengthSquared ∧
    a.AngleTo sqrt atan2 b =
      Vector4.AngleTo sqrt acos ⟨a.x, a.y, a.z, 0⟩ ⟨b.x, b.y, b.z, 0⟩ := by
  refine ⟨Vector3_Lagrange c d, ?_⟩
  have h4 := Vector4_AngleTo_arccos hs hac ⟨a.x, a.y, a.z, 0⟩ ⟨b.x, b.y, b.z, 0⟩
    (by rw [Vector4_embed_Length]; exact Vector3_Length_pos hs a ha)
    (by rw [Vector4_embed_Length]; exact Vector3_Length_pos hs b hb)
  rw [h4, Vector4_embed_Length, Vector4_embed_Length, Vector4_embed_Dot]
  exact Vector3_AngleTo_arccos hs hat a b ha hb

/-- Witness of C37 with the real square root, arc cosine and argument, on
`(1, 0, 0)` and `(1, 1, 0)`. -/
theorem Vector_AngleTo_agree_witness :
    (IsSqrt Real.sqrt ∧ IsAcos Real.arccos ∧ IsAtan2 (fun y x => Complex.arg ⟨x, y⟩) ∧
      (⟨1, 0, 0⟩ : Vector3 ℝ) ≠ ⟨0, 0, 0⟩ ∧ (⟨1, 1, 0⟩ : Vector3 ℝ) ≠ ⟨0, 0, 0⟩) ∧
    (Vector3.LengthSquared (Vector3.Cross (⟨1, 2, 3⟩ : Vector3 ℚ) ⟨4, 5, 6⟩) +
        Vector3.Dot (⟨1, 2, 3⟩ : Vector3 ℚ) ⟨4, 5, 6⟩ ^ 2 =
      Vector3.LengthSquared (⟨1, 2, 3⟩ : Vector3 ℚ) * Vector3.LengthSquared ⟨4, 5, 6⟩) ∧
    Vector3.AngleTo Real.sqrt (fun y x => Complex.arg ⟨x, y⟩) ⟨1, 0, 0⟩ ⟨1, 1, 0⟩ =
      Vector4.AngleTo Real.sqrt Real.arccos ⟨1, 0, 0, 0⟩ ⟨1, 1, 0, 0⟩ := by
  have ha : (⟨1, 0, 0⟩ : Vector3 ℝ) ≠ ⟨0, 0, 0⟩ := by simp
  have hb : (⟨1, 1, 0⟩ : Vector3 ℝ) ≠ ⟨0, 0, 0⟩ := by simp
  have P := Vector_AngleTo_agree (⟨1, 2, 3⟩ : Vector3 ℚ) ⟨4, 5, 6⟩ Real.sqrt Real.arccos
    (fun y x => Complex.arg ⟨x, y⟩) isSqrt_real (fun _ _ _ => rfl) (fun _ _ => rfl)
    ⟨1, 0, 0⟩ ⟨1, 1, 0⟩ ha hb
  exact ⟨⟨isSqrt_real, fun _ _ _ => rfl, fun _ _ => rfl, ha, hb⟩, P.1, P.2⟩

/-! ### Evaluation in IEEE-754 binary64

The statements below evaluate the `IEEE` embedding on concrete `double` inputs; every
input is a literal, a quotient of literals rounded by `F64.ofRatio`, or a power of two,
and so is a finite `double`. -/

set_option exponentiation.threshold 4096

/-- The table `IEEE.atan2Zero` has the values `IEEE.IsAtan2` fixes. -/
lemma IEEE_isAtan2_atan2Zero : IEEE.IsAtan2 IEEE.atan2Zero := by
  intro s x
  rw [F64_zero_eq]
  refine ⟨?_, ?_⟩
  · intro h
    simp only [IEEE.atan2Zero, F64_zero_eq]
    rw [if_pos h]
  · intro h
    have h' : ¬ (x = F64.finite true 0 ∨ F64.lt x (F64.finite false 0) = true) := by
      rcases h with rfl | h
      · simp [F64.lt]
      · cases x with
        | nan => simp [F64.lt] at h
        | inf t => cases t <;> simp [F64.lt] at h ⊢
        | finite t k => cases t <;> simp [F64.lt] at h ⊢
    simp only [IEEE.atan2Zero, F64_zero_eq]
    rw [if_neg h', if_pos h]

/-- The function `IEEE.acosEdge` has the values `IEEE.IsAcos` fixes. -/
lemma IEEE_isAcos_acosEdge : IEEE.IsAcos IEEE.acosEdge := by
  refine ⟨by simp [IEEE.acosEdge], ?_⟩
  intro x h
  have h1 : x ≠ 1 := by
    rintro rfl
    revert h
    decide
  simp [IEEE.acosEdge, h1]

/-- C5, as stated, fails.  With the `double` epsilon, `v = (1, 1)` and the nonzero
scalar `s = 2^-53`, the guard of `operator/` rejects `s`, `(v * s) / s` is the zero
vector and `(v * s) / s == v` is false, in exact arithmetic and in `double` alike.  In
`double`, for `v = (2^1023, 1)` and `s = 4`, which passes the guard, the product `v * s`
overflows, `(v * s) / s` is `(inf, 1)` and `(v * s) / s == v` is false. -/
theorem Vector_opMul_opDiv_nonzero_counterexample :
    (((1 : ℚ) / 2 ^ 53 ≠ 0) ∧
      Vector2.opDiv epsilonF64 (Vector2.opMul ⟨1, 1⟩ (1 / 2 ^ 53)) (1 / 2 ^ 53) = ⟨0, 0⟩ ∧
      Vector2.opEq epsilonF64
        (Vector2.opDiv epsilonF64 (Vector2.opMul ⟨1, 1⟩ (1 / 2 ^ 53)) (1 / 2 ^ 53)) ⟨1, 1⟩
        = false) ∧
    (F64.eq (F64.ofRatio 1 (2 ^ 53)) 0 = false ∧
      IEEE.Vector2.opDiv (IEEE.Vector2.opMul ⟨1, 1⟩ (F64.ofRatio 1 (2 ^ 53)))
        (F64.ofRatio 1 (2 ^ 53)) = ⟨0, 0⟩ ∧
      IEEE.Vector2.opEq
        (IEEE.Vector2.opDiv (IEEE.Vector2.opMul ⟨1, 1⟩ (F64.ofRatio 1 (2 ^ 53)))
          (F64.ofRatio 1 (2 ^ 53))) ⟨1, 1⟩ = false) ∧
    (F64.eq 4 0 = false ∧
      F64.lt IEEE.epsilon (F64.abs 4) = true ∧
      IEEE.Vector2.opDiv (IEEE.Vector2.opMul ⟨F64.ofRatio (2 ^ 1023) 1, 1⟩ 4) 4
        = ⟨F64.inf false, 1⟩ ∧
      IEEE.Vector2.opEq
        (IEEE.Vector2.opDiv (IEEE.Vector2.opMul ⟨F64.ofRatio (2 ^ 1023) 1, 1⟩ 4) 4)
        ⟨F64.ofRatio (2 ^ 1023) 1, 1⟩ = false) := by
  have h : ¬ (epsilonF64 < |(1 : ℚ) / 2 ^ 53|) := by
    rw [abs_of_pos (by norm_num)]
    norm_num [epsilonF64]
  refine ⟨⟨by norm_num, ?_, ?_⟩, by decide, by decide⟩
  · simp only [Vector2.opDiv, gt_iff_lt, if_neg h, Vector2.ctor]
  · simp only [Vector2.opDiv, gt_iff_lt, if_neg h, Vector2.ctor, Vector2.opEq,
      FloatComparator.Compare]
    norm_num [epsilonF64]

/-- C7, as stated, fails for `double`: `v = (1, 1)` has `Length() > epsilon`, and
`v.Normalized().Length()` is `1 - 2^-53`, not `1`. -/
theorem Vector_Normalized_length_counterexample :
    F64.lt IEEE.epsilon (IEEE.Vector2.Length ⟨1, 1⟩) = true ∧
    IEEE.Vector2.Length (IEEE.Vector2.Normalized ⟨1, 1⟩)
      = F64.finite false (9007199254740991 * 2 ^ 1021) ∧
    (1 : F64) = F64.finite false (2 ^ 1074) ∧
    F64.eq (IEEE.Vector2.Length (IEEE.Vector2.Normalized ⟨1, 1⟩)) 1 = false := by
  decide

/-- C11, as stated, fails for `double`: both normals `(-1, 2)` and `(-2^512, 2^513)`
have `Length() > epsilon`, yet `(1, 3)` reflects to `(3, -1)` across the first and to
`(1, 3)` across the second, whose length overflows; and `(1, 2).Reflected((1, 1))`
differs from the closed formula, which evaluates to `(-2, -1)`. -/
theorem Vector_Reflected_formula_counterexample :
    F64.lt IEEE.epsilon (IEEE.Vector2.Length ⟨-1, 2⟩) = true ∧
    F64.lt IEEE.epsilon
      (IEEE.Vector2.Length ⟨-F64.ofRatio (2 ^ 512) 1, F64.ofRatio (2 ^ 513) 1⟩) = true ∧
    IEEE.Vector2.Reflected ⟨1, 3⟩ ⟨-1, 2⟩ = ⟨3, -1⟩ ∧
    IEEE.Vector2.Reflected ⟨1, 3⟩ ⟨-F64.ofRatio (2 ^ 512) 1, F64.ofRatio (2 ^ 513) 1⟩
      = ⟨1, 3⟩ ∧
    IEEE.Vector2.Reflected ⟨1, 2⟩ ⟨1, 1⟩
      = ⟨F64.finite true (4503599627370495 * 2 ^ 1023),
         F64.finite true (2251799813685247 * 2 ^ 1023)⟩ ∧
    IEEE.Vector2.opSub ⟨1, 2⟩
      (IEEE.Vector2.opMulLeft
        (2 * (IEEE.Vector2.Dot ⟨1, 2⟩ ⟨1, 1⟩ / IEEE.Vector2.LengthSquared ⟨1, 1⟩)) ⟨1, 1⟩)
      = ⟨-2, -1⟩ ∧
    (-2 : F64) = F64.finite true (2 ^ 1075) ∧ (-1 : F64) = F64.finite true (2 ^ 1074) := by
  decide

/-- C12, as stated, fails for `double`: the normal `n = (0.6, 0.8)` has `Length()`
exactly `1`, and `v = (0, 1)` reflected twice across `n` is `(2^-52, 1)`, which is not
`== v`. -/
theorem Vector_Reflected_involutive_counterexample :
    IEEE.Vector2.Length ⟨F64.ofRatio 3 5, F64.ofRatio 4 5⟩ = 1 ∧
    IEEE.Vector2.Reflected
      (IEEE.Vector2.Reflected ⟨0, 1⟩ ⟨F64.ofRatio 3 5, F64.ofRatio 4 5⟩)
      ⟨F64.ofRatio 3 5, F64.ofRatio 4 5⟩ = ⟨IEEE.epsilon, 1⟩ ∧
    IEEE.Vector2.opEq
      (IEEE.Vector2.Reflected
        (IEEE.Vector2.Reflected ⟨0, 1⟩ ⟨F64.ofRatio 3 5, F64.ofRatio 4 5⟩)
        ⟨F64.ofRatio 3 5, F64.ofRatio 4 5⟩) ⟨0, 1⟩ = false := by
  decide

/-- C14, as stated, fails for `double`: for `v1 = (1, 2^-60)`, `v2 = (-1, 2^-60)` and
`v3 = (1, 1)`, `Dot(v1 + v2, v3)` is `2^-59` and `Dot(v1, v3) + Dot(v2, v3)` is `0`;
the two are not equal under the tolerance of `operator==` either. -/
theorem Vector_Dot_add_left_counterexample :
    IEEE.Vector2.Dot
      (IEEE.Vector2.opAdd ⟨1, F64.ofRatio 1 (2 ^ 60)⟩ ⟨-1, F64.ofRatio 1 (2 ^ 60)⟩) ⟨1, 1⟩
      = F64.ofRatio 1 (2 ^ 59) ∧
    IEEE.Vector2.Dot ⟨1, F64.ofRatio 1 (2 ^ 60)⟩ ⟨1, 1⟩ +
      IEEE.Vector2.Dot ⟨-1, F64.ofRatio 1 (2 ^ 60)⟩ ⟨1, 1⟩ = 0 ∧
    F64.eq (F64.ofRatio 1 (2 ^ 59)) 0 = false ∧
    IEEE.FloatComparator.Compare ⟨5 * IEEE.epsilon⟩ (F64.ofRatio 1 (2 ^ 59)) 0 = false := by
  decide

/-- C18, as stated, fails for `double`: for the finite `v = (2^600, 2^600)` the two
products of `Dot` overflow with opposite signs, and `Dot(v.Perpendicular(c), v)` is NaN,
not `0`, in both directions. -/
theorem Vector2_Perpendicular_counterexample :
    IEEE.Vector2.Dot
      (IEEE.Vector2.Perpendicular ⟨F64.ofRatio (2 ^ 600) 1, F64.ofRatio (2 ^ 600) 1⟩ false)
      ⟨F64.ofRatio (2 ^ 600) 1, F64.ofRatio (2 ^ 600) 1⟩ = F64.nan ∧
    IEEE.Vector2.Dot
      (IEEE.Vector2.Perpendicular ⟨F64.ofRatio (2 ^ 600) 1, F64.ofRatio (2 ^ 600) 1⟩ true)
      ⟨F64.ofRatio (2 ^ 600) 1, F64.ofRatio (2 ^ 600) 1⟩ = F64.nan ∧
    F64.eq F64.nan 0 = false := by
  decide

/-- C20, as stated, fails for `double`: for `a = (-1, 0)` and `b = (1, 0)`,
`a.Cross(b)` is `-0`, which is not `< 0`, `a.Dot(b)` is `-1`, and
`a.AngleTo(b) = atan2(-0, -1)` is `-π`, which is negative. -/
theorem Vector2_AngleTo_signed_counterexample :
    IEEE.Vector2.Cross ⟨-1, 0⟩ ⟨1, 0⟩ = F64.finite true 0 ∧
    F64.lt (IEEE.Vector2.Cross ⟨-1, 0⟩ ⟨1, 0⟩) 0 = false ∧
    IEEE.Vector2.Dot ⟨-1, 0⟩ ⟨1, 0⟩ = -1 ∧
    F64.lt (-F64.pi) 0 = true ∧
    IEEE.IsAtan2 IEEE.atan2Zero ∧
    ∀ atan2 : F64 → F64 → F64, IEEE.IsAtan2 atan2 →
      IEEE.Vector2.AngleTo atan2 ⟨-1, 0⟩ ⟨1, 0⟩ = -F64.pi := by
  refine ⟨by decide, by decide, by decide, by decide, IEEE_isAtan2_atan2Zero, ?_⟩
  intro atan2 h
  have hd : IEEE.Vector2.AngleTo atan2 ⟨-1, 0⟩ ⟨1, 0⟩ = atan2 (F64.finite true 0) (-1) := by
    have h1 : IEEE.Vector2.Cross ⟨-1, 0⟩ ⟨1, 0⟩ = F64.finite true 0 := by decide
    have h2 : IEEE.Vector2.Dot ⟨-1, 0⟩ ⟨1, 0⟩ = -1 := by decide
    simp only [IEEE.Vector2.AngleTo, h1, h2]
  rw [hd, (h true (-1)).1 (Or.inr (by decide))]
  rfl

/-- C22, as stated, fails for `double`: `a = (1, 0, 0, 5)` has a non-zero length, the
quotient `Dot(a, a) / (Length(a) * Length(a))` is `26 / 25.999999999999996`, which is
`1 + 2^-52 > 1`, and `a.AngleTo(a)` is NaN, outside `[0, π]`. -/
theorem Vector4_AngleTo_counterexample :
    F64.lt 0 (IEEE.Vector4.Length ⟨1, 0, 0, 5⟩) = true ∧
    IEEE.Vector4.Dot ⟨1, 0, 0, 5⟩ ⟨1, 0, 0, 5⟩ = 26 ∧
    IEEE.Vector4.Length ⟨1, 0, 0, 5⟩ * IEEE.Vector4.Length ⟨1, 0, 0, 5⟩
      = F64.finite false (7318349394477055 * 2 ^ 1026) ∧
    IEEE.Vector4.Dot ⟨1, 0, 0, 5⟩ ⟨1, 0, 0, 5⟩ /
      (IEEE.Vector4.Length ⟨1, 0, 0, 5⟩ * IEEE.Vector4.Length ⟨1, 0, 0, 5⟩)
      = F64.finite false (4503599627370497 * 2 ^ 1022) ∧
    F64.lt 1 (F64.finite false (4503599627370497 * 2 ^ 1022)) = true ∧
    IEEE.IsAcos IEEE.acosEdge ∧
    ∀ acos : F64 → F64, IEEE.IsAcos acos →
      IEEE.Vector4.AngleTo acos ⟨1, 0, 0, 5⟩ ⟨1, 0, 0, 5⟩ = F64.nan := by
  refine ⟨by decide, by decide, by decide, by decide, by decide, IEEE_isAcos_acosEdge, ?_⟩
  intro acos h
  have hd : IEEE.Vector4.AngleTo acos ⟨1, 0, 0, 5⟩ ⟨1, 0, 0, 5⟩
      = acos (F64.finite false (4503599627370497 * 2 ^ 1022)) := by
    have h1 : IEEE.Vector4.Dot ⟨1, 0, 0, 5⟩ ⟨1, 0, 0, 5⟩ /
        (IEEE.Vector4.Length ⟨1, 0, 0, 5⟩ * IEEE.Vector4.Length ⟨1, 0, 0, 5⟩)
        = F64.finite false (4503599627370497 * 2 ^ 1022) := by decide
    simp only [IEEE.Vector4.AngleTo, h1]
  rw [hd, h.2 _ (by decide)]

/-- C26, as stated, fails for `double`: for `eps = 2^-57`, which lies in `(0, 9/10]`,
the sum `1 + 10 * eps` rounds to `1` and `Compare(1, 1 + 10 * eps)` is true. -/
theorem Compare_ten_eps_counterexample :
    F64.lt 0 (F64.ofRatio 1 (2 ^ 57)) = true ∧
    F64.lt (F64.ofRatio 9 10) (F64.ofRatio 1 (2 ^ 57)) = false ∧
    1 + 10 * F64.ofRatio 1 (2 ^ 57) = (1 : F64) ∧
    IEEE.FloatComparator.Compare ⟨F64.ofRatio 1 (2 ^ 57)⟩ 1 (1 + 10 * F64.ofRatio 1 (2 ^ 57))
      = true := by
  decide

/-- C28, as stated, fails for `double`: `v = (1, 1)` has `LengthSquared() = 2` and
`Length() * Length() = 2 + 2^-51`. -/
theorem Vector_Length_square_counterexample :
    IEEE.Vector2.LengthSquared ⟨1, 1⟩ = 2 ∧
    (2 : F64) = F64.finite false (2 ^ 1075) ∧
    IEEE.Vector2.Length ⟨1, 1⟩ * IEEE.Vector2.Length ⟨1, 1⟩
      = F64.finite false (4503599627370497 * 2 ^ 1023) ∧
    F64.eq (IEEE.Vector2.Length ⟨1, 1⟩ * IEEE.Vector2.Length ⟨1, 1⟩)
      (IEEE.Vector2.LengthSquared ⟨1, 1⟩) = false := by
  decide

/-- C33, as stated, fails for `double`: `v = (2^-30, 2^-30)` has
`epsilon < v.Length()` and `v.LengthSquared() < epsilon`, yet `v.Normalized()` has
`Length()` `1 - 2^-53` and `LengthSquared()` `1 - 2^-52`, and
`(1, 1).Projected(v.Normalized())` is `(1, 1)` while
`v.Normalized() * Dot((1, 1), v.Normalized())` is `(1 - 2^-52, 1 - 2^-52)`. -/
theorem Vector_Projected_rescale_counterexample :
    F64.lt IEEE.epsilon
      (IEEE.Vector2.Length ⟨F64.ofRatio 1 (2 ^ 30), F64.ofRatio 1 (2 ^ 30)⟩) = true ∧
    F64.lt (IEEE.Vector2.LengthSquared ⟨F64.ofRatio 1 (2 ^ 30), F64.ofRatio 1 (2 ^ 30)⟩)
      IEEE.epsilon = true ∧
    IEEE.Vector2.Length
      (IEEE.Vector2.Normalized ⟨F64.ofRatio 1 (2 ^ 30), F64.ofRatio 1 (2 ^ 30)⟩)
      = F64.finite false (9007199254740991 * 2 ^ 1021) ∧
    IEEE.Vector2.LengthSquared
      (IEEE.Vector2.Normalized ⟨F64.ofRatio 1 (2 ^ 30), F64.ofRatio 1 (2 ^ 30)⟩)
      = F64.finite false (4503599627370495 * 2 ^ 1022) ∧
    IEEE.Vector2.Projected ⟨1, 1⟩
      (IEEE.Vector2.Normalized ⟨F64.ofRatio 1 (2 ^ 30), F64.ofRatio 1 (2 ^ 30)⟩)
      = ⟨1, 1⟩ ∧
    IEEE.Vector2.opMul
      (IEEE.Vector2.Normalized ⟨F64.ofRatio 1 (2 ^ 30), F64.ofRatio 1 (2 ^ 30)⟩)
      (IEEE.Vector2.Dot ⟨1, 1⟩
        (IEEE.Vector2.Normalized ⟨F64.ofRatio 1 (2 ^ 30), F64.ofRatio 1 (2 ^ 30)⟩))
      = ⟨F64.finite false (4503599627370495 * 2 ^ 1022),
         F64.finite false (4503599627370495 * 2 ^ 1022)⟩ := by
  decide

/-- C34, as stated, fails for `double`: for `self = (1, 0)` and `v = (1, 3)`, with
`v.LengthSquared() = 10 > epsilon`, the projection `P = self.Projected(v)` is
`(0.1, 0.30000000000000004)`, `Dot(self - P, v)` is `-2^-53`, not `0`, and
`P.Projected(v)` differs from `P`. -/
theorem Vector_Projected_orthogonal_counterexample :
    F64.lt IEEE.epsilon (IEEE.Vector2.LengthSquared ⟨1, 3⟩) = true ∧
    IEEE.Vector2.Projected ⟨1, 0⟩ ⟨1, 3⟩
      = ⟨F64.finite false (3602879701896397 * 2 ^ 1019),
         F64.finite false (1351079888211149 * 2 ^ 1022)⟩ ∧
    IEEE.Vector2.Dot (IEEE.Vector2.opSub ⟨1, 0⟩ (IEEE.Vector2.Projected ⟨1, 0⟩ ⟨1, 3⟩))
      ⟨1, 3⟩ = F64.finite true (2 ^ 1021) ∧
    F64.eq (F64.finite true (2 ^ 1021)) 0 = false ∧
    IEEE.Vector2.Projected (IEEE.Vector2.Projected ⟨1, 0⟩ ⟨1, 3⟩) ⟨1, 3⟩
      ≠ IEEE.Vector2.Projected ⟨1, 0⟩ ⟨1, 3⟩ := by
  decide

/-- C35, as stated, fails for `double`: `v = (1, 3)` has `LengthSquared() = 10`, and
`v.Reflected((3, 4))` has `LengthSquared()` `10.000000000000005`. -/
theorem Vector_Reflected_length_counterexample :
    IEEE.Vector2.LengthSquared ⟨1, 3⟩ = 10 ∧
    (10 : F64) = F64.finite false (5 * 2 ^ 1075) ∧
    IEEE.Vector2.LengthSquared (IEEE.Vector2.Reflected ⟨1, 3⟩ ⟨3, 4⟩)
      = F64.finite false (5629499534213123 * 2 ^ 1025) ∧
    F64.eq (IEEE.Vector2.LengthSquared (IEEE.Vector2.Reflected ⟨1, 3⟩ ⟨3, 4⟩))
      (IEEE.Vector2.LengthSquared ⟨1, 3⟩) = false := by
  decide

/-- C36, as stated, fails for `double`: for `a = (0.1, 0.2, 0.3)` and
`b = (0.4, 0.5, 0.7)`, neither `Dot(a.Cross(b), a)` nor `Dot(a.Cross(b), b)` is `0`. -/
theorem Vector_Cross_orthogonal_counterexample :
    F64.eq
      (IEEE.Vector3.Dot
        (IEEE.Vector3.Cross ⟨F64.ofRatio 1 10, F64.ofRatio 2 10, F64.ofRatio 3 10⟩
          ⟨F64.ofRatio 4 10, F64.ofRatio 5 10, F64.ofRatio 7 10⟩)
        ⟨F64.ofRatio 1 10, F64.ofRatio 2 10, F64.ofRatio 3 10⟩) 0 = false ∧
    F64.eq
      (IEEE.Vector3.Dot
        (IEEE.Vector3.Cross ⟨F64.ofRatio 1 10, F64.ofRatio 2 10, F64.ofRatio 3 10⟩
          ⟨F64.ofRatio 4 10, F64.ofRatio 5 10, F64.ofRatio 7 10⟩)
        ⟨F64.ofRatio 4 10, F64.ofRatio 5 10, F64.ofRatio 7 10⟩) 0 = false := by
  decide

end Claims

end Engine.Core.Math
